import Mathlib

/-!
# Amrutam telemedicine backend: booking, cancellation and status transitions

A shallow embedding of the service layer of the repository
(`src/modules/consultations/consultation.service.js`,
`src/modules/availability/availability.service.js`,
`src/modules/payments/payment.service.js`,
`src/modules/prescriptions/prescription.service.js`, `src/utils/time.js`), of
the idempotency guard (`src/middlewares/idempotencyMiddleware.js`), of the
pagination helpers (`src/utils/pagination.js`), of the job queue
(`src/jobs/queue.js`) and of the one-time code of
`src/modules/auth/auth.service.js`.

The relational store behind Prisma is a record of tables, each table a list of
rows in insertion order.  A service method is a function from the store to an
outcome (the value returned or the error thrown) together with the store that
the call leaves behind.  `prisma.$transaction` is the combinator `transaction`,
which puts the prior store back when its body throws.

Conventions
* Row identifiers are natural numbers drawn from the counter `Store.nextId`.
* A JavaScript `Date` is its time value, an integer number of milliseconds.
* JavaScript numbers that come out of a division are exact rationals.
* The numbers of the pagination parameters are `Number`s without a fraction
  (`JsNumber`): an integer is rounded to the nearest double where the code
  parses, subtracts or multiplies.
* Local time depends on the zone of the process, a `TimeZone`.
* The job queue runs inside an event loop with explicit held-back callbacks:
  a callback of `setImmediate` runs before a timer whose delay has not passed.
* A data-store write can fail for reasons outside the service code (lost
  connection, constraint violated).  Every method takes `db : Faults`, where
  `db k = true` says that the write statement number `k` of that call fails.
  `noFaults` is the data store that executes every statement.
-/

namespace Amrutam

/-! ## Data model -/

abbrev Id := Nat

/-- Time value of a JavaScript `Date`: milliseconds since the epoch. -/
abbrev Time := Int

inductive SlotStatus where
  | AVAILABLE
  | BOOKED
  deriving DecidableEq, Repr

inductive ConsultationStatus where
  | CONFIRMED
  | IN_PROGRESS
  | COMPLETED
  | CANCELLED
  | NO_SHOW
  deriving DecidableEq, Repr

/-- Values of `Consultation.paymentStatus`. -/
inductive ConsultationPaymentStatus where
  | PENDING
  | PAID
  | FAILED
  deriving DecidableEq, Repr

/-- Values of `Payment.status`. -/
inductive PaymentStatus where
  | INITIATED
  | SUCCESS
  | FAILED
  deriving DecidableEq, Repr

structure Doctor where
  id : Id
  userId : Id
  isApproved : Bool
  consultationFee : Nat
  deriving DecidableEq, Repr

structure AvailabilitySlot where
  id : Id
  doctorId : Id
  startTime : Time
  endTime : Time
  maxPatients : Nat
  status : SlotStatus
  deriving DecidableEq, Repr

structure Consultation where
  id : Id
  patientId : Id
  doctorId : Id
  slotId : Id
  reason : String
  status : ConsultationStatus
  paymentStatus : ConsultationPaymentStatus
  notes : Option String
  startedAt : Option Time
  endedAt : Option Time
  deriving DecidableEq, Repr

structure Payment where
  id : Id
  consultationId : Id
  amount : Nat
  currency : String
  status : PaymentStatus
  provider : Option String
  transactionReference : Option String
  deriving DecidableEq, Repr

structure Store where
  doctors : List Doctor
  slots : List AvailabilitySlot
  consultations : List Consultation
  payments : List Payment
  nextId : Id
  deriving DecidableEq, Repr

/-! ## Errors and outcomes -/

/-- Error classes of `middlewares/errorHandler.js` that the services throw, plus
the two errors that do not come from the service code: a failed data-store
statement and a JavaScript `TypeError`. -/
inductive ErrorName where
  | NotFoundError
  | ConflictError
  | ForbiddenError
  | PrismaError
  | TypeError
  deriving DecidableEq, Repr

structure AppError where
  name : ErrorName
  message : String
  deriving DecidableEq, Repr

/-- Status code set by the constructors of the error classes. -/
def AppError.statusCode (e : AppError) : Nat :=
  match e.name with
  | .NotFoundError => 404
  | .ConflictError => 409
  | .ForbiddenError => 403
  | .PrismaError => 500
  | .TypeError => 500

def NotFoundError (message : String) : AppError := ⟨.NotFoundError, message⟩

def ConflictError (message : String) : AppError := ⟨.ConflictError, message⟩

def ForbiddenError (message : String) : AppError := ⟨.ForbiddenError, message⟩

/-- Outcome of a call: what it returned or threw, and the store it left. -/
abbrev Outcome (α : Type) := Except AppError α × Store

/-- Write faults of one call: `db k = true` when write statement `k` fails. -/
abbrev Faults := Nat → Bool

def noFaults : Faults := fun _ => false

def isOk {ε α : Type} : Except ε α → Bool
  | .ok _ => true
  | .error _ => false

/-! ## Data-store primitives -/

def Store.findSlot (s : Store) (id : Id) : Option AvailabilitySlot :=
  s.slots.find? (fun x => x.id == id)

def Store.findDoctor (s : Store) (id : Id) : Option Doctor :=
  s.doctors.find? (fun d => d.id == id)

def Store.findDoctorByUserId (s : Store) (userId : Id) : Option Doctor :=
  s.doctors.find? (fun d => d.userId == userId)

def Store.findConsultation (s : Store) (id : Id) : Option Consultation :=
  s.consultations.find? (fun c => c.id == id)

/-- The statement `$transaction(async (tx) => body)`: the effects of `body` are
kept when it returns and discarded when it throws. -/
def transaction {α : Type} (body : Store → Outcome α) (s : Store) : Outcome α :=
  match body s with
  | (.ok a, s') => (.ok a, s')
  | (.error e, _) => (.error e, s)

def storeFailure : AppError := ⟨.PrismaError, "Database operation failed"⟩

def recordNotFound : AppError := ⟨.PrismaError, "Record to update not found"⟩

/-- The statement `consultation.create`: appends the row under a fresh id. -/
def consultationCreate (fails : Bool) (row : Id → Consultation) (s : Store) :
    Outcome Consultation :=
  if fails then (.error storeFailure, s)
  else (.ok (row s.nextId),
        { s with consultations := s.consultations ++ [row s.nextId], nextId := s.nextId + 1 })

/-- The statement `consultation.update` with `where: { id }`. -/
def consultationUpdate (fails : Bool) (id : Id) (f : Consultation → Consultation)
    (s : Store) : Outcome Consultation :=
  if fails then (.error storeFailure, s)
  else match s.findConsultation id with
    | none => (.error recordNotFound, s)
    | some c =>
      (.ok (f c),
       { s with consultations := s.consultations.map (fun x => if x.id = id then f x else x) })

/-- The statement `availabilitySlot.create`. -/
def slotCreate (fails : Bool) (row : Id → AvailabilitySlot) (s : Store) :
    Outcome AvailabilitySlot :=
  if fails then (.error storeFailure, s)
  else (.ok (row s.nextId),
        { s with slots := s.slots ++ [row s.nextId], nextId := s.nextId + 1 })

/-- The statement `availabilitySlot.update` with `where: { id }`. -/
def slotUpdate (fails : Bool) (id : Id) (f : AvailabilitySlot → AvailabilitySlot)
    (s : Store) : Outcome AvailabilitySlot :=
  if fails then (.error storeFailure, s)
  else match s.findSlot id with
    | none => (.error recordNotFound, s)
    | some x =>
      (.ok (f x), { s with slots := s.slots.map (fun y => if y.id = id then f y else y) })

/-- The statement `availabilitySlot.delete` with `where: { id }`.  The schema,
and with it the referential action of the rows that point at the slot, is not
part of the sources: a delete that the data store refuses is a fault of `db`. -/
def slotDelete (fails : Bool) (id : Id) (s : Store) : Outcome Unit :=
  if fails then (.error storeFailure, s)
  else match s.findSlot id with
    | none => (.error recordNotFound, s)
    | some _ => (.ok (), { s with slots := s.slots.filter (fun y => y.id != id) })

/-- The statement `payment.create`. -/
def paymentCreate (fails : Bool) (row : Id → Payment) (s : Store) : Outcome Payment :=
  if fails then (.error storeFailure, s)
  else (.ok (row s.nextId),
        { s with payments := s.payments ++ [row s.nextId], nextId := s.nextId + 1 })

/-- The statement `payment.update` with `where: { id }`. -/
def paymentUpdate (fails : Bool) (id : Id) (f : Payment → Payment) (s : Store) :
    Outcome Payment :=
  if fails then (.error storeFailure, s)
  else match s.payments.find? (fun p => p.id == id) with
    | none => (.error recordNotFound, s)
    | some p =>
      (.ok (f p), { s with payments := s.payments.map (fun x => if x.id = id then f x else x) })

/-! ## `utils/time.js` -/

/-- `getHoursDifference(date1, date2)`: `Math.abs(date2 - date1) / (1000 * 60 * 60)`. -/
def getHoursDifference (date1 date2 : Time) : ℚ :=
  ((|date2 - date1| : Int) : ℚ) / (1000 * 60 * 60)

/-- `isInPast(date)` evaluated when the clock reads `now`. -/
def isInPast (now date : Time) : Bool := decide (date < now)

/-- `doTimeRangesOverlap(start1, end1, start2, end2)`. -/
def doTimeRangesOverlap (start1 end1 start2 end2 : Time) : Bool :=
  decide (start1 < end2) && decide (start2 < end1)

/-! ## `ConsultationService.bookConsultation` -/

/-- Request body of a booking. -/
structure BookingData where
  doctorId : Id
  slotId : Id
  reason : String
  deriving DecidableEq, Repr

/-- Lines 14 to 34: `findUnique` of the slot with `include: { doctor: true }`
and the four guards.  Returns the slot and its doctor as read. -/
def bookChecks (data : BookingData) (s : Store) : Except AppError (AvailabilitySlot × Doctor) :=
  match s.findSlot data.slotId with
  | none => .error (NotFoundError "Availability slot not found")
  | some slot =>
    if slot.status ≠ .AVAILABLE then .error (ConflictError "Slot is not available")
    else match s.findDoctor slot.doctorId with
      | none => .error ⟨.TypeError, "Cannot read properties of null"⟩
      | some doctor =>
        if doctor.userId ≠ data.doctorId then
          .error (ConflictError "Slot does not belong to the specified doctor")
        else if !doctor.isApproved then
          .error (ForbiddenError "Doctor is not approved yet")
        else .ok (slot, doctor)

/-- Lines 37 to 69: the three writes, from the slot and doctor read before. -/
def bookWrites (db : Faults) (patientId : Id) (data : BookingData) (doctor : Doctor)
    (s : Store) : Outcome Consultation :=
  match consultationCreate (db 0)
      (fun id =>
        { id := id, patientId := patientId, doctorId := data.doctorId, slotId := data.slotId,
          reason := data.reason, status := .CONFIRMED, paymentStatus := .PENDING,
          notes := none, startedAt := none, endedAt := none }) s with
  | (.error e, s1) => (.error e, s1)
  | (.ok consultation, s1) =>
    match slotUpdate (db 1) data.slotId (fun x => { x with status := .BOOKED }) s1 with
    | (.error e, s2) => (.error e, s2)
    | (.ok _, s2) =>
      match paymentCreate (db 2)
          (fun id =>
            { id := id, consultationId := consultation.id, amount := doctor.consultationFee,
              currency := "INR", status := .INITIATED, provider := none,
              transactionReference := none }) s2 with
      | (.error e, s3) => (.error e, s3)
      | (.ok _, s3) => (.ok consultation, s3)

/-- Body of the transaction callback of `bookConsultation`. -/
def bookConsultationTx (db : Faults) (patientId : Id) (data : BookingData) (s : Store) :
    Outcome Consultation :=
  match bookChecks data s with
  | .error e => (.error e, s)
  | .ok (_, doctor) => bookWrites db patientId data doctor s

def bookConsultation (db : Faults) (patientId : Id) (data : BookingData) (s : Store) :
    Outcome Consultation :=
  transaction (bookConsultationTx db patientId data) s

/-! ## `ConsultationService.updateStatus` -/

/-- Name of a status, as Prisma hands the enum to JavaScript. -/
def ConsultationStatus.name : ConsultationStatus → String
  | .CONFIRMED => "CONFIRMED"
  | .IN_PROGRESS => "IN_PROGRESS"
  | .COMPLETED => "COMPLETED"
  | .CANCELLED => "CANCELLED"
  | .NO_SHOW => "NO_SHOW"

/-- Reading of a request string as a status; `none` when Prisma rejects it. -/
def ConsultationStatus.ofName (v : String) : Option ConsultationStatus :=
  if v = "CONFIRMED" then some .CONFIRMED
  else if v = "IN_PROGRESS" then some .IN_PROGRESS
  else if v = "COMPLETED" then some .COMPLETED
  else if v = "CANCELLED" then some .CANCELLED
  else if v = "NO_SHOW" then some .NO_SHOW
  else none

/-- The object literal `validTransitions` of `updateStatus`, indexed by the
current status; `none` is a key the literal does not have. -/
def validTransitions : ConsultationStatus → Option (List String)
  | .CONFIRMED => some ["IN_PROGRESS", "CANCELLED", "NO_SHOW"]
  | .IN_PROGRESS => some ["COMPLETED", "CANCELLED"]
  | _ => none

/-- The test `validTransitions[status] && validTransitions[status].includes(newStatus)`. -/
def transitionAllowed (status : ConsultationStatus) (newStatus : String) : Bool :=
  match validTransitions status with
  | none => false
  | some targets => targets.contains newStatus

/-- The transition table of the consultation state machine: the pairs of a
current status and a requested status that the specification admits. -/
def transitionTable : List (ConsultationStatus × String) :=
  [(.CONFIRMED, "IN_PROGRESS"), (.CONFIRMED, "CANCELLED"), (.CONFIRMED, "NO_SHOW"),
   (.IN_PROGRESS, "COMPLETED"), (.IN_PROGRESS, "CANCELLED")]

/-- Truthiness of an optional string, as in `notes && ...`. -/
def truthy : Option String → Bool
  | none => false
  | some v => v != ""

def validationFailure : AppError := ⟨.PrismaError, "Invalid value for enum argument"⟩

def updateStatus (db : Faults) (now : Time) (consultationId userId : Id) (newStatus : String)
    (notes : Option String) (s : Store) : Outcome Consultation :=
  match s.findConsultation consultationId with
  | none => (.error (NotFoundError "Consultation not found"), s)
  | some consultation =>
    if consultation.doctorId ≠ userId then
      (.error (ForbiddenError "Only the assigned doctor can update consultation status"), s)
    else if !transitionAllowed consultation.status newStatus then
      (.error (ConflictError
        ("Cannot transition from " ++ consultation.status.name ++ " to " ++ newStatus)), s)
    else match ConsultationStatus.ofName newStatus with
      | none => (.error validationFailure, s)
      | some status =>
        consultationUpdate (db 0) consultationId
          (fun c =>
            { c with
              status := status
              notes := if truthy notes then notes else c.notes
              startedAt := if newStatus = "IN_PROGRESS" then some now else c.startedAt
              endedAt := if newStatus = "COMPLETED" then some now else c.endedAt }) s

/-! ## `ConsultationService.cancelConsultation` -/

inductive Role where
  | PATIENT
  | DOCTOR
  | ADMIN
  deriving DecidableEq, Repr

/-- The part of `config/env.js` that the services read. -/
structure Config where
  CONSULTATION_CANCELLATION_HOURS : ℚ

/-- Configuration when the environment sets no cancellation window. -/
def defaultConfig : Config := ⟨2⟩

/-- Text of a number inside a template literal.  Exact for whole numbers, the
only settings whose text is looked at; a fraction is printed as a quotient. -/
def numberText (q : ℚ) : String :=
  if q.den = 1 then toString q.num else toString q.num ++ "/" ++ toString q.den

/-- Body of the transaction callback of `cancelConsultation`. -/
def cancelConsultationTx (db : Faults) (consultationId slotId : Id) (s : Store) :
    Outcome Consultation :=
  match consultationUpdate (db 0) consultationId (fun c => { c with status := .CANCELLED }) s with
  | (.error e, s1) => (.error e, s1)
  | (.ok updated, s1) =>
    match slotUpdate (db 1) slotId (fun x => { x with status := .AVAILABLE }) s1 with
    | (.error e, s2) => (.error e, s2)
    | (.ok _, s2) => (.ok updated, s2)

def cancelConsultation (cfg : Config) (db : Faults) (now : Time) (consultationId userId : Id)
    (_userRole : Role) (s : Store) : Outcome Consultation :=
  match s.findConsultation consultationId with
  | none => (.error (NotFoundError "Consultation not found"), s)
  | some consultation =>
    if consultation.patientId ≠ userId ∧ consultation.doctorId ≠ userId then
      (.error (ForbiddenError "Not authorized to cancel this consultation"), s)
    else if consultation.status = .CANCELLED ∨ consultation.status = .COMPLETED
        ∨ consultation.status = .NO_SHOW then
      (.error (ConflictError "Cannot cancel consultation in current status"), s)
    else match s.findSlot consultation.slotId with
      | none => (.error ⟨.TypeError, "Cannot read properties of null"⟩, s)
      | some slot =>
        if getHoursDifference now slot.startTime < cfg.CONSULTATION_CANCELLATION_HOURS then
          (.error (ConflictError
            ("Cannot cancel within " ++ numberText cfg.CONSULTATION_CANCELLATION_HOURS
              ++ " hours of consultation")), s)
        else transaction (cancelConsultationTx db consultationId consultation.slotId) s

/-! ## `AvailabilityService` -/

/-- Request body of `createSlot`; `maxPatients` defaults to 1. -/
structure SlotData where
  startTime : Time
  endTime : Time
  maxPatients : Option Nat
  deriving DecidableEq, Repr

/-- The `where` clause of the overlap query of `createSlot`, on one row. -/
def overlapQuery (doctorId : Id) (start stop : Time) (x : AvailabilitySlot) : Bool :=
  x.doctorId == doctorId &&
    ((decide (x.startTime ≤ start) && decide (x.endTime > start)) ||
     (decide (x.startTime < stop) && decide (x.endTime ≥ stop)) ||
     (decide (x.startTime ≥ start) && decide (x.endTime ≤ stop)))

def createSlot (db : Faults) (now : Time) (doctorUserId : Id) (data : SlotData) (s : Store) :
    Outcome AvailabilitySlot :=
  match s.findDoctorByUserId doctorUserId with
  | none => (.error (NotFoundError "Doctor profile not found"), s)
  | some doctor =>
    if isInPast now data.startTime then
      (.error (ConflictError "Cannot create slot in the past"), s)
    else if data.startTime ≥ data.endTime then
      (.error (ConflictError "End time must be after start time"), s)
    else match s.slots.find? (overlapQuery doctor.id data.startTime data.endTime) with
      | some _ => (.error (ConflictError "Slot overlaps with existing availability"), s)
      | none =>
        slotCreate (db 0)
          (fun id =>
            { id := id, doctorId := doctor.id, startTime := data.startTime,
              endTime := data.endTime, maxPatients := data.maxPatients.getD 1,
              status := .AVAILABLE }) s

/-- Request body of `updateSlot`: every field may be missing. -/
structure SlotUpdate where
  startTime : Option Time
  endTime : Option Time
  status : Option SlotStatus
  maxPatients : Option Nat
  deriving DecidableEq, Repr

def updateSlot (db : Faults) (doctorUserId slotId : Id) (data : SlotUpdate) (s : Store) :
    Outcome AvailabilitySlot :=
  match s.findSlot slotId with
  | none => (.error (NotFoundError "Slot not found"), s)
  | some slot =>
    match s.findDoctor slot.doctorId with
    | none => (.error ⟨.TypeError, "Cannot read properties of null"⟩, s)
    | some doctor =>
      if doctor.userId ≠ doctorUserId then
        (.error (ForbiddenError "Not authorized to update this slot"), s)
      else if slot.status = .BOOKED then
        (.error (ConflictError "Cannot update a booked slot"), s)
      else
        slotUpdate (db 0) slotId
          (fun x =>
            { x with
              startTime := data.startTime.getD x.startTime
              endTime := data.endTime.getD x.endTime
              status := data.status.getD x.status
              maxPatients := data.maxPatients.getD x.maxPatients }) s

def deleteSlot (db : Faults) (doctorUserId slotId : Id) (s : Store) : Outcome String :=
  match s.findSlot slotId with
  | none => (.error (NotFoundError "Slot not found"), s)
  | some slot =>
    match s.findDoctor slot.doctorId with
    | none => (.error ⟨.TypeError, "Cannot read properties of null"⟩, s)
    | some doctor =>
      if doctor.userId ≠ doctorUserId then
        (.error (ForbiddenError "Not authorized to delete this slot"), s)
      else if slot.status = .BOOKED then
        (.error (ConflictError "Cannot delete a booked slot"), s)
      else match slotDelete (db 0) slotId s with
        | (.error e, s1) => (.error e, s1)
        | (.ok _, s1) => (.ok "Slot deleted successfully", s1)

/-! ## `PaymentService.handleWebhook` -/

/-- A field of a JSON body that is compared with a nullable text column. -/
inductive JsonText where
  | absent
  | null
  | text (v : String)
  deriving DecidableEq, Repr

/-- Request body of the payment webhook. -/
structure WebhookData where
  transactionReference : JsonText
  status : Option String
  deriving DecidableEq, Repr

/-- The filter `where: { transactionReference }`: an absent field filters nothing. -/
def referenceMatches (ref : JsonText) (p : Payment) : Bool :=
  match ref with
  | .absent => true
  | .null => p.transactionReference == none
  | .text v => p.transactionReference == some v

def PaymentStatus.ofName (v : String) : Option PaymentStatus :=
  if v = "INITIATED" then some .INITIATED
  else if v = "SUCCESS" then some .SUCCESS
  else if v = "FAILED" then some .FAILED
  else none

/-- Body of the transaction callback of `handleWebhook`. -/
def handleWebhookTx (db : Faults) (payment : Payment) (status : Option String) (s : Store) :
    Outcome Payment :=
  let written : Outcome Payment :=
    match status with
    | none => paymentUpdate (db 0) payment.id (fun p => p) s
    | some v =>
      match PaymentStatus.ofName v with
      | none => (.error validationFailure, s)
      | some st => paymentUpdate (db 0) payment.id (fun p => { p with status := st }) s
  match written with
  | (.error e, s1) => (.error e, s1)
  | (.ok updatedPayment, s1) =>
    if status = some "SUCCESS" then
      match consultationUpdate (db 1) payment.consultationId
          (fun c => { c with paymentStatus := .PAID }) s1 with
      | (.error e, s2) => (.error e, s2)
      | (.ok _, s2) => (.ok updatedPayment, s2)
    else if status = some "FAILED" then
      match consultationUpdate (db 1) payment.consultationId
          (fun c => { c with paymentStatus := .FAILED }) s1 with
      | (.error e, s2) => (.error e, s2)
      | (.ok _, s2) => (.ok updatedPayment, s2)
    else (.ok updatedPayment, s1)

def handleWebhook (db : Faults) (data : WebhookData) (s : Store) : Outcome Payment :=
  match s.payments.find? (referenceMatches data.transactionReference) with
  | none => (.error (NotFoundError "Payment not found"), s)
  | some payment => transaction (handleWebhookTx db payment data.status) s

/-! ## Sequences of calls -/

/-- A call of one of the service methods, with its arguments. -/
inductive Op where
  | createSlot (doctorUserId : Id) (data : SlotData)
  | updateSlot (doctorUserId slotId : Id) (data : SlotUpdate)
  | deleteSlot (doctorUserId slotId : Id)
  | bookConsultation (patientId : Id) (data : BookingData)
  | updateStatus (consultationId userId : Id) (newStatus : String) (notes : Option String)
  | cancelConsultation (consultationId userId : Id) (userRole : Role)
  | handleWebhook (data : WebhookData)

/-- What a call meets outside its arguments: the clock and the write faults. -/
structure Env where
  now : Time
  db : Faults

/-- Store left by a call, whether it returned or threw. -/
def Op.exec (cfg : Config) (env : Env) (op : Op) (s : Store) : Store :=
  match op with
  | .createSlot u d => (Amrutam.createSlot env.db env.now u d s).2
  | .updateSlot u i d => (Amrutam.updateSlot env.db u i d s).2
  | .deleteSlot u i => (Amrutam.deleteSlot env.db u i s).2
  | .bookConsultation p d => (Amrutam.bookConsultation env.db p d s).2
  | .updateStatus c u n notes => (Amrutam.updateStatus env.db env.now c u n notes s).2
  | .cancelConsultation c u r => (Amrutam.cancelConsultation cfg env.db env.now c u r s).2
  | .handleWebhook d => (Amrutam.handleWebhook env.db d s).2

/-- Store left by a series of calls made one after the other. -/
def run (cfg : Config) : List (Env × Op) → Store → Store
  | [], s => s
  | (env, op) :: rest, s => run cfg rest (op.exec cfg env s)

/-- Store holding the given doctors and no slot, consultation or payment. -/
def Store.empty (doctors : List Doctor) : Store :=
  { doctors := doctors, slots := [], consultations := [], payments := [], nextId := 0 }

/-- Series of booking calls made one after the other: the outcome of each call
and the store after the last one. -/
def bookAll : List (Faults × Id × BookingData) → Store →
    List (Except AppError Consultation) × Store
  | [], s => ([], s)
  | (db, patientId, data) :: rest, s =>
    ((bookConsultation db patientId data s).1 ::
        (bookAll rest (bookConsultation db patientId data s).2).1,
      (bookAll rest (bookConsultation db patientId data s).2).2)

/-! ## Integrity conditions and invariants -/

/-- Every slot row names a doctor row: the foreign key behind
`include: { doctor: true }`. -/
def SlotsHaveDoctor (s : Store) : Prop :=
  ∀ slot ∈ s.slots, (s.findDoctor slot.doctorId).isSome = true

instance (s : Store) : Decidable (SlotsHaveDoctor s) := by
  unfold SlotsHaveDoctor; infer_instance

/-- Consultations that reference the slot and are not cancelled. -/
def activeOn (s : Store) (slotId : Id) : List Consultation :=
  s.consultations.filter (fun c => c.slotId == slotId && c.status != .CANCELLED)

/-- A slot is referenced by at most one consultation that is not cancelled. -/
def SlotExclusive (s : Store) : Prop :=
  ∀ slotId : Id, (activeOn s slotId).length ≤ 1

/-- A confirmed or running consultation references a booked slot. -/
def LiveOnBooked (s : Store) : Prop :=
  ∀ c ∈ s.consultations, c.status = .CONFIRMED ∨ c.status = .IN_PROGRESS →
    ∃ slot, s.findSlot c.slotId = some slot ∧ slot.status = .BOOKED

/-- Terminal statuses of the consultation state machine. -/
def ConsultationStatus.terminal : ConsultationStatus → Bool
  | .COMPLETED => true
  | .CANCELLED => true
  | .NO_SHOW => true
  | _ => false

/-- Time stamps that the status of a consultation promises. -/
def Stamped (s : Store) : Prop :=
  ∀ c ∈ s.consultations,
    (c.status = .IN_PROGRESS → ∃ a, c.startedAt = some a) ∧
    (c.status = .COMPLETED → ∃ a b, c.startedAt = some a ∧ c.endedAt = some b ∧ a ≤ b)

/-- The clock readings of a series of calls never go back. -/
def clockMonotone (calls : List (Env × Op)) : Prop :=
  (calls.map (fun e => e.1.now)).Pairwise (fun a b => a ≤ b)

instance (calls : List (Env × Op)) : Decidable (clockMonotone calls) := by
  unfold clockMonotone; infer_instance

/-- Row keys are below the counter and consultation keys are distinct. -/
structure KeysFresh (s : Store) : Prop where
  slotIds : ∀ x ∈ s.slots, x.id < s.nextId
  consultationIds : ∀ c ∈ s.consultations, c.id < s.nextId
  references : ∀ c ∈ s.consultations, c.slotId < s.nextId
  distinct : (s.consultations.map (fun c => c.id)).Nodup

/-- A consultation that is not cancelled holds its slot: the slot row exists,
every row under that key is booked, and no other consultation that is not
cancelled references the key. -/
structure SlotsHeld (s : Store) : Prop where
  booked : ∀ c ∈ s.consultations, c.status ≠ .CANCELLED →
    (∃ x ∈ s.slots, x.id = c.slotId) ∧ ∀ x ∈ s.slots, x.id = c.slotId → x.status = .BOOKED
  single : ∀ c ∈ s.consultations, ∀ c' ∈ s.consultations, c.slotId = c'.slotId →
    c.status ≠ .CANCELLED → c'.status ≠ .CANCELLED → c = c'

/-- Time stamps relative to the last clock reading `t`. -/
def StampedBy (t : Time) (s : Store) : Prop :=
  ∀ c ∈ s.consultations,
    (c.status = .IN_PROGRESS → ∃ a, c.startedAt = some a) ∧
    (c.status = .COMPLETED → ∃ a b, c.startedAt = some a ∧ c.endedAt = some b ∧ a ≤ b) ∧
    (∀ a, c.startedAt = some a → a ≤ t)

/-- The ways in which one call made at time `now` can change the store. -/
inductive Effect (now : Time) (s : Store) : Store → Prop
  | unchanged : Effect now s s
  | slotCreated (row : AvailabilitySlot) (hid : row.id = s.nextId) :
      Effect now s { s with slots := s.slots ++ [row], nextId := s.nextId + 1 }
  | slotUpdated (slotId : Id) (slot : AvailabilitySlot)
      (f : AvailabilitySlot → AvailabilitySlot)
      (hfind : s.findSlot slotId = some slot) (hfree : slot.status ≠ .BOOKED)
      (hid : ∀ y, (f y).id = y.id) :
      Effect now s { s with slots := s.slots.map (fun y => if y.id = slotId then f y else y) }
  | slotDeleted (slotId : Id) (slot : AvailabilitySlot)
      (hfind : s.findSlot slotId = some slot) (hfree : slot.status ≠ .BOOKED) :
      Effect now s { s with slots := s.slots.filter (fun y => y.id != slotId) }
  | booked (patientId : Id) (data : BookingData) (slot : AvailabilitySlot) (fee : Nat)
      (hfind : s.findSlot data.slotId = some slot) (havail : slot.status = .AVAILABLE) :
      Effect now s
        { doctors := s.doctors
          slots := s.slots.map
            (fun y => if y.id = data.slotId then { y with status := .BOOKED } else y)
          consultations := s.consultations ++
            [{ id := s.nextId, patientId := patientId, doctorId := data.doctorId,
               slotId := data.slotId, reason := data.reason, status := .CONFIRMED,
               paymentStatus := .PENDING, notes := none, startedAt := none, endedAt := none }]
          payments := s.payments ++
            [{ id := s.nextId + 1, consultationId := s.nextId, amount := fee,
               currency := "INR", status := .INITIATED, provider := none,
               transactionReference := none }]
          nextId := s.nextId + 2 }
  | statusUpdated (consultationId : Id) (c : Consultation) (newStatus : String)
      (status : ConsultationStatus) (notes : Option String)
      (hfind : s.findConsultation consultationId = some c)
      (hallowed : transitionAllowed c.status newStatus = true)
      (hname : ConsultationStatus.ofName newStatus = some status) :
      Effect now s
        { s with
          consultations := s.consultations.map
            (fun x => if x.id = consultationId then
              { x with
                status := status
                notes := if truthy notes then notes else x.notes
                startedAt := if newStatus = "IN_PROGRESS" then some now else x.startedAt
                endedAt := if newStatus = "COMPLETED" then some now else x.endedAt }
              else x) }
  | cancelled (consultationId : Id) (c : Consultation) (slot : AvailabilitySlot)
      (hfind : s.findConsultation consultationId = some c)
      (hlive : c.status = .CONFIRMED ∨ c.status = .IN_PROGRESS)
      (hslot : s.findSlot c.slotId = some slot) :
      Effect now s
        { s with
          consultations := s.consultations.map
            (fun x => if x.id = consultationId then { x with status := .CANCELLED } else x)
          slots := s.slots.map
            (fun y => if y.id = c.slotId then { y with status := .AVAILABLE } else y) }
  | settled (g : Consultation → Consultation) (payments : List Payment)
      (hg : ∀ c, ∃ ps, g c = { c with paymentStatus := ps }) :
      Effect now s { s with consultations := s.consultations.map g, payments := payments }

/-! ## Booking attempts that overlap in time

Prisma runs the callback of `$transaction` at the isolation level the data store
has by default (the call asks for no other), and `findUnique` is a plain read
that takes no lock.  The callbacks of two requests can therefore both run their
reads before either commits.  The writes of a callback become visible to the
others when it commits. -/

/-- How far one booking request has got. -/
inductive TxState where
  | pending
  | checked (doctor : Doctor)
  | finished (result : Except AppError Consultation)
  deriving Repr

/-- A turn of the schedule: request `i` runs its read and guards (lines 14
to 34), or runs its writes (lines 37 to 67) and commits. -/
inductive Turn where
  | reads (i : Nat)
  | writes (i : Nat)
  deriving DecidableEq, Repr

/-- The committed store and the progress of every request. -/
structure Race where
  store : Store
  txs : List TxState
  deriving Repr

def Race.turn (reqs : List (Id × BookingData)) (r : Race) : Turn → Race
  | .reads i =>
    match reqs.get? i, r.txs.get? i with
    | some (_, data), some .pending =>
      match bookChecks data r.store with
      | .error e => { r with txs := r.txs.set i (.finished (.error e)) }
      | .ok (_, doctor) => { r with txs := r.txs.set i (.checked doctor) }
    | _, _ => r
  | .writes i =>
    match reqs.get? i, r.txs.get? i with
    | some (patientId, data), some (.checked doctor) =>
      { store := (transaction (bookWrites noFaults patientId data doctor) r.store).2
        txs := r.txs.set i
          (.finished (transaction (bookWrites noFaults patientId data doctor) r.store).1) }
    | _, _ => r

/-- Runs the requests under a schedule, from a store in which none has begun. -/
def interleave (reqs : List (Id × BookingData)) (schedule : List Turn) (s : Store) : Race :=
  schedule.foldl (Race.turn reqs) ⟨s, reqs.map (fun _ => .pending)⟩

/-! ## Sample data -/

def sampleDoctor : Doctor :=
  { id := 7, userId := 70, isApproved := true, consultationFee := 500 }

/-- One hour, in milliseconds. -/
def hourMs : Time := 3600000

/-- A free slot of the sample doctor from hour 10 to hour 11. -/
def sampleSlot : AvailabilitySlot :=
  { id := 0, doctorId := 7, startTime := 10 * hourMs, endTime := 11 * hourMs,
    maxPatients := 1, status := .AVAILABLE }

def sampleStore : Store :=
  { doctors := [sampleDoctor], slots := [sampleSlot], consultations := [], payments := [],
    nextId := 1 }

def sampleBooking : BookingData := { doctorId := 70, slotId := 0, reason := "fever" }

/-- Two patients ask for the sample slot at the same time. -/
def raceRequests : List (Id × BookingData) := [(5, sampleBooking), (6, sampleBooking)]

/-- Both requests read the slot before either commits. -/
def raceSchedule : List Turn := [.reads 0, .reads 1, .writes 0, .writes 1]

/-- The sample store after patient 5 has booked the sample slot. -/
def bookedSample : Store := (bookConsultation noFaults 5 sampleBooking sampleStore).2

/-- The consultation that the sample booking creates. -/
def sampleConsultation : Consultation :=
  { id := 1, patientId := 5, doctorId := 70, slotId := 0, reason := "fever",
    status := .CONFIRMED, paymentStatus := .PENDING, notes := none,
    startedAt := none, endedAt := none }

/-- The booked sample store once the consultation has been held, from hour 10
to hour 11. -/
def completedSample : Store :=
  { bookedSample with
    consultations :=
      [{ sampleConsultation with
         status := .COMPLETED, startedAt := some (10 * hourMs), endedAt := some (11 * hourMs) }] }

/-- The sample doctor opens a slot, patient 5 books it, and the doctor starts
and ends the consultation, at hours 1, 2, 10 and 11. -/
def sampleCalls : List (Env × Op) :=
  [(⟨1 * hourMs, noFaults⟩, .createSlot 70 ⟨10 * hourMs, 11 * hourMs, none⟩),
   (⟨2 * hourMs, noFaults⟩, .bookConsultation 5 sampleBooking),
   (⟨10 * hourMs, noFaults⟩, .updateStatus 1 70 "IN_PROGRESS" none),
   (⟨11 * hourMs, noFaults⟩, .updateStatus 1 70 "COMPLETED" none)]

/-! ## `AvailabilityService.getAvailableSlots` -/

/-- Query string of `getAvailableSlots`; a missing or empty value is `none`. -/
structure SlotQuery where
  startDate : Option Time
  endDate : Option Time
  deriving DecidableEq, Repr

/-- The `where` object of `getAvailableSlots`.  An object has one value for
each key: `startTime` holds one `gte` bound. -/
structure SlotWhere where
  doctorId : Id
  status : SlotStatus
  startTimeGte : Time
  endTimeLte : Option Time
  deriving DecidableEq, Repr

/-- The object literal of lines 68 to 74: the first three keys, then the two
spreads.  The spread for `startDate` writes the key `startTime` again. -/
def slotWhere (now : Time) (doctorId : Id) (query : SlotQuery) : SlotWhere :=
  let base : SlotWhere :=
    { doctorId := doctorId, status := .AVAILABLE, startTimeGte := now, endTimeLte := none }
  let withStart : SlotWhere :=
    match query.startDate with
    | some d => { base with startTimeGte := d }
    | none => base
  match query.endDate with
  | some d => { withStart with endTimeLte := some d }
  | none => withStart

/-- A row passes the `where` object. -/
def SlotWhere.admits (w : SlotWhere) (x : AvailabilitySlot) : Bool :=
  x.doctorId == w.doctorId && x.status == w.status && decide (w.startTimeGte ≤ x.startTime) &&
    (match w.endTimeLte with
     | some d => decide (x.endTime ≤ d)
     | none => true)

/-- The order of `orderBy: { startTime: 'asc' }`. -/
def startsBefore (a b : AvailabilitySlot) : Prop := a.startTime ≤ b.startTime

instance : DecidableRel startsBefore := fun a b => by
  unfold startsBefore; infer_instance

instance : IsTotal AvailabilitySlot startsBefore := ⟨fun a b => le_total a.startTime b.startTime⟩

instance : IsTrans AvailabilitySlot startsBefore := ⟨fun _ _ _ h h' => le_trans h h'⟩

def getAvailableSlots (now : Time) (doctorId : Id) (query : SlotQuery) (s : Store) :
    List AvailabilitySlot :=
  (s.slots.filter (slotWhere now doctorId query).admits).insertionSort startsBefore

/-! ## `middlewares/idempotencyMiddleware.js` -/

/-- A row of the idempotency key table. -/
structure IdempotencyKey where
  key : String
  userId : Option Id
  method : String
  path : String
  requestHash : String
  responseBody : String
  statusCode : Nat
  expiresAt : Time
  deriving DecidableEq, Repr

/-- What the guard reads of a request: the `idempotency-key` header, the method,
the path, the body as JSON text, and the authenticated user if any. -/
structure Request where
  idempotencyKey : Option String
  method : String
  path : String
  body : String
  user : Option Id
  deriving DecidableEq, Repr

/-- A response sent with `res.status(code).json(body)`. -/
structure Response where
  statusCode : Nat
  body : String
  deriving DecidableEq, Repr

/-- The state the guard works on: the store of the services and the key table. -/
structure App where
  store : Store
  keys : List IdempotencyKey
  deriving DecidableEq, Repr

/-- The rest of the middleware chain behind `next()`: it answers the request
and may change the store of the services. -/
abbrev Handler := Store → Response × Store

/-- The time zone of the process, in milliseconds.  `offsetAt t` is local time
minus UTC at the instant `t`, and `offsetOfLocal l` is the offset under which
the local time `l` is read back as an instant: `LocalTZA(t, true)` and
`LocalTZA(t, false)` of ECMAScript. -/
structure TimeZone where
  offsetAt : Time → Int
  offsetOfLocal : Int → Int

/-- A zone whose offset never changes. -/
def TimeZone.fixed (offset : Int) : TimeZone := ⟨fun _ => offset, fun _ => offset⟩

/-- The zone of UTC. -/
def utc : TimeZone := TimeZone.fixed 0

/-- `addHours(date, hours)` for a whole number of hours.  `setHours` is given
the local hour plus `hours` and keeps the other local fields: the local time
moves on by `hours` hours and is read back as an instant. -/
def addHours (zone : TimeZone) (date : Time) (hours : Int) : Time :=
  date + zone.offsetAt date + hours * 3600000
    - zone.offsetOfLocal (date + zone.offsetAt date + hours * 3600000)

/-- Digit of base sixteen, in lower case. -/
def hexDigit (n : Nat) : Char :=
  if n < 10 then Char.ofNat (48 + n) else Char.ofNat (87 + n)

/-- What `JSON.stringify` writes for one character of a string: the quotation
mark, the backslash and the control characters are escaped. -/
def jsonEscape (c : Char) : List Char :=
  if c.toNat = 34 then [Char.ofNat 92, Char.ofNat 34]
  else if c.toNat = 92 then [Char.ofNat 92, Char.ofNat 92]
  else if c.toNat = 8 then [Char.ofNat 92, 'b']
  else if c.toNat = 9 then [Char.ofNat 92, 't']
  else if c.toNat = 10 then [Char.ofNat 92, 'n']
  else if c.toNat = 12 then [Char.ofNat 92, 'f']
  else if c.toNat = 13 then [Char.ofNat 92, 'r']
  else if c.toNat < 32 then
    [Char.ofNat 92, 'u', '0', '0', hexDigit (c.toNat / 16), hexDigit (c.toNat % 16)]
  else [c]

/-- `JSON.stringify` of a string. -/
def jsonString (text : String) : String :=
  "\"" ++ String.mk (text.toList.map jsonEscape).flatten ++ "\""

/-- `hashRequest({ method, path, body })`: the digest of the JSON text of the
object, whose `body` is given as JSON text.  The digest function of the
`crypto` library is a parameter. -/
def hashRequest (sha256 : String → String) (method path body : String) : String :=
  sha256 ("\x7b\"method\":" ++ jsonString method ++ ",\"path\":" ++ jsonString path
    ++ ",\"body\":" ++ body ++ "\x7d")

/-- The statement `idempotencyKey.create`; the key column is unique. -/
def idempotencyKeyCreate (fails : Bool) (row : IdempotencyKey) (a : App) :
    Except AppError IdempotencyKey × App :=
  if fails then (.error storeFailure, a)
  else if a.keys.any (fun k => k.key == row.key) then
    (.error ⟨.PrismaError, "Unique constraint failed"⟩, a)
  else (.ok row, { a with keys := a.keys ++ [row] })

/-- The statement `idempotencyKey.delete` with `where: { key }`. -/
def idempotencyKeyDelete (fails : Bool) (key : String) (a : App) : Except AppError Unit × App :=
  if fails then (.error storeFailure, a)
  else match a.keys.find? (fun k => k.key == key) with
    | none => (.error recordNotFound, a)
    | some _ => (.ok (), { a with keys := a.keys.filter (fun k => k.key != key) })

/-- The call `next()` with `res.json` as Express provides it. -/
def passThrough (next : Handler) (a : App) : Except AppError Response × App :=
  (.ok (next a.store).1, { a with store := (next a.store).2 })

/-- The guard.  `zone` is the time zone of the process, `ttl` is
`config.IDEMPOTENCY_KEY_EXPIRY_HOURS`, `now` the clock at the request, `db 0`
the fault of the one write the call makes.  An error handed to `next(error)` is
the error outcome. -/
def idempotencyMiddleware (zone : TimeZone) (ttl : Int) (sha256 : String → String)
    (db : Faults) (now : Time)
    (next : Handler) (req : Request) (a : App) : Except AppError Response × App :=
  match req.idempotencyKey with
  | none => passThrough next a
  | some idempotencyKey =>
    if idempotencyKey = "" then passThrough next a
    else if !(["POST", "PUT", "PATCH"].contains req.method) then passThrough next a
    else
      match a.keys.find? (fun k => k.key == idempotencyKey) with
      | some existingKey =>
        if now > existingKey.expiresAt then
          match idempotencyKeyDelete (db 0) idempotencyKey a with
          | (.error e, a1) => (.error e, a1)
          | (.ok _, a1) => passThrough next a1
        else
          (.ok { statusCode := if existingKey.statusCode = 0 then 200 else existingKey.statusCode
                 body := existingKey.responseBody }, a)
      | none =>
        let handled := next a.store
        let a1 : App := { a with store := handled.2 }
        if 200 ≤ handled.1.statusCode ∧ handled.1.statusCode < 300 then
          (.ok handled.1,
            (idempotencyKeyCreate (db 0)
              { key := idempotencyKey, userId := req.user, method := req.method,
                path := req.path,
                requestHash := hashRequest sha256 req.method req.path req.body,
                responseBody := handled.1.body, statusCode := handled.1.statusCode,
                expiresAt := addHours zone now ttl } a1).2)
        else (.ok handled.1, a1)

/-! ## Conditions on the slots -/

/-- No two rows of one doctor under different keys have overlapping intervals. -/
def NoOverlap (s : Store) : Prop :=
  ∀ x ∈ s.slots, ∀ y ∈ s.slots, x.doctorId = y.doctorId → x.id ≠ y.id →
    doTimeRangesOverlap x.startTime x.endTime y.startTime y.endTime = false

instance (s : Store) : Decidable (NoOverlap s) := by
  unfold NoOverlap; infer_instance

/-- Every slot starts before it ends. -/
def ProperIntervals (s : Store) : Prop :=
  ∀ x ∈ s.slots, x.startTime < x.endTime

instance (s : Store) : Decidable (ProperIntervals s) := by
  unfold ProperIntervals; infer_instance

/-- The calls that book or cancel: `bookConsultation` and `cancelConsultation`. -/
def Op.booksOrCancels : Op → Bool
  | .bookConsultation _ _ => true
  | .cancelConsultation _ _ _ => true
  | _ => false

/-! ## More sample data -/

/-- The sample doctor opens 10:00 to 11:00, then moves its end to 9:00. -/
def invertCalls : List (Env × Op) :=
  [(⟨1 * hourMs, noFaults⟩, .createSlot 70 ⟨10 * hourMs, 11 * hourMs, none⟩),
   (⟨1 * hourMs, noFaults⟩,
      .updateSlot 70 0 { startTime := none, endTime := some (9 * hourMs),
                         status := none, maxPatients := none })]

/-- Half an hour, in milliseconds. -/
def halfHourMs : Time := 1800000

/-- The sample doctor with one slot from 10:30 to 11:30. -/
def halfPastStore : Store :=
  { doctors := [sampleDoctor]
    slots := [{ id := 0, doctorId := 7, startTime := 21 * halfHourMs,
                endTime := 23 * halfHourMs, maxPatients := 1, status := .AVAILABLE }]
    consultations := [], payments := [], nextId := 1 }

/-- The sample doctor opens 10:00 to 11:00 and 11:00 to 12:00, then moves the
start of the second slot to 10:30. -/
def overlapCalls : List (Env × Op) :=
  [(⟨1 * hourMs, noFaults⟩, .createSlot 70 ⟨10 * hourMs, 11 * hourMs, none⟩),
   (⟨1 * hourMs, noFaults⟩, .createSlot 70 ⟨11 * hourMs, 12 * hourMs, none⟩),
   (⟨1 * hourMs, noFaults⟩,
      .updateSlot 70 1 { startTime := some (21 * halfHourMs), endTime := none,
                         status := none, maxPatients := none })]

/-- The booked sample store with its payment settled as SUCCESS under the
reference TXN_1 and the consultation marked PAID. -/
def paidSample : Store :=
  { bookedSample with
    consultations := [{ sampleConsultation with paymentStatus := .PAID }]
    payments :=
      [{ id := 2, consultationId := 1, amount := 500, currency := "INR", status := .SUCCESS,
         provider := some "STUB_PROVIDER", transactionReference := some "TXN_1" }] }

/-- A handler that answers 201 and leaves a trace in the store each time it
runs: it advances the key counter. -/
def countingHandler : Handler :=
  fun s => (⟨201, "created"⟩, { s with nextId := s.nextId + 1 })

/-- A write request carrying the idempotency key k1. -/
def sampleRequest : Request :=
  { idempotencyKey := some "k1", method := "POST", path := "/consultations",
    body := "\x7b\x7d", user := some 5 }

/-- A key table in which k1 is stored with an expiry of hour 1. -/
def staleApp : App :=
  { store := sampleStore
    keys := [{ key := "k1", userId := some 5, method := "POST", path := "/consultations",
               requestHash := "h", responseBody := "old", statusCode := 201,
               expiresAt := 1 * hourMs }] }

/-- The sample store with an empty key table. -/
def freshApp : App := { store := sampleStore, keys := [] }

/-! ## Payments and consultations in step -/

/-- The pairs of a payment status and a consultation payment status that go
together: INITIATED with PENDING, SUCCESS with PAID, FAILED with FAILED. -/
def statusesAgree : PaymentStatus → ConsultationPaymentStatus → Bool
  | .INITIATED, .PENDING => true
  | .SUCCESS, .PAID => true
  | .FAILED, .FAILED => true
  | _, _ => false

/-- Every payment agrees with the consultation it names. -/
def PaymentsAgree (s : Store) : Prop :=
  ∀ p ∈ s.payments, ∀ c ∈ s.consultations, c.id = p.consultationId →
    statusesAgree p.status c.paymentStatus = true

instance (s : Store) : Decidable (PaymentsAgree s) := by
  unfold PaymentsAgree; infer_instance

/-- A consultation that is CANCELLED does not hold its slot: the slot is
AVAILABLE, or another consultation that is not CANCELLED names it. -/
def CancelledReleases (s : Store) : Prop :=
  ∀ c ∈ s.consultations, c.status = .CANCELLED →
    ∀ slot ∈ s.slots, slot.id = c.slotId →
      slot.status = .AVAILABLE ∨
        ∃ other ∈ s.consultations,
          other.id ≠ c.id ∧ other.slotId = c.slotId ∧ other.status ≠ .CANCELLED

instance (s : Store) : Decidable (CancelledReleases s) := by
  unfold CancelledReleases; infer_instance

/-! ## `PrescriptionService.createPrescription` -/

structure Prescription where
  id : Id
  consultationId : Id
  doctorId : Id
  patientId : Id
  medications : String
  advice : Option String
  deriving DecidableEq, Repr

/-- Request body of `createPrescription`; the route puts no schema in front of
it. -/
structure PrescriptionData where
  consultationId : Id
  patientId : Id
  medications : String
  advice : Option String
  deriving DecidableEq, Repr

/-- The store of the services together with the prescription table. -/
structure Clinic where
  store : Store
  prescriptions : List Prescription
  deriving DecidableEq, Repr

/-- The statement `prescription.create`: appends the row under a fresh id. -/
def prescriptionCreate (fails : Bool) (row : Id → Prescription) (k : Clinic) :
    Except AppError Prescription × Clinic :=
  if fails then (.error storeFailure, k)
  else (.ok (row k.store.nextId),
        { store := { k.store with nextId := k.store.nextId + 1 }
          prescriptions := k.prescriptions ++ [row k.store.nextId] })

/-- The method `createPrescription(doctorId, data)`; `doctorId` is the user id
of the caller.  Reading `doctor.id` of a missing doctor row is a `TypeError`. -/
def createPrescription (db : Faults) (doctorId : Id) (data : PrescriptionData) (k : Clinic) :
    Except AppError Prescription × Clinic :=
  match k.store.findConsultation data.consultationId with
  | none => (.error (NotFoundError "Consultation not found"), k)
  | some consultation =>
    if consultation.doctorId ≠ doctorId then
      (.error (ForbiddenError "Not authorized to create prescription for this consultation"), k)
    else if consultation.status ≠ .COMPLETED then
      (.error (ForbiddenError "Can only create prescription for completed consultations"), k)
    else match k.store.findDoctorByUserId doctorId with
      | none => (.error ⟨.TypeError, "Cannot read properties of null"⟩, k)
      | some doctor =>
        prescriptionCreate (db 0)
          (fun id =>
            { id := id, consultationId := data.consultationId, doctorId := doctor.id,
              patientId := data.patientId, medications := data.medications,
              advice := data.advice }) k

/-! ## `utils/pagination.js` -/

def DEFAULT_PAGE : Int := 1

def DEFAULT_LIMIT : Int := 20

def MAX_LIMIT : Int := 100

/-- A JavaScript `Number` that has no fraction: `NaN`, an integer, or an
infinity with its sign.  The integer zero stands for both zeros. -/
inductive JsNumber where
  | nan
  | int (value : Int)
  | inf (negative : Bool)
  deriving DecidableEq, Repr

/-- Number of binary digits of `n`, with `fuel` at least that number. -/
def bitLengthAux : Nat → Nat → Nat
  | 0, _ => 0
  | fuel + 1, n => if n = 0 then 0 else bitLengthAux fuel (n / 2) + 1

/-- Number of binary digits of `n`. -/
def bitLength (n : Nat) : Nat := bitLengthAux n n

/-- The natural number rounded to 53 significant binary digits, to the nearest
and on a tie to the even one: the value a double takes for it, were its
exponent unbounded. -/
def roundNat (n : Nat) : Nat :=
  if n < 2 ^ 53 then n
  else
    if 2 * (n % 2 ^ (bitLength n - 53)) > 2 ^ (bitLength n - 53) ∨
        (2 * (n % 2 ^ (bitLength n - 53)) = 2 ^ (bitLength n - 53) ∧
          n / 2 ^ (bitLength n - 53) % 2 = 1) then
      (n / 2 ^ (bitLength n - 53) + 1) * 2 ^ (bitLength n - 53)
    else n / 2 ^ (bitLength n - 53) * 2 ^ (bitLength n - 53)

/-- The `Number` for a mathematical integer: the nearest double, and an
infinity when that needs more than 1024 binary digits. -/
def JsNumber.ofInt (z : Int) : JsNumber :=
  if bitLength (roundNat z.natAbs) ≤ 1024 then
    .int (if z < 0 then -(roundNat z.natAbs : Int) else (roundNat z.natAbs : Int))
  else .inf (decide (z < 0))

/-- Whether a `Number` counts as true: `NaN` and zero do not. -/
def JsNumber.truthy : JsNumber → Bool
  | .nan => false
  | .int value => value != 0
  | .inf _ => true

/-- The function `Math.max` of two arguments. -/
def JsNumber.max : JsNumber → JsNumber → JsNumber
  | .nan, _ => .nan
  | _, .nan => .nan
  | .inf false, _ => .inf false
  | _, .inf false => .inf false
  | .inf true, b => b
  | a, .inf true => a
  | .int x, .int y => .int (Max.max x y)

/-- The function `Math.min` of two arguments. -/
def JsNumber.min : JsNumber → JsNumber → JsNumber
  | .nan, _ => .nan
  | _, .nan => .nan
  | .inf true, _ => .inf true
  | _, .inf true => .inf true
  | .inf false, b => b
  | a, .inf false => a
  | .int x, .int y => .int (Min.min x y)

/-- The operator `-` on `Number`s without a fraction. -/
def JsNumber.sub : JsNumber → JsNumber → JsNumber
  | .nan, _ => .nan
  | _, .nan => .nan
  | .int x, .int y => JsNumber.ofInt (x - y)
  | .inf s, .int _ => .inf s
  | .int _, .inf s => .inf (!s)
  | .inf s, .inf t => if s = t then .nan else .inf s

/-- The operator `*` on `Number`s without a fraction. -/
def JsNumber.mul : JsNumber → JsNumber → JsNumber
  | .nan, _ => .nan
  | _, .nan => .nan
  | .int x, .int y => JsNumber.ofInt (x * y)
  | .inf s, .int y => if y = 0 then .nan else .inf (xor s (decide (y < 0)))
  | .int x, .inf s => if x = 0 then .nan else .inf (xor s (decide (x < 0)))
  | .inf s, .inf t => .inf (xor s t)

/-- The comparison `a <= b`, false when either side is `NaN`. -/
def JsNumber.le : JsNumber → JsNumber → Bool
  | .int x, .int y => decide (x ≤ y)
  | .inf true, .int _ => true
  | .inf true, .inf _ => true
  | .int _, .inf false => true
  | .inf false, .inf false => true
  | _, _ => false

/-- White space and line terminators of ECMAScript, by code point. -/
def isJsWhiteSpace (c : Char) : Bool :=
  [9, 10, 11, 12, 13, 32, 160, 5760, 8192, 8193, 8194, 8195, 8196, 8197, 8198, 8199, 8200,
    8201, 8202, 8232, 8233, 8239, 8287, 12288, 65279].contains c.toNat

/-- Value of a character as a digit, letters counting from ten. -/
def digitValue (c : Char) : Option Nat :=
  if 48 ≤ c.toNat ∧ c.toNat ≤ 57 then some (c.toNat - 48)
  else if 97 ≤ c.toNat ∧ c.toNat ≤ 122 then some (c.toNat - 87)
  else if 65 ≤ c.toNat ∧ c.toNat ≤ 90 then some (c.toNat - 55)
  else none

/-- The digits of the radix at the start of the text. -/
def leadingDigits (radix : Nat) : List Char → List Nat
  | [] => []
  | c :: cs =>
    match digitValue c with
    | none => []
    | some d => if d < radix then d :: leadingDigits radix cs else []

/-- Reads a number off the start of the text, after its sign. -/
def parseMagnitude (cs : List Char) : Option Nat :=
  match cs with
  | '0' :: 'x' :: rest | '0' :: 'X' :: rest =>
    if leadingDigits 16 rest = [] then none
    else some ((leadingDigits 16 rest).foldl (fun n d => 16 * n + d) 0)
  | _ =>
    if leadingDigits 10 cs = [] then none
    else some ((leadingDigits 10 cs).foldl (fun n d => 10 * n + d) 0)

/-- The mathematical integer that `parseInt(value)` reads, without a radix, off
a query value that is a text or missing; `none` when it reads no digit.
Leading white space is skipped, a sign is read, a prefix `0x` selects base
sixteen, and the digits are read as far as they go. -/
def parseNumeral (value : Option String) : Option Int :=
  match value with
  | none => none
  | some text =>
    match text.toList.dropWhile isJsWhiteSpace with
    | '-' :: rest => (parseMagnitude rest).map (fun n => -(n : Int))
    | '+' :: rest => (parseMagnitude rest).map (fun n => (n : Int))
    | rest => (parseMagnitude rest).map (fun n => (n : Int))

/-- The built-in `parseInt(value)` without a radix: `NaN` when no digit is
read, and otherwise the `Number` nearest to the integer read. -/
def parseInt (value : Option String) : JsNumber :=
  match parseNumeral value with
  | none => .nan
  | some z => JsNumber.ofInt z

/-- The expression `a || b` on `Number`s: `b` when `a` is `NaN` or zero. -/
def orDefault (a b : JsNumber) : JsNumber := if a.truthy then a else b

/-- The part of `req.query` that the pagination reads. -/
structure PageQuery where
  page : Option String
  limit : Option String
  deriving DecidableEq, Repr

structure PageParams where
  page : JsNumber
  limit : JsNumber
  skip : JsNumber
  deriving DecidableEq, Repr


def parsePaginationParams (query : PageQuery) : PageParams :=
  let page := JsNumber.max (.int 1) (orDefault (parseInt query.page) (.int DEFAULT_PAGE))
  let limit := JsNumber.min (.int MAX_LIMIT)
    (JsNumber.max (.int 1) (orDefault (parseInt query.limit) (.int DEFAULT_LIMIT)))
  let skip := (page.sub (.int 1)).mul limit
  { page := page, limit := limit, skip := skip }

structure PaginationMeta where
  page : Int
  limit : Int
  total : Int
  totalPages : Int
  hasNext : Bool
  hasPrev : Bool
  deriving DecidableEq, Repr

/-- The function `createPaginationMeta(page, limit, total)`; the quotient
`total / limit` is a fraction and `Math.ceil` rounds it up.  Exact arithmetic:
the quotient of two whole `Number`s below 2^53 rounds up to the same integer. -/
def createPaginationMeta (page limit total : Int) : PaginationMeta :=
  let totalPages := ⌈(total : ℚ) / (limit : ℚ)⌉
  { page := page, limit := limit, total := total, totalPages := totalPages,
    hasNext := decide (page < totalPages), hasPrev := decide (page > 1) }

structure PaginatedResponse (α : Type) where
  data : List α
  pagination : PaginationMeta

def paginatedResponse {α : Type} (data : List α) (page limit total : Int) :
    PaginatedResponse α :=
  { data := data, pagination := createPaginationMeta page limit total }

/-! ## `jobs/queue.js` -/

/-- An entry of the queue.  `jobFn` names the function of the job. -/
structure Job where
  jobFn : Nat
  retries : Nat
  attempts : Nat
  deriving DecidableEq, Repr

/-- The fields of the `JobQueue` object. -/
structure JobQueue where
  jobs : List Job
  processing : Bool
  deriving DecidableEq, Repr

/-- A line of the log. -/
inductive LogLine where
  | completed
  | failed (attempts : Nat)
  | retrying (delay : Nat)
  | gaveUp
  deriving DecidableEq, Repr

/-- The queue inside the event loop of the process: the callbacks that
`setImmediate` and `setTimeout` hold back, the clock in milliseconds, the runs
of job functions so far and the log. -/
structure Loop where
  queue : JobQueue
  immediates : Nat
  timers : List (Nat × Job)
  clock : Nat
  runs : List Nat
  log : List LogLine
  deriving DecidableEq, Repr

/-- Delay before a job that has failed `attempts` times is put back. -/
def retryDelay (attempts : Nat) : Nat := min (1000 * 2 ^ attempts) 30000

/-- One call of `processJobs()`.  `throws job` tells whether this run of the job
function throws. -/
def processJobs (throws : Job → Bool) (l : Loop) : Loop :=
  match l.queue.jobs with
  | [] => { l with queue := { l.queue with processing := false } }
  | job :: rest =>
    let l1 : Loop :=
      { l with queue := { jobs := rest, processing := true }, runs := l.runs ++ [job.jobFn] }
    let l2 : Loop :=
      if throws job then
        let failedJob : Job := { job with attempts := job.attempts + 1 }
        if failedJob.attempts < failedJob.retries then
          { l1 with
            log := l1.log ++ [.failed failedJob.attempts,
              .retrying (retryDelay failedJob.attempts)]
            timers := l1.timers ++ [(l1.clock + retryDelay failedJob.attempts, failedJob)] }
        else { l1 with log := l1.log ++ [.failed failedJob.attempts, .gaveUp] }
      else { l1 with log := l1.log ++ [.completed] }
    { l2 with immediates := l2.immediates + 1 }

/-- The method `addJob(jobFn, retries)`. -/
def addJob (throws : Job → Bool) (jobFn : Nat) (retries : Nat) (l : Loop) : Loop :=
  let l1 : Loop :=
    { l with queue := { l.queue with
        jobs := l.queue.jobs ++ [{ jobFn := jobFn, retries := retries, attempts := 0 }] } }
  if !l1.queue.processing then processJobs throws l1 else l1

/-- The timer that is due first, and the others. -/
def nextTimer : List (Nat × Job) → Option ((Nat × Job) × List (Nat × Job))
  | [] => none
  | t :: ts =>
    match nextTimer ts with
    | none => some (t, [])
    | some (u, us) => if u.1 < t.1 then some (u, t :: us) else some (t, ts)

/-- One turn of the event loop: a callback of `setImmediate` runs if one is
held back; otherwise the clock moves to the timer that is due first and its
callback puts the job back; with neither, nothing is left to run. -/
def Loop.turn (throws : Job → Bool) (l : Loop) : Option Loop :=
  if 0 < l.immediates then
    some (processJobs throws { l with immediates := l.immediates - 1 })
  else
    match nextTimer l.timers with
    | some ((due, job), others) =>
      some { l with
        timers := others
        clock := max l.clock due
        queue := { l.queue with jobs := l.queue.jobs ++ [job] } }
    | none => none

/-- The event loop for `n` turns, or until nothing is left to run. -/
def Loop.settle (throws : Job → Bool) : Nat → Loop → Loop
  | 0, l => l
  | n + 1, l =>
    match l.turn throws with
    | none => l
    | some l1 => Loop.settle throws n l1

/-- A process in which nothing has been queued. -/
def Loop.idle : Loop :=
  { queue := { jobs := [], processing := false }, immediates := 0, timers := [], clock := 0,
    runs := [], log := [] }

/-! ## The one-time code of `AuthService` -/

/-- Decimal text of a number, filled with zeros from the left to `width`. -/
def zeroPad (width n : Nat) : String :=
  String.mk (List.replicate (width - (toString n).length) '0') ++ toString n

/-- Year, month and day of the day that lies `days` days after 1 January 1970. -/
def civilFromDays (days : Int) : Int × Nat × Nat :=
  let z := days + 719468
  let era := z / 146097
  let doe := (z - era * 146097).toNat
  let yoe := (doe - doe / 1460 + doe / 36524 - doe / 146096) / 365
  let doy := doe - (365 * yoe + yoe / 4 - yoe / 100)
  let mp := (5 * doy + 2) / 153
  let d := doy - (153 * mp + 2) / 5 + 1
  let m := if mp < 10 then mp + 3 else mp - 9
  ((yoe : Int) + era * 400 + (if m ≤ 2 then 1 else 0), m, d)

/-- The method `Date.prototype.toISOString` on a time in milliseconds since
1 January 1970 UTC: `YYYY-MM-DDTHH:mm:ss.sssZ`, the year with a sign and six
digits outside 0 to 9999. -/
def toISOString (t : Time) : String :=
  let day := t / 86400000
  let ms := (t % 86400000).toNat
  let ymd := civilFromDays day
  let year :=
    if 0 ≤ ymd.1 ∧ ymd.1 ≤ 9999 then zeroPad 4 ymd.1.toNat
    else (if ymd.1 < 0 then "-" else "+") ++ zeroPad 6 ymd.1.natAbs
  year ++ "-" ++ zeroPad 2 ymd.2.1 ++ "-" ++ zeroPad 2 ymd.2.2 ++ "T"
    ++ zeroPad 2 (ms / 3600000) ++ ":" ++ zeroPad 2 (ms / 60000 % 60) ++ ":"
    ++ zeroPad 2 (ms / 1000 % 60) ++ "." ++ zeroPad 3 (ms % 1000) ++ "Z"

/-- Pieces of a text between the occurrences of a separator. -/
def splitChars (sep : Char) : List Char → List (List Char)
  | [] => [[]]
  | c :: cs =>
    if c = sep then [] :: splitChars sep cs
    else
      match splitChars sep cs with
      | [] => [[c]]
      | w :: ws => (c :: w) :: ws

/-- The method `String.prototype.split` with a separator of one character. -/
def split (sep : Char) (text : String) : List String :=
  (splitChars sep text.toList).map String.mk

/-- The template literal of `login` and `enableMFA` that is stored as
`mfaSecret`. -/
def mfaSecret (otp : String) (otpExpiry : Time) : String :=
  otp ++ ":" ++ toISOString otpExpiry

/-- The two statements of `verifyMFA` and `completeMFASetup` that read the
stored code and its expiry back.  `dateOf` is the constructor `new Date(text)`
of the engine, `none` an invalid date; a missing second piece is `undefined`,
which is an invalid date as well. -/
def parseMfaSecret (dateOf : String → Option Time) (secret : String) : String × Option Time :=
  ((split ':' secret).headD "", ((split ':' secret)[1]?).bind dateOf)

/-- The error class `UnauthorizedError`. -/
structure UnauthorizedError where
  message : String
  deriving DecidableEq, Repr

/-- The two tests of `verifyMFA` and `completeMFASetup` on the stored secret at
the time `now`; a comparison with an invalid date is false. -/
def checkMfaCode (dateOf : String → Option Time) (now : Time) (secret otp : String) :
    Except UnauthorizedError Unit :=
  let expired : Bool :=
    match (parseMfaSecret dateOf secret).2 with
    | some expiry => decide (now > expiry)
    | none => false
  if expired then .error ⟨"MFA code expired"⟩
  else if (parseMfaSecret dateOf secret).1 ≠ otp then .error ⟨"Invalid MFA code"⟩
  else .ok ()

/-! ## Sample data of the later sections -/

/-- The completed sample store with an empty prescription table. -/
def completedClinic : Clinic := { store := completedSample, prescriptions := [] }

/-- A prescription body for the sample consultation naming its patient. -/
def samplePrescription : PrescriptionData :=
  { consultationId := 1, patientId := 5, medications := "paracetamol", advice := none }

/-- A job function that throws on every run. -/
def alwaysThrows : Job → Bool := fun _ => true

/-- The time 10:15:30 UTC on 5 November 2026, in milliseconds. -/
def quarterPast : Time := 1793873730000

/-- The time 10:45:00 UTC on 5 November 2026, in milliseconds. -/
def quarterTo : Time := 1793875500000

/-- A prescription body for the sample consultation naming user 6, who is not
its patient. -/
def strangerPrescription : PrescriptionData :=
  { consultationId := 1, patientId := 6, medications := "paracetamol", advice := none }

/-- A write request by user 6 that carries the key k1 of the sample request
with another method, path and body. -/
def strangerRequest : Request :=
  { idempotencyKey := some "k1", method := "PUT", path := "/availability/slots/0",
    body := "\x7b\"maxPatients\":2\x7d", user := some 6 }

/-- A handler that answers 200 and changes nothing. -/
def otherHandler : Handler := fun s => (⟨200, "other"⟩, s)

/-- The sample doctor opens a slot, patient 5 books it, and the doctor sets the
consultation to CANCELLED with `updateStatus`, at hours 1, 2 and 3. -/
def statusCancelCalls : List (Env × Op) :=
  [(⟨1 * hourMs, noFaults⟩, .createSlot 70 ⟨10 * hourMs, 11 * hourMs, none⟩),
   (⟨2 * hourMs, noFaults⟩, .bookConsultation 5 sampleBooking),
   (⟨3 * hourMs, noFaults⟩, .updateStatus 1 70 "CANCELLED" none)]

/-- The same calls with `cancelConsultation` in place of `updateStatus`. -/
def cancelCalls : List (Env × Op) :=
  [(⟨1 * hourMs, noFaults⟩, .createSlot 70 ⟨10 * hourMs, 11 * hourMs, none⟩),
   (⟨2 * hourMs, noFaults⟩, .bookConsultation 5 sampleBooking),
   (⟨3 * hourMs, noFaults⟩, .cancelConsultation 1 70 .DOCTOR)]

/-- The instant 01:00 UTC on 29 March 2026, in milliseconds. -/
def springStart : Time := 1774746000000

/-- A zone one hour ahead of UTC before `springStart` and two hours ahead from
then on.  The local hour that the change skips is read with the earlier
offset. -/
def springZone : TimeZone :=
  { offsetAt := fun t => if t < springStart then 3600000 else 7200000
    offsetOfLocal := fun l => if l < springStart + 7200000 then 3600000 else 7200000 }

/-! # Theorems -/

/-! ## Booking -/

/-- The guards of a booking pass exactly on an AVAILABLE slot whose doctor row
has the requested user id and is approved. -/
theorem bookChecks_ok_iff (data : BookingData) (s : Store) (slot : AvailabilitySlot)
    (doctor : Doctor) :
    bookChecks data s = .ok (slot, doctor) ↔
      s.findSlot data.slotId = some slot ∧ slot.status = .AVAILABLE ∧
      s.findDoctor slot.doctorId = some doctor ∧ doctor.userId = data.doctorId ∧
      doctor.isApproved = true := by
  unfold bookChecks
  constructor
  · intro h
    split at h
    · cases h
    · split at h
      · cases h
      · split at h
        · cases h
        · split at h
          · cases h
          · split at h
            · cases h
            · simp only [Except.ok.injEq, Prod.mk.injEq] at h
              obtain ⟨rfl, rfl⟩ := h
              simp_all
  · rintro ⟨h1, h2, h3, h4, h5⟩
    simp [h1, h2, h3, h4, h5]

/-- The booking is its guards followed by its writes, the writes alone being
what the transaction can undo. -/
theorem bookConsultation_eq (db : Faults) (patientId : Id) (data : BookingData) (s : Store) :
    bookConsultation db patientId data s =
      match bookChecks data s with
      | .error e => (.error e, s)
      | .ok (_, doctor) => transaction (bookWrites db patientId data doctor) s := by
  unfold bookConsultation bookConsultationTx transaction
  cases h : bookChecks data s with
  | error e => simp only [h]
  | ok r => obtain ⟨x, d⟩ := r; simp only [h]

/-- With the slot row present and no fault the three writes go through. -/
theorem bookWrites_ok (db : Faults) (patientId : Id) (data : BookingData) (doctor : Doctor)
    (s : Store) (slot : AvailabilitySlot) (hslot : s.findSlot data.slotId = some slot)
    (h0 : db 0 = false) (h1 : db 1 = false) (h2 : db 2 = false) :
    transaction (bookWrites db patientId data doctor) s =
      (.ok { id := s.nextId, patientId := patientId, doctorId := data.doctorId,
             slotId := data.slotId, reason := data.reason, status := .CONFIRMED,
             paymentStatus := .PENDING, notes := none, startedAt := none, endedAt := none },
       { doctors := s.doctors
         slots := s.slots.map
           (fun y => if y.id = data.slotId then { y with status := .BOOKED } else y)
         consultations := s.consultations ++
           [{ id := s.nextId, patientId := patientId, doctorId := data.doctorId,
              slotId := data.slotId, reason := data.reason, status := .CONFIRMED,
              paymentStatus := .PENDING, notes := none, startedAt := none, endedAt := none }]
         payments := s.payments ++
           [{ id := s.nextId + 1, consultationId := s.nextId, amount := doctor.consultationFee,
              currency := "INR", status := .INITIATED, provider := none,
              transactionReference := none }]
         nextId := s.nextId + 2 }) := by
  simp only [Store.findSlot] at hslot
  simp [transaction, bookWrites, consultationCreate, slotUpdate, paymentCreate, h0, h1, h2,
    hslot, Store.findSlot]

/-- A failed write statement of the booking is reported as the data-store error. -/
theorem bookWrites_fault (db : Faults) (patientId : Id) (data : BookingData) (doctor : Doctor)
    (s : Store) (slot : AvailabilitySlot) (hslot : s.findSlot data.slotId = some slot)
    (h : db 0 = true ∨ db 1 = true ∨ db 2 = true) :
    transaction (bookWrites db patientId data doctor) s = (.error storeFailure, s) := by
  simp only [Store.findSlot] at hslot
  cases h0 : db 0 <;> cases h1 : db 1 <;> cases h2 : db 2 <;>
    first
    | (simp [h0, h1, h2] at h; done)
    | simp [transaction, bookWrites, consultationCreate, slotUpdate, paymentCreate, h0, h1,
        h2, hslot, Store.findSlot]

/-- A booking that throws leaves the store as it was. -/
theorem bookConsultation_error_store (db : Faults) (patientId : Id) (data : BookingData)
    (s : Store) (h : isOk (bookConsultation db patientId data s).1 = false) :
    (bookConsultation db patientId data s).2 = s := by
  unfold bookConsultation transaction at *
  cases hb : bookConsultationTx db patientId data s with
  | mk r s' =>
    cases r with
    | error e => rfl
    | ok c => rw [hb] at h; simp [isOk] at h

/-- A booking whose guards pass and whose writes all go through. -/
theorem bookConsultation_ok (db : Faults) (s : Store) (patientId : Id) (data : BookingData)
    (slot : AvailabilitySlot) (doctor : Doctor)
    (hslot : s.findSlot data.slotId = some slot)
    (havail : slot.status = .AVAILABLE)
    (hdoc : s.findDoctor slot.doctorId = some doctor)
    (huser : doctor.userId = data.doctorId)
    (happr : doctor.isApproved = true)
    (h0 : db 0 = false) (h1 : db 1 = false) (h2 : db 2 = false) :
    bookConsultation db patientId data s =
      (.ok { id := s.nextId, patientId := patientId, doctorId := data.doctorId,
             slotId := data.slotId, reason := data.reason, status := .CONFIRMED,
             paymentStatus := .PENDING, notes := none, startedAt := none, endedAt := none },
       { doctors := s.doctors
         slots := s.slots.map
           (fun y => if y.id = data.slotId then { y with status := .BOOKED } else y)
         consultations := s.consultations ++
           [{ id := s.nextId, patientId := patientId, doctorId := data.doctorId,
              slotId := data.slotId, reason := data.reason, status := .CONFIRMED,
              paymentStatus := .PENDING, notes := none, startedAt := none, endedAt := none }]
         payments := s.payments ++
           [{ id := s.nextId + 1, consultationId := s.nextId, amount := doctor.consultationFee,
              currency := "INR", status := .INITIATED, provider := none,
              transactionReference := none }]
         nextId := s.nextId + 2 }) := by
  rw [bookConsultation_eq, (bookChecks_ok_iff data s slot doctor).2
    ⟨hslot, havail, hdoc, huser, happr⟩]
  exact bookWrites_ok db patientId data doctor s slot hslot h0 h1 h2

/-- C1. When the slot exists and is AVAILABLE, its doctor row has the requested
user id and is approved, and no write fails, `bookConsultation` returns the new
consultation (CONFIRMED, payment PENDING) and the store differs from the prior
one in the appended consultation, the slot status set to BOOKED, and the
appended payment (INITIATED, INR, amount the fee read from the prior store);
the doctors are untouched and the key counter has moved past the two new rows. -/
theorem bookConsultation_success (s : Store) (patientId : Id) (data : BookingData)
    (slot : AvailabilitySlot) (doctor : Doctor)
    (hslot : s.findSlot data.slotId = some slot)
    (havail : slot.status = .AVAILABLE)
    (hdoc : s.findDoctor slot.doctorId = some doctor)
    (huser : doctor.userId = data.doctorId)
    (happr : doctor.isApproved = true) :
    bookConsultation noFaults patientId data s =
      (.ok { id := s.nextId, patientId := patientId, doctorId := data.doctorId,
             slotId := data.slotId, reason := data.reason, status := .CONFIRMED,
             paymentStatus := .PENDING, notes := none, startedAt := none, endedAt := none },
       { doctors := s.doctors
         slots := s.slots.map
           (fun y => if y.id = data.slotId then { y with status := .BOOKED } else y)
         consultations := s.consultations ++
           [{ id := s.nextId, patientId := patientId, doctorId := data.doctorId,
              slotId := data.slotId, reason := data.reason, status := .CONFIRMED,
              paymentStatus := .PENDING, notes := none, startedAt := none, endedAt := none }]
         payments := s.payments ++
           [{ id := s.nextId + 1, consultationId := s.nextId, amount := doctor.consultationFee,
              currency := "INR", status := .INITIATED, provider := none,
              transactionReference := none }]
         nextId := s.nextId + 2 }) :=
  bookConsultation_ok noFaults s patientId data slot doctor hslot havail hdoc huser happr
    rfl rfl rfl

/-- Patient 5 books the free sample slot: one consultation, the slot BOOKED,
one payment of 500 INR. -/
theorem bookConsultation_success_witness :
    bookConsultation noFaults 5 sampleBooking sampleStore =
      (.ok { id := 1, patientId := 5, doctorId := 70, slotId := 0, reason := "fever",
             status := .CONFIRMED, paymentStatus := .PENDING, notes := none,
             startedAt := none, endedAt := none },
       { doctors := [sampleDoctor]
         slots := [{ sampleSlot with status := .BOOKED }]
         consultations :=
           [{ id := 1, patientId := 5, doctorId := 70, slotId := 0, reason := "fever",
              status := .CONFIRMED, paymentStatus := .PENDING, notes := none,
              startedAt := none, endedAt := none }]
         payments :=
           [{ id := 2, consultationId := 1, amount := 500, currency := "INR",
              status := .INITIATED, provider := none, transactionReference := none }]
         nextId := 3 }) :=
  bookConsultation_success sampleStore 5 sampleBooking sampleSlot sampleDoctor rfl rfl rfl rfl rfl

/-- C2. `bookConsultation` throws NotFound when the slot is absent, else the
Conflict "Slot is not available" when the slot is not AVAILABLE, else the
doctor-mismatch Conflict when the doctor row of the slot has another user id,
else Forbidden when that doctor is not approved; with no write fault it returns
exactly when none of the four holds; and a call that throws leaves the store
unchanged.  The store is one in which every slot names a doctor row. -/
theorem bookConsultation_guards (db : Faults) (s : Store) (patientId : Id)
    (data : BookingData) (hfk : SlotsHaveDoctor s) :
    (s.findSlot data.slotId = none →
      bookConsultation db patientId data s =
        (.error (NotFoundError "Availability slot not found"), s)) ∧
    (∀ slot, s.findSlot data.slotId = some slot → slot.status ≠ .AVAILABLE →
      bookConsultation db patientId data s =
        (.error (ConflictError "Slot is not available"), s)) ∧
    (∀ slot doctor, s.findSlot data.slotId = some slot → slot.status = .AVAILABLE →
      s.findDoctor slot.doctorId = some doctor → doctor.userId ≠ data.doctorId →
      bookConsultation db patientId data s =
        (.error (ConflictError "Slot does not belong to the specified doctor"), s)) ∧
    (∀ slot doctor, s.findSlot data.slotId = some slot → slot.status = .AVAILABLE →
      s.findDoctor slot.doctorId = some doctor → doctor.userId = data.doctorId →
      doctor.isApproved = false →
      bookConsultation db patientId data s =
        (.error (ForbiddenError "Doctor is not approved yet"), s)) ∧
    (isOk (bookConsultation noFaults patientId data s).1 = true ↔
      s.findSlot data.slotId ≠ none ∧
      ∀ slot, s.findSlot data.slotId = some slot →
        slot.status = .AVAILABLE ∧
        ∀ doctor, s.findDoctor slot.doctorId = some doctor →
          doctor.userId = data.doctorId ∧ doctor.isApproved = true) ∧
    (isOk (bookConsultation db patientId data s).1 = false →
      (bookConsultation db patientId data s).2 = s) := by
  refine ⟨?_, ?_, ?_, ?_, ?_, bookConsultation_error_store db patientId data s⟩
  · intro h
    rw [bookConsultation_eq]; simp [bookChecks, h]
  · intro slot h hst
    rw [bookConsultation_eq]; simp [bookChecks, h, hst]
  · intro slot doctor h hst hd hu
    rw [bookConsultation_eq]; simp [bookChecks, h, hst, hd, hu]
  · intro slot doctor h hst hd hu ha
    rw [bookConsultation_eq]; simp [bookChecks, h, hst, hd, hu, ha]
  · constructor
    · intro h
      rw [bookConsultation_eq] at h
      cases hc : bookChecks data s with
      | error e => rw [hc] at h; simp [isOk] at h
      | ok r =>
        obtain ⟨slot, doctor⟩ := r
        obtain ⟨h1, h2, h3, h4, h5⟩ := (bookChecks_ok_iff data s slot doctor).1 hc
        refine ⟨by simp [h1], ?_⟩
        intro slot' hs'
        rw [h1] at hs'; cases hs'
        refine ⟨h2, ?_⟩
        intro doctor' hd'
        rw [h3] at hd'; cases hd'
        exact ⟨h4, h5⟩
    · rintro ⟨h1, h2⟩
      cases hs : s.findSlot data.slotId with
      | none => exact absurd hs h1
      | some slot =>
        obtain ⟨hst, hdoc⟩ := h2 slot hs
        have hmem : slot ∈ s.slots := List.mem_of_find?_eq_some hs
        have hsome := hfk slot hmem
        cases hd : s.findDoctor slot.doctorId with
        | none => rw [hd] at hsome; simp at hsome
        | some doctor =>
          obtain ⟨hu, ha⟩ := hdoc doctor hd
          rw [bookConsultation_ok noFaults s patientId data slot doctor hs hst hd hu ha
            rfl rfl rfl]
          rfl

/-- On the sample store a request for a slot that does not exist is NotFound
and a request for the free slot returns. -/
theorem bookConsultation_guards_witness :
    SlotsHaveDoctor sampleStore ∧
    bookConsultation noFaults 5 { doctorId := 70, slotId := 9, reason := "fever" } sampleStore =
      (.error (NotFoundError "Availability slot not found"), sampleStore) ∧
    isOk (bookConsultation noFaults 5 sampleBooking sampleStore).1 = true :=
  ⟨by decide,
   (bookConsultation_guards noFaults sampleStore 5
      { doctorId := 70, slotId := 9, reason := "fever" } (by decide)).1 rfl,
   (bookConsultation_guards noFaults sampleStore 5 sampleBooking (by decide)).2.2.2.2.1.2
      ⟨by decide, by decide⟩⟩

/-- C3. Once the guards have passed, a failure of any of the three write
statements (consultation create, slot update, payment create) makes
`bookConsultation` throw and leaves the store identical to the prior one: the
consultations and payments are those of before and the slot is still AVAILABLE. -/
theorem bookConsultation_atomic (db : Faults) (s : Store) (patientId : Id)
    (data : BookingData) (slot : AvailabilitySlot) (doctor : Doctor)
    (hchecks : bookChecks data s = .ok (slot, doctor))
    (hfail : db 0 = true ∨ db 1 = true ∨ db 2 = true) :
    bookConsultation db patientId data s = (.error storeFailure, s) ∧
    (bookConsultation db patientId data s).2.consultations = s.consultations ∧
    (bookConsultation db patientId data s).2.payments = s.payments ∧
    ∃ x, (bookConsultation db patientId data s).2.findSlot data.slotId = some x ∧
      x.status = .AVAILABLE := by
  obtain ⟨h1, h2, -, -, -⟩ := (bookChecks_ok_iff data s slot doctor).1 hchecks
  have h : bookConsultation db patientId data s = (.error storeFailure, s) := by
    rw [bookConsultation_eq, hchecks]
    exact bookWrites_fault db patientId data doctor s slot h1 hfail
  rw [h]
  exact ⟨rfl, rfl, rfl, slot, h1, h2⟩

/-- The payment create (write 2) fails on the sample booking: the call throws
and the sample store is what is left. -/
theorem bookConsultation_atomic_witness :
    bookConsultation (fun k => k == 2) 5 sampleBooking sampleStore =
      (.error storeFailure, sampleStore) :=
  (bookConsultation_atomic (fun k => k == 2) sampleStore 5 sampleBooking sampleSlot
    sampleDoctor rfl (Or.inr (Or.inr rfl))).1

/-- Without the transaction the same failure would leave the consultation
behind: the rollback is what C3 rests on. -/
theorem bookConsultationTx_leaves_rows :
    (bookConsultationTx (fun k => k == 2) 5 sampleBooking sampleStore).2.consultations.length
      = 1 := by
  decide

/-! ## Effects of the calls -/

theorem createSlot_effect (db : Faults) (now : Time) (u : Id) (d : SlotData) (s : Store) :
    Effect now s (createSlot db now u d s).2 := by
  unfold createSlot
  split
  · exact .unchanged
  · split
    · exact .unchanged
    · split
      · exact .unchanged
      · split
        · exact .unchanged
        · unfold slotCreate
          split
          · exact .unchanged
          · exact .slotCreated _ rfl

theorem updateSlot_effect (db : Faults) (now : Time) (u i : Id) (d : SlotUpdate) (s : Store) :
    Effect now s (updateSlot db u i d s).2 := by
  unfold updateSlot
  split
  · exact .unchanged
  · rename_i slot hslot
    split
    · exact .unchanged
    · split
      · exact .unchanged
      · split
        · exact .unchanged
        · rename_i hfree
          unfold slotUpdate
          split
          · exact .unchanged
          · simp only [hslot]
            exact .slotUpdated i slot _ hslot hfree (fun _ => rfl)

theorem deleteSlot_effect (db : Faults) (now : Time) (u i : Id) (s : Store) :
    Effect now s (deleteSlot db u i s).2 := by
  unfold deleteSlot
  split
  · exact .unchanged
  · rename_i slot hslot
    split
    · exact .unchanged
    · split
      · exact .unchanged
      · split
        · exact .unchanged
        · rename_i hfree
          cases h0 : db 0
          · simp only [slotDelete, h0, hslot, Bool.false_eq_true, if_false]
            exact .slotDeleted i slot hslot hfree
          · simp only [slotDelete, h0, if_true]
            exact .unchanged

theorem bookConsultation_effect (db : Faults) (now : Time) (p : Id) (d : BookingData)
    (s : Store) : Effect now s (bookConsultation db p d s).2 := by
  rw [bookConsultation_eq]
  cases hc : bookChecks d s with
  | error e => exact .unchanged
  | ok r =>
    obtain ⟨slot, doctor⟩ := r
    obtain ⟨h1, h2, -, -, -⟩ := (bookChecks_ok_iff d s slot doctor).1 hc
    by_cases hf : db 0 = true ∨ db 1 = true ∨ db 2 = true
    · simp only [bookWrites_fault db p d doctor s slot h1 hf]
      exact .unchanged
    · simp only [not_or, Bool.not_eq_true] at hf
      simp only [bookWrites_ok db p d doctor s slot h1 hf.1 hf.2.1 hf.2.2]
      exact .booked p d slot doctor.consultationFee h1 h2

theorem updateStatus_effect (db : Faults) (now : Time) (c u : Id) (n : String)
    (notes : Option String) (s : Store) :
    Effect now s (updateStatus db now c u n notes s).2 := by
  unfold updateStatus
  split
  · exact .unchanged
  · rename_i row hrow
    split
    · exact .unchanged
    · split
      · exact .unchanged
      · rename_i hallowed
        split
        · exact .unchanged
        · rename_i status hname
          unfold consultationUpdate
          split
          · exact .unchanged
          · simp only [hrow]
            simp only [Bool.not_eq_true, Bool.not_eq_false] at hallowed
            exact .statusUpdated c row n status notes hrow (by simpa using hallowed) hname

theorem cancelConsultation_effect (cfg : Config) (db : Faults) (now : Time) (c u : Id)
    (r : Role) (s : Store) : Effect now s (cancelConsultation cfg db now c u r s).2 := by
  unfold cancelConsultation
  split
  · exact .unchanged
  · rename_i row hrow
    split
    · exact .unchanged
    · split
      · exact .unchanged
      · rename_i hlive
        split
        · exact .unchanged
        · rename_i slot hslot
          split
          · exact .unchanged
          · have hl : row.status = .CONFIRMED ∨ row.status = .IN_PROGRESS := by
              cases hst : row.status <;> simp_all
            have hrow' := hrow
            have hslot' := hslot
            simp only [Store.findConsultation] at hrow'
            simp only [Store.findSlot] at hslot'
            cases h0 : db 0 <;> cases h1 : db 1 <;>
              simp [transaction, cancelConsultationTx, consultationUpdate, slotUpdate, h0, h1,
                hrow', hslot', Store.findSlot, Store.findConsultation]
            · exact .cancelled c row slot hrow hl hslot
            all_goals exact .unchanged

theorem paymentUpdate_ok (fails : Bool) (id : Id) (f : Payment → Payment) (s s1 : Store)
    (p : Payment) (h : paymentUpdate fails id f s = (.ok p, s1)) :
    s1 = { s with payments := s.payments.map (fun x => if x.id = id then f x else x) } := by
  unfold paymentUpdate at h
  split at h
  · cases h
  · split at h
    · cases h
    · cases h; rfl

theorem consultationUpdate_ok (fails : Bool) (id : Id) (f : Consultation → Consultation)
    (s s1 : Store) (c : Consultation) (h : consultationUpdate fails id f s = (.ok c, s1)) :
    s1 = { s with consultations := s.consultations.map (fun x => if x.id = id then f x else x) } := by
  unfold consultationUpdate at h
  split at h
  · cases h
  · split at h
    · cases h
    · cases h; rfl

theorem handleWebhookTx_ok (db : Faults) (payment : Payment) (status : Option String)
    (s s' : Store) (p : Payment) (h : handleWebhookTx db payment status s = (.ok p, s')) :
    ∃ (g : Consultation → Consultation) (payments : List Payment),
      (∀ c, ∃ ps, g c = { c with paymentStatus := ps }) ∧
      s' = { s with consultations := s.consultations.map g, payments := payments } := by
  unfold handleWebhookTx at h
  simp only at h
  split at h
  · cases h
  · rename_i up s1 hw
    have hs1 : ∃ payments, s1 = { s with payments := payments } := by
      split at hw
      · exact ⟨_, paymentUpdate_ok _ _ _ _ _ _ hw⟩
      · split at hw
        · cases hw
        · exact ⟨_, paymentUpdate_ok _ _ _ _ _ _ hw⟩
    obtain ⟨payments, rfl⟩ := hs1
    split at h
    · split at h
      · cases h
      · rename_i hc
        have := consultationUpdate_ok _ _ _ _ _ _ hc
        cases h
        refine ⟨_, payments, ?_, this⟩
        intro c
        by_cases hid : c.id = payment.consultationId
        · exact ⟨.PAID, by simp [hid]⟩
        · exact ⟨c.paymentStatus, by simp [hid]⟩
    · split at h
      · split at h
        · cases h
        · rename_i hc
          have := consultationUpdate_ok _ _ _ _ _ _ hc
          cases h
          refine ⟨_, payments, ?_, this⟩
          intro c
          by_cases hid : c.id = payment.consultationId
          · exact ⟨.FAILED, by simp [hid]⟩
          · exact ⟨c.paymentStatus, by simp [hid]⟩
      · cases h
        refine ⟨fun c => c, payments, fun c => ⟨c.paymentStatus, rfl⟩, ?_⟩
        simp

theorem handleWebhook_effect (db : Faults) (now : Time) (d : WebhookData) (s : Store) :
    Effect now s (handleWebhook db d s).2 := by
  unfold handleWebhook
  split
  · exact .unchanged
  · rename_i payment _
    unfold transaction
    cases hb : handleWebhookTx db payment d.status s with
    | mk r s' =>
      cases r with
      | error e => exact .unchanged
      | ok p =>
        obtain ⟨g, payments, hg, rfl⟩ := handleWebhookTx_ok db payment d.status s s' p hb
        exact .settled g payments hg

/-! ## Overlapping booking attempts -/

/-- A request that runs its reads and its writes with no other turn in between
does what the service call does. -/
theorem Race.turn_serial (reqs : List (Id × BookingData)) (r : Race) (i : Nat)
    (patientId : Id) (data : BookingData)
    (hreq : reqs.get? i = some (patientId, data)) (htx : r.txs.get? i = some .pending) :
    ((r.turn reqs (.reads i)).turn reqs (.writes i)).store =
      (bookConsultation noFaults patientId data r.store).2 := by
  have hi : i < r.txs.length := by
    rcases Nat.lt_or_ge i r.txs.length with h | h
    · exact h
    · rw [List.get?_eq_none.2 h] at htx; cases htx
  rw [bookConsultation_eq]
  simp only [List.get?_eq_getElem?] at hreq htx
  cases hc : bookChecks data r.store with
  | error e =>
    simp [Race.turn, hreq, htx, hc, List.getElem?_set, hi]
  | ok p =>
    obtain ⟨slot, doctor⟩ := p
    simp [Race.turn, hreq, htx, hc, List.getElem?_set, hi]

/-- C4 (evaluation). Two requests for the free sample slot whose reads both run
before either commits: both return a consultation, and the slot ends up
referenced by two CONFIRMED consultations. -/
theorem bookConsultation_race :
    (interleave raceRequests raceSchedule sampleStore).txs.map
        (fun t => match t with
          | .finished (.ok _) => true
          | _ => false) = [true, true] ∧
    ((interleave raceRequests raceSchedule sampleStore).store.consultations.filter
        (fun c => c.slotId == 0 && c.status == .CONFIRMED)).length = 2 := by
  decide

/-! ## Invariants of the store -/

theorem findSlot_some {s : Store} {i : Id} {x : AvailabilitySlot}
    (h : s.findSlot i = some x) : x ∈ s.slots ∧ x.id = i := by
  unfold Store.findSlot at h
  exact ⟨List.mem_of_find?_eq_some h, by simpa using List.find?_some h⟩

theorem findConsultation_some {s : Store} {i : Id} {c : Consultation}
    (h : s.findConsultation i = some c) : c ∈ s.consultations ∧ c.id = i := by
  unfold Store.findConsultation at h
  exact ⟨List.mem_of_find?_eq_some h, by simpa using List.find?_some h⟩

theorem findSlot_of_mem {s : Store} {x : AvailabilitySlot} (h : x ∈ s.slots) :
    ∃ y, s.findSlot x.id = some y := by
  unfold Store.findSlot
  cases hf : s.slots.find? (fun y => y.id == x.id) with
  | some y => exact ⟨y, rfl⟩
  | none =>
    rw [List.find?_eq_none] at hf
    exact absurd (by simp) (hf x h)

theorem KeysFresh.eq_of_id {s : Store} (k : KeysFresh s) {c c' : Consultation}
    (hc : c ∈ s.consultations) (hc' : c' ∈ s.consultations) (h : c.id = c'.id) : c = c' :=
  List.inj_on_of_nodup_map k.distinct hc hc' h

theorem transitionAllowed_live {status : ConsultationStatus} {n : String}
    (h : transitionAllowed status n = true) : status = .CONFIRMED ∨ status = .IN_PROGRESS := by
  cases status <;> simp [transitionAllowed, validTransitions] at h ⊢

/-- Mapping rows by a function that keeps the key keeps the list of keys. -/
theorem map_id_map (l : List Consultation) (g : Consultation → Consultation)
    (hg : ∀ x, (g x).id = x.id) : (l.map g).map (fun c => c.id) = l.map (fun c => c.id) := by
  rw [List.map_map]
  exact List.map_congr_left (fun x _ => hg x)

theorem keysFresh_map (s : Store) (k : KeysFresh s) (g : Consultation → Consultation)
    (slots : List AvailabilitySlot) (payments : List Payment)
    (hid : ∀ x, (g x).id = x.id) (hslot : ∀ x, (g x).slotId = x.slotId)
    (hslots : ∀ x ∈ slots, ∃ y ∈ s.slots, y.id = x.id) :
    KeysFresh { s with consultations := s.consultations.map g, slots := slots,
                       payments := payments } := by
  refine ⟨?_, ?_, ?_, ?_⟩
  · intro x hx
    obtain ⟨y, hy, hxy⟩ := hslots x hx
    rw [← hxy]; exact k.slotIds y hy
  · intro c hc
    obtain ⟨x, hx, rfl⟩ := List.mem_map.1 hc
    rw [hid]; exact k.consultationIds x hx
  · intro c hc
    obtain ⟨x, hx, rfl⟩ := List.mem_map.1 hc
    rw [hslot]; exact k.references x hx
  · show ((s.consultations.map g).map (fun c => c.id)).Nodup
    rw [map_id_map _ _ hid]; exact k.distinct

theorem keysFresh_effect {now : Time} {s s' : Store} (k : KeysFresh s)
    (e : Effect now s s') : KeysFresh s' := by
  cases e with
  | unchanged => exact k
  | slotCreated row hid =>
    refine ⟨?_, ?_, ?_, k.distinct⟩
    · intro x hx
      rcases List.mem_append.1 hx with h | h
      · exact Nat.lt_succ_of_lt (k.slotIds x h)
      · simp only [List.mem_singleton] at h
        subst h; rw [hid]; exact Nat.lt_succ_self _
    · intro c hc; exact Nat.lt_succ_of_lt (k.consultationIds c hc)
    · intro c hc; exact Nat.lt_succ_of_lt (k.references c hc)
  | slotUpdated slotId slot f hfind hfree hid =>
    refine keysFresh_map s k (fun c => c) _ s.payments (fun _ => rfl) (fun _ => rfl) ?_
      |> fun h => by simpa using h
    intro x hx
    obtain ⟨y, hy, rfl⟩ := List.mem_map.1 hx
    refine ⟨y, hy, ?_⟩
    split
    · exact (hid y).symm
    · rfl
  | slotDeleted slotId slot hfind hfree =>
    refine keysFresh_map s k (fun c => c) _ s.payments (fun _ => rfl) (fun _ => rfl) ?_
      |> fun h => by simpa using h
    intro x hx
    exact ⟨x, (List.mem_filter.1 hx).1, rfl⟩
  | booked p d slot fee hfind havail =>
    obtain ⟨hmem, hsid⟩ := findSlot_some hfind
    refine ⟨?_, ?_, ?_, ?_⟩
    · intro x hx
      obtain ⟨y, hy, rfl⟩ := List.mem_map.1 hx
      have hlt : y.id < s.nextId + 2 := Nat.lt_add_right 2 (k.slotIds y hy)
      show (if y.id = d.slotId then _ else y).id < s.nextId + 2
      split
      · exact hlt
      · exact hlt
    · intro c hc
      rcases List.mem_append.1 hc with h | h
      · exact Nat.lt_add_right 2 (k.consultationIds c h)
      · simp only [List.mem_singleton] at h
        subst h; exact Nat.lt_add_of_pos_right (by decide)
    · intro c hc
      rcases List.mem_append.1 hc with h | h
      · exact Nat.lt_add_right 2 (k.references c h)
      · simp only [List.mem_singleton] at h
        subst h
        show d.slotId < s.nextId + 2
        rw [← hsid]
        exact Nat.lt_add_right 2 (k.slotIds slot hmem)
    · show ((s.consultations ++ _).map (fun c => c.id)).Nodup
      rw [List.map_append, List.nodup_append]
      refine ⟨k.distinct, by simp, ?_⟩
      intro a ha hb
      simp only [List.map_cons, List.map_nil, List.mem_singleton] at hb
      obtain ⟨c, hc, rfl⟩ := List.mem_map.1 ha
      exact absurd hb (Nat.ne_of_lt (k.consultationIds c hc))
  | statusUpdated cid c n st notes hfind hallowed hname =>
    refine keysFresh_map s k _ s.slots s.payments ?_ ?_ (fun x hx => ⟨x, hx, rfl⟩)
      |> fun h => by simpa using h
    · intro x; split <;> rfl
    · intro x; split <;> rfl
  | cancelled cid c slot hfind hlive hslot =>
    refine keysFresh_map s k _ _ s.payments ?_ ?_ ?_
    · intro x; split <;> rfl
    · intro x; split <;> rfl
    · intro x hx
      obtain ⟨y, hy, rfl⟩ := List.mem_map.1 hx
      refine ⟨y, hy, ?_⟩
      split <;> rfl
  | settled g payments hg =>
    refine keysFresh_map s k g s.slots payments ?_ ?_ (fun x hx => ⟨x, hx, rfl⟩)
      |> fun h => by simpa using h
    · intro x; obtain ⟨ps, h⟩ := hg x; rw [h]
    · intro x; obtain ⟨ps, h⟩ := hg x; rw [h]

/-- Changing the consultations by a function that keeps key and slot and
revives no cancelled row keeps the slots held. -/
theorem slotsHeld_map (s : Store) (h : SlotsHeld s)
    (g : Consultation → Consultation) (payments : List Payment)
    (hslot : ∀ x, (g x).slotId = x.slotId)
    (hlive : ∀ x ∈ s.consultations, (g x).status ≠ .CANCELLED → x.status ≠ .CANCELLED) :
    SlotsHeld { s with consultations := s.consultations.map g, payments := payments } := by
  constructor
  · intro c hc hst
    obtain ⟨x, hx, rfl⟩ := List.mem_map.1 hc
    have := h.booked x hx (hlive x hx hst)
    rw [hslot]; exact this
  · intro c hc c' hc' hsl hst hst'
    obtain ⟨x, hx, rfl⟩ := List.mem_map.1 hc
    obtain ⟨x', hx', rfl⟩ := List.mem_map.1 hc'
    rw [hslot, hslot] at hsl
    rw [h.single x hx x' hx' hsl (hlive x hx hst) (hlive x' hx' hst')]

/-- Changing the slot rows under a key that no live consultation references
keeps the slots held. -/
theorem slotsHeld_slots (s : Store) (h : SlotsHeld s) (slots : List AvailabilitySlot)
    (i : Id)
    (hfree : ∀ c ∈ s.consultations, c.status ≠ .CANCELLED → c.slotId ≠ i)
    (hsame : ∀ x : AvailabilitySlot, x.id ≠ i → (x ∈ slots ↔ x ∈ s.slots)) :
    SlotsHeld { s with slots := slots } := by
  constructor
  · intro c hc hst
    have hne := hfree c hc hst
    obtain ⟨⟨x, hx, hxi⟩, hall⟩ := h.booked c hc hst
    refine ⟨⟨x, (hsame x (by rw [hxi]; exact hne)).2 hx, hxi⟩, ?_⟩
    intro y hy hyi
    exact hall y ((hsame y (by rw [hyi]; exact hne)).1 hy) hyi
  · exact h.single

/-- A slot row that is not booked is referenced by no live consultation. -/
theorem SlotsHeld.free {s : Store} (h : SlotsHeld s) {i : Id} {slot : AvailabilitySlot}
    (hfind : s.findSlot i = some slot) (hfree : slot.status ≠ .BOOKED) :
    ∀ c ∈ s.consultations, c.status ≠ .CANCELLED → c.slotId ≠ i := by
  intro c hc hst heq
  obtain ⟨hmem, hid⟩ := findSlot_some hfind
  exact hfree ((h.booked c hc hst).2 slot hmem (by rw [hid, heq]))

theorem mem_map_update (i : Id) (f : AvailabilitySlot → AvailabilitySlot)
    (hid : ∀ y, (f y).id = y.id) (l : List AvailabilitySlot) (x : AvailabilitySlot)
    (hx : x.id ≠ i) :
    x ∈ l.map (fun y => if y.id = i then f y else y) ↔ x ∈ l := by
  constructor
  · intro h
    obtain ⟨y, hy, rfl⟩ := List.mem_map.1 h
    by_cases hyi : y.id = i
    · simp only [hyi, if_true] at hx
      exact absurd ((hid y).trans hyi) hx
    · simp only [hyi, if_false]; exact hy
  · intro h
    exact List.mem_map.2 ⟨x, h, by simp [hx]⟩

theorem slotsHeld_effect {now : Time} {s s' : Store} (k : KeysFresh s) (h : SlotsHeld s)
    (e : Effect now s s') : SlotsHeld s' := by
  cases e with
  | unchanged => exact h
  | slotCreated row hid =>
    constructor
    · intro c hc hst
      obtain ⟨⟨x, hx, hxi⟩, hall⟩ := h.booked c hc hst
      refine ⟨⟨x, List.mem_append_left _ hx, hxi⟩, ?_⟩
      intro y hy hyi
      rcases List.mem_append.1 hy with hy | hy
      · exact hall y hy hyi
      · simp only [List.mem_singleton] at hy
        subst hy
        have := k.references c hc
        rw [← hyi, hid] at this
        exact absurd this (Nat.lt_irrefl _)
    · exact h.single
  | slotUpdated slotId slot f hfind hfree hid =>
    exact slotsHeld_slots s h _ slotId (h.free hfind hfree)
      (fun x hx => mem_map_update slotId f hid s.slots x hx)
  | slotDeleted slotId slot hfind hfree =>
    refine slotsHeld_slots s h _ slotId (h.free hfind hfree) ?_
    intro x hx
    simp [List.mem_filter, hx]
  | booked p d slot fee hfind havail =>
    obtain ⟨hmem, hsid⟩ := findSlot_some hfind
    have hfree := h.free hfind (by rw [havail]; decide)
    constructor
    · intro c hc hst
      rcases List.mem_append.1 hc with hc | hc
      · have hne := hfree c hc hst
        obtain ⟨⟨x, hx, hxi⟩, hall⟩ := h.booked c hc hst
        have hmu := fun (y : AvailabilitySlot) (hy : y.id ≠ d.slotId) =>
          mem_map_update d.slotId (fun y => { y with status := .BOOKED })
            (fun _ => rfl) s.slots y hy
        refine ⟨⟨x, (hmu x (by rw [hxi]; exact hne)).2 hx, hxi⟩, ?_⟩
        intro y hy hyi
        exact hall y ((hmu y (by rw [hyi]; exact hne)).1 hy) hyi
      · simp only [List.mem_singleton] at hc
        subst hc
        refine ⟨⟨{ slot with status := .BOOKED }, ?_, hsid⟩, ?_⟩
        · exact List.mem_map.2 ⟨slot, hmem, by simp [hsid]⟩
        · intro y hy hyi
          obtain ⟨z, hz, rfl⟩ := List.mem_map.1 hy
          by_cases hzi : z.id = d.slotId
          · simp [hzi]
          · simp [hzi] at hyi
    · intro c hc c' hc' hsl hst hst'
      rcases List.mem_append.1 hc with hc | hc <;> rcases List.mem_append.1 hc' with hc' | hc'
      · exact h.single c hc c' hc' hsl hst hst'
      · simp only [List.mem_singleton] at hc'
        subst hc'
        exact absurd hsl (hfree c hc hst)
      · simp only [List.mem_singleton] at hc
        subst hc
        exact absurd hsl.symm (hfree c' hc' hst')
      · simp only [List.mem_singleton] at hc hc'
        rw [hc, hc']
  | statusUpdated cid c n st notes hfind hallowed hname =>
    obtain ⟨hmem, hcid⟩ := findConsultation_some hfind
    refine slotsHeld_map s h _ s.payments ?_ ?_ |> fun h => by simpa using h
    · intro x; split <;> rfl
    · intro x hx hst
      by_cases hxi : x.id = cid
      · have : x = c := k.eq_of_id hx hmem (hxi.trans hcid.symm)
        subst this
        rcases transitionAllowed_live hallowed with hl | hl <;> rw [hl] <;> decide
      · simpa [hxi] using hst
  | cancelled cid c slot hfind hlive hslot =>
    obtain ⟨hmem, hcid⟩ := findConsultation_some hfind
    have hc_live : c.status ≠ .CANCELLED := by
      rcases hlive with hl | hl <;> rw [hl] <;> decide
    have h1 := slotsHeld_map s h
      (fun x => if x.id = cid then { x with status := .CANCELLED } else x) s.payments
      (by intro x; dsimp only; split <;> rfl)
      (by
        intro x hx hst
        by_cases hxi : x.id = cid
        · simp [hxi] at hst
        · simpa [hxi] using hst)
    refine slotsHeld_slots _ h1 _ c.slotId ?_ ?_
    · intro x hx hst heq
      obtain ⟨y, hy, rfl⟩ := List.mem_map.1 hx
      by_cases hyi : y.id = cid
      · simp [hyi] at hst
      · simp only [hyi, if_false] at hst heq
        have := h.single y hy c hmem heq hst hc_live
        exact hyi (by rw [this, hcid])
    · intro x hx
      exact mem_map_update c.slotId (fun y => { y with status := .AVAILABLE })
        (fun _ => rfl) s.slots x hx
  | settled g payments hg =>
    refine slotsHeld_map s h g payments ?_ ?_
    · intro x; obtain ⟨ps, h⟩ := hg x; rw [h]
    · intro x _ hst; obtain ⟨ps, h⟩ := hg x; rw [h] at hst; exact hst

/-- Every call changes the store in one of the listed ways. -/
theorem exec_effect (cfg : Config) (env : Env) (op : Op) (s : Store) :
    Effect env.now s (op.exec cfg env s) := by
  cases op with
  | createSlot u d => exact createSlot_effect env.db env.now u d s
  | updateSlot u i d => exact updateSlot_effect env.db env.now u i d s
  | deleteSlot u i => exact deleteSlot_effect env.db env.now u i s
  | bookConsultation p d => exact bookConsultation_effect env.db env.now p d s
  | updateStatus c u n notes => exact updateStatus_effect env.db env.now c u n notes s
  | cancelConsultation c u r => exact cancelConsultation_effect cfg env.db env.now c u r s
  | handleWebhook d => exact handleWebhook_effect env.db env.now d s

theorem keysFresh_empty (doctors : List Doctor) : KeysFresh (Store.empty doctors) :=
  ⟨by simp [Store.empty], by simp [Store.empty], by simp [Store.empty], by simp [Store.empty]⟩

theorem slotsHeld_empty (doctors : List Doctor) : SlotsHeld (Store.empty doctors) :=
  ⟨by simp [Store.empty], by simp [Store.empty]⟩

theorem run_invariant (cfg : Config) (calls : List (Env × Op)) (s : Store)
    (k : KeysFresh s) (h : SlotsHeld s) :
    KeysFresh (run cfg calls s) ∧ SlotsHeld (run cfg calls s) := by
  induction calls generalizing s with
  | nil => exact ⟨k, h⟩
  | cons call rest ih =>
    obtain ⟨env, op⟩ := call
    have e := exec_effect cfg env op s
    exact ih _ (keysFresh_effect k e) (slotsHeld_effect k h e)

theorem length_le_one_of_nodup {α : Type} (l : List α) (hn : l.Nodup)
    (h : ∀ a ∈ l, ∀ b ∈ l, a = b) : l.length ≤ 1 := by
  match l, hn, h with
  | [], _, _ => simp
  | [_], _, _ => simp
  | a :: b :: t, hn, h =>
    have hab : a = b := h a (by simp) b (by simp)
    subst hab
    simp at hn

theorem slotExclusive_of_held {s : Store} (k : KeysFresh s) (h : SlotsHeld s) :
    SlotExclusive s := by
  intro i
  unfold activeOn
  apply length_le_one_of_nodup
  · exact (List.Nodup.of_map _ k.distinct).filter _
  · intro a ha b hb
    obtain ⟨ha1, ha2⟩ := List.mem_filter.1 ha
    obtain ⟨hb1, hb2⟩ := List.mem_filter.1 hb
    simp only [Bool.and_eq_true, beq_iff_eq, bne_iff_ne, ne_eq] at ha2 hb2
    exact h.single a ha1 b hb1 (ha2.1.trans hb2.1.symm) ha2.2 hb2.2

theorem liveOnBooked_of_held {s : Store} (h : SlotsHeld s) : LiveOnBooked s := by
  intro c hc hlive
  have hst : c.status ≠ .CANCELLED := by
    rcases hlive with hl | hl <;> rw [hl] <;> decide
  obtain ⟨⟨x, hx, hxi⟩, hall⟩ := h.booked c hc hst
  obtain ⟨y, hy⟩ := findSlot_of_mem hx
  rw [hxi] at hy
  obtain ⟨hymem, hyid⟩ := findSlot_some hy
  exact ⟨y, hy, hall y hymem hyid⟩

/-- After a booking has gone through, every further request for the slot is
turned down as not available and leaves the store alone. -/
theorem bookAll_taken (rest : List (Faults × Id × BookingData)) (s : Store) (i : Id)
    (slot : AvailabilitySlot) (hslot : s.findSlot i = some slot) (hst : slot.status = .BOOKED)
    (hrest : ∀ r ∈ rest, r.2.2.slotId = i) :
    bookAll rest s =
      (rest.map (fun _ => .error (ConflictError "Slot is not available")), s) := by
  induction rest with
  | nil => rfl
  | cons r rest ih =>
    obtain ⟨db, p, d⟩ := r
    have hd : d.slotId = i := hrest (db, p, d) (by simp)
    have hb : bookConsultation db p d s =
        (.error (ConflictError "Slot is not available"), s) := by
      rw [bookConsultation_eq]
      simp [bookChecks, hd, hslot, hst]
    have ih' := ih (fun r hr => hrest r (by simp [hr]))
    simp only [bookAll, hb, ih', List.map_cons]

theorem find?_map_update (l : List AvailabilitySlot) (i : Id)
    (f : AvailabilitySlot → AvailabilitySlot) (hid : ∀ y, (f y).id = y.id)
    (slot : AvailabilitySlot) (h : l.find? (fun x => x.id == i) = some slot) :
    (l.map (fun y => if y.id = i then f y else y)).find? (fun x => x.id == i)
      = some (f slot) := by
  induction l with
  | nil => simp at h
  | cons a l ih =>
    by_cases ha : a.id = i
    · simp [ha] at h
      subst h
      simp [ha, hid]
    · simp [ha] at h
      simp [ha, ih h]

/-- C5. In every store reached from the empty one by a series of calls of the
service methods (createSlot, updateSlot, deleteSlot, bookConsultation,
updateStatus, cancelConsultation, and the payment webhook as well), whatever the
clock and the write faults, a slot is referenced by at most one consultation
that is not CANCELLED and every CONFIRMED or IN_PROGRESS consultation references
a slot that is BOOKED.  And of a series of booking attempts on one AVAILABLE
slot of an approved doctor, the first returns and all the others are turned
down with "Slot is not available". -/
theorem slot_held_by_one (cfg : Config) (doctors : List Doctor)
    (calls : List (Env × Op)) :
    SlotExclusive (run cfg calls (Store.empty doctors)) ∧
    LiveOnBooked (run cfg calls (Store.empty doctors)) ∧
    ∀ (s : Store) (patientId : Id) (data : BookingData) (slot : AvailabilitySlot)
      (doctor : Doctor) (rest : List (Faults × Id × BookingData)),
      s.findSlot data.slotId = some slot → slot.status = .AVAILABLE →
      s.findDoctor slot.doctorId = some doctor → doctor.userId = data.doctorId →
      doctor.isApproved = true → (∀ r ∈ rest, r.2.2.slotId = data.slotId) →
      (bookAll ((noFaults, patientId, data) :: rest) s).1 =
        (bookConsultation noFaults patientId data s).1 ::
          rest.map (fun _ => .error (ConflictError "Slot is not available")) ∧
      isOk (bookConsultation noFaults patientId data s).1 = true ∧
      (bookAll ((noFaults, patientId, data) :: rest) s).2 =
        (bookConsultation noFaults patientId data s).2 := by
  obtain ⟨k, h⟩ := run_invariant cfg calls (Store.empty doctors)
    (keysFresh_empty doctors) (slotsHeld_empty doctors)
  refine ⟨slotExclusive_of_held k h, liveOnBooked_of_held h, ?_⟩
  intro s patientId data slot doctor rest hslot hst hdoc hu ha hrest
  have hb := bookConsultation_ok noFaults s patientId data slot doctor hslot hst hdoc hu ha
    rfl rfl rfl
  have hfind := find?_map_update s.slots data.slotId (fun y => { y with status := .BOOKED })
    (fun _ => rfl) slot hslot
  have htaken := bookAll_taken rest (bookConsultation noFaults patientId data s).2
    data.slotId { slot with status := .BOOKED } (by rw [hb]; exact hfind) rfl hrest
  simp only [bookAll, htaken]
  refine ⟨trivial, ?_, trivial⟩
  rw [hb]; rfl

/-! ## Cancellation -/

/-- The two writes of a cancellation, in the transaction. -/
theorem cancelConsultationTx_eq (db : Faults) (s : Store) (cid : Id) (c : Consultation)
    (slot : AvailabilitySlot) (hc : s.findConsultation cid = some c)
    (hs : s.findSlot c.slotId = some slot) :
    transaction (cancelConsultationTx db cid c.slotId) s =
      if db 0 = true ∨ db 1 = true then (.error storeFailure, s)
      else (.ok { c with status := .CANCELLED },
        { s with
          consultations := s.consultations.map
            (fun x => if x.id = cid then { x with status := .CANCELLED } else x)
          slots := s.slots.map
            (fun y => if y.id = c.slotId then { y with status := .AVAILABLE } else y) }) := by
  have hc' := hc
  have hs' := hs
  simp only [Store.findConsultation] at hc'
  simp only [Store.findSlot] at hs'
  cases h0 : db 0 <;> cases h1 : db 1 <;>
    simp [transaction, cancelConsultationTx, consultationUpdate, slotUpdate, h0, h1,
      hc', hs', Store.findSlot, Store.findConsultation]

/-- A cancellation past its status and party guards: the window test decides,
then the transaction. -/
theorem cancelConsultation_eq (cfg : Config) (db : Faults) (now : Time) (s : Store)
    (cid uid : Id) (role : Role) (c : Consultation) (slot : AvailabilitySlot)
    (hc : s.findConsultation cid = some c)
    (hparty : c.patientId = uid ∨ c.doctorId = uid)
    (hlive : c.status = .CONFIRMED ∨ c.status = .IN_PROGRESS)
    (hs : s.findSlot c.slotId = some slot) :
    cancelConsultation cfg db now cid uid role s =
      if getHoursDifference now slot.startTime < cfg.CONSULTATION_CANCELLATION_HOURS then
        (.error (ConflictError
          ("Cannot cancel within " ++ numberText cfg.CONSULTATION_CANCELLATION_HOURS
            ++ " hours of consultation")), s)
      else if db 0 = true ∨ db 1 = true then (.error storeFailure, s)
      else (.ok { c with status := .CANCELLED },
        { s with
          consultations := s.consultations.map
            (fun x => if x.id = cid then { x with status := .CANCELLED } else x)
          slots := s.slots.map
            (fun y => if y.id = c.slotId then { y with status := .AVAILABLE } else y) }) := by
  have h1 : ¬(c.patientId ≠ uid ∧ c.doctorId ≠ uid) := by
    rcases hparty with h | h <;> simp [h]
  have h2 : ¬(c.status = .CANCELLED ∨ c.status = .COMPLETED ∨ c.status = .NO_SHOW) := by
    rcases hlive with h | h <;> simp [h]
  unfold cancelConsultation
  simp only [hc, hs, h1, h2, if_false]
  split
  · rfl
  · exact cancelConsultationTx_eq db s cid c slot hc hs

/-- Hours left or gone, as an inequality between integers of milliseconds. -/
theorem getHoursDifference_lt (now start : Time) (h : Nat) :
    getHoursDifference now start < (h : ℚ) ↔ |start - now| < (h : Int) * 3600000 := by
  unfold getHoursDifference
  rw [div_lt_iff₀ (by norm_num)]
  have : ((h : ℚ) * (1000 * 60 * 60)) = (((h : Int) * 3600000 : Int) : ℚ) := by
    push_cast; ring
  rw [this]
  exact Int.cast_lt

/-- What the window test of the code admits: with a window of `h` whole hours
and no write fault, a live consultation is cancelled by a party exactly when
the slot start and the clock are at least `h` hours apart, on either side. -/
theorem cancelConsultation_window (now : Time) (s : Store) (cid uid : Id) (role : Role)
    (c : Consultation) (slot : AvailabilitySlot) (h : Nat)
    (hc : s.findConsultation cid = some c)
    (hparty : c.patientId = uid ∨ c.doctorId = uid)
    (hlive : c.status = .CONFIRMED ∨ c.status = .IN_PROGRESS)
    (hs : s.findSlot c.slotId = some slot) :
    isOk (cancelConsultation ⟨h⟩ noFaults now cid uid role s).1 = true ↔
      (h : Int) * 3600000 ≤ |slot.startTime - now| := by
  rw [cancelConsultation_eq ⟨h⟩ noFaults now s cid uid role c slot hc hparty hlive hs]
  have hw := getHoursDifference_lt now slot.startTime h
  by_cases hlt : getHoursDifference now slot.startTime < (h : ℚ)
  · simp only [hlt, if_true, isOk]
    have := hw.1 hlt
    constructor
    · intro h'; cases h'
    · intro h'; exact absurd this (not_lt.2 h')
  · simp only [hlt, if_false, noFaults, Bool.false_eq_true, or_self, isOk, true_iff]
    exact not_lt.1 (fun h' => hlt (hw.2 h'))

/-- The two cases of the specification, on the booked sample slot that starts
at hour 10 under the 2-hour window: at hour 9, one hour ahead, the patient is
refused; at hour 7, three hours ahead, the cancellation goes through. -/
theorem cancelConsultation_window_samples :
    isOk (cancelConsultation defaultConfig noFaults (9 * hourMs) 1 5 .PATIENT
      bookedSample).1 = false ∧
    isOk (cancelConsultation defaultConfig noFaults (7 * hourMs) 1 5 .PATIENT
      bookedSample).1 = true := by
  have h9 := cancelConsultation_window (9 * hourMs) bookedSample 1 5 .PATIENT
    sampleConsultation { sampleSlot with status := .BOOKED } 2 rfl (Or.inl rfl) (Or.inl rfl) rfl
  have h7 := cancelConsultation_window (7 * hourMs) bookedSample 1 5 .PATIENT
    sampleConsultation { sampleSlot with status := .BOOKED } 2 rfl (Or.inl rfl) (Or.inl rfl) rfl
  refine ⟨?_, h7.2 (by decide)⟩
  cases hr : isOk (cancelConsultation defaultConfig noFaults (9 * hourMs) 1 5 .PATIENT
      bookedSample).1
  · rfl
  · exact absurd (h9.1 hr) (by decide)

/-- C6 (evaluation). Patient 5 holds the sample slot, which starts at hour 10,
under the 2-hour window.  At hour 13 the time left until the start is minus
three hours, below the window, yet the cancellation goes through and the slot
is AVAILABLE again: `getHoursDifference` drops the sign. -/
theorem cancelConsultation_after_start :
    sampleSlot.startTime - 13 * hourMs < 2 * hourMs ∧
    isOk (cancelConsultation defaultConfig noFaults (13 * hourMs) 1 5 .PATIENT
      bookedSample).1 = true ∧
    (cancelConsultation defaultConfig noFaults (13 * hourMs) 1 5 .PATIENT
      bookedSample).2.slots = [sampleSlot] := by
  refine ⟨by decide, ?_, ?_⟩
  · exact (cancelConsultation_window (13 * hourMs) bookedSample 1 5 .PATIENT
      { id := 1, patientId := 5, doctorId := 70, slotId := 0, reason := "fever",
        status := .CONFIRMED, paymentStatus := .PENDING, notes := none,
        startedAt := none, endedAt := none }
      { sampleSlot with status := .BOOKED } 2 rfl (Or.inl rfl) (Or.inl rfl) rfl).2
      (by decide)
  · rw [cancelConsultation_eq defaultConfig noFaults (13 * hourMs) bookedSample 1 5 .PATIENT
      { id := 1, patientId := 5, doctorId := 70, slotId := 0, reason := "fever",
        status := .CONFIRMED, paymentStatus := .PENDING, notes := none,
        startedAt := none, endedAt := none }
      { sampleSlot with status := .BOOKED } rfl (Or.inl rfl) (Or.inl rfl) rfl]
    have hw : ¬ getHoursDifference (13 * hourMs) sampleSlot.startTime < (2 : ℚ) := by
      have := getHoursDifference_lt (13 * hourMs) sampleSlot.startTime 2
      simp only [Nat.cast_ofNat] at this
      rw [this]
      decide
    simp only [defaultConfig]
    rw [if_neg hw]
    decide

/-- A cancellation either throws and leaves the store, or has passed every guard
and both writes. -/
theorem cancelConsultation_cases (cfg : Config) (db : Faults) (now : Time) (cid uid : Id)
    (role : Role) (s : Store) :
    (∃ e, cancelConsultation cfg db now cid uid role s = (.error e, s)) ∨
    (∃ c slot, s.findConsultation cid = some c ∧ (c.patientId = uid ∨ c.doctorId = uid) ∧
      (c.status = .CONFIRMED ∨ c.status = .IN_PROGRESS) ∧
      s.findSlot c.slotId = some slot ∧
      ¬ getHoursDifference now slot.startTime < cfg.CONSULTATION_CANCELLATION_HOURS ∧
      db 0 = false ∧ db 1 = false ∧
      cancelConsultation cfg db now cid uid role s =
        (.ok { c with status := .CANCELLED },
          { s with
            consultations := s.consultations.map
              (fun x => if x.id = cid then { x with status := .CANCELLED } else x)
            slots := s.slots.map
              (fun y => if y.id = c.slotId then { y with status := .AVAILABLE } else y) })) := by
  cases hc : s.findConsultation cid with
  | none =>
    left
    exact ⟨NotFoundError "Consultation not found", by simp [cancelConsultation, hc]⟩
  | some c =>
    by_cases hparty : c.patientId = uid ∨ c.doctorId = uid
    · by_cases hlive : c.status = .CONFIRMED ∨ c.status = .IN_PROGRESS
      · cases hs : s.findSlot c.slotId with
        | none =>
          left
          have h1 : ¬(c.patientId ≠ uid ∧ c.doctorId ≠ uid) := by
            rcases hparty with h | h <;> simp [h]
          have h2 : ¬(c.status = .CANCELLED ∨ c.status = .COMPLETED ∨ c.status = .NO_SHOW) := by
            rcases hlive with h | h <;> simp [h]
          exact ⟨⟨.TypeError, "Cannot read properties of null"⟩,
            by simp only [cancelConsultation, hc, hs, h1, h2, if_false]⟩
        | some slot =>
          rw [cancelConsultation_eq cfg db now s cid uid role c slot hc hparty hlive hs]
          by_cases hw : getHoursDifference now slot.startTime < cfg.CONSULTATION_CANCELLATION_HOURS
          · left; exact ⟨_, by rw [if_pos hw]⟩
          · by_cases hf : db 0 = true ∨ db 1 = true
            · left; exact ⟨_, by rw [if_neg hw, if_pos hf]⟩
            · right
              refine ⟨c, slot, rfl, hparty, hlive, hs, hw, ?_, ?_, by rw [if_neg hw, if_neg hf]⟩
              · simpa using (not_or.1 hf).1
              · simpa using (not_or.1 hf).2
      · left
        have h1 : ¬(c.patientId ≠ uid ∧ c.doctorId ≠ uid) := by
          rcases hparty with h | h <;> simp [h]
        have h2 : c.status = .CANCELLED ∨ c.status = .COMPLETED ∨ c.status = .NO_SHOW := by
          cases hst : c.status <;> simp_all
        exact ⟨ConflictError "Cannot cancel consultation in current status",
          by simp only [cancelConsultation, hc, h1, h2, if_false, if_true]⟩
    · left
      have h1 : c.patientId ≠ uid ∧ c.doctorId ≠ uid := by
        constructor
        · intro h; exact hparty (Or.inl h)
        · intro h; exact hparty (Or.inr h)
      exact ⟨ForbiddenError "Not authorized to cancel this consultation",
        by simp only [cancelConsultation, hc]; rw [if_pos h1]⟩

/-- C7. A cancellation by a party of a consultation that is CONFIRMED or
IN_PROGRESS, outside the window and with no write fault, returns: it sets the
status of the consultation to CANCELLED and the status of its slot to AVAILABLE
and changes nothing else.  Conversely every cancellation that returns has done
exactly that: rows under other keys, the other fields of the two rows, the
payments and the doctors are those of before.  The two writes are one unit:
when either fails the call throws, and a call that throws leaves the store as
it was. -/
theorem cancelConsultation_frame (cfg : Config) (db : Faults) (now : Time) (cid uid : Id)
    (role : Role) (s : Store) :
    (∀ c slot, s.findConsultation cid = some c → (c.patientId = uid ∨ c.doctorId = uid) →
      (c.status = .CONFIRMED ∨ c.status = .IN_PROGRESS) →
      s.findSlot c.slotId = some slot →
      ¬ getHoursDifference now slot.startTime < cfg.CONSULTATION_CANCELLATION_HOURS →
      db 0 = false → db 1 = false →
      cancelConsultation cfg db now cid uid role s =
        (.ok { c with status := .CANCELLED },
          { doctors := s.doctors
            slots := s.slots.map
              (fun y => if y.id = c.slotId then { y with status := .AVAILABLE } else y)
            consultations := s.consultations.map
              (fun x => if x.id = cid then { x with status := .CANCELLED } else x)
            payments := s.payments
            nextId := s.nextId })) ∧
    (∀ r, (cancelConsultation cfg db now cid uid role s).1 = .ok r →
      ∃ c, s.findConsultation cid = some c ∧ r = { c with status := .CANCELLED } ∧
        (cancelConsultation cfg db now cid uid role s).2 =
          { doctors := s.doctors
            slots := s.slots.map
              (fun y => if y.id = c.slotId then { y with status := .AVAILABLE } else y)
            consultations := s.consultations.map
              (fun x => if x.id = cid then { x with status := .CANCELLED } else x)
            payments := s.payments
            nextId := s.nextId }) ∧
    (db 0 = true ∨ db 1 = true →
      isOk (cancelConsultation cfg db now cid uid role s).1 = false) ∧
    (isOk (cancelConsultation cfg db now cid uid role s).1 = false →
      (cancelConsultation cfg db now cid uid role s).2 = s) := by
  refine ⟨?_, ?_⟩
  · intro c slot hc hparty hlive hs hw h0 h1
    rw [cancelConsultation_eq cfg db now s cid uid role c slot hc hparty hlive hs,
      if_neg hw, if_neg (by simp [h0, h1])]
  rcases cancelConsultation_cases cfg db now cid uid role s with
    ⟨e, he⟩ | ⟨c, slot, hc, -, -, -, -, h0, h1, hok⟩
  · rw [he]
    refine ⟨?_, fun _ => rfl, fun _ => rfl⟩
    intro r hr; cases hr
  · rw [hok]
    refine ⟨?_, ?_, ?_⟩
    · intro r hr
      cases hr
      exact ⟨c, hc, rfl, rfl⟩
    · intro hf
      rcases hf with hf | hf
      · rw [h0] at hf; cases hf
      · rw [h1] at hf; cases hf
    · intro hf; simp [isOk] at hf

/-! ## Status transitions -/

theorem transitionAllowed_iff (status : ConsultationStatus) (n : String) :
    transitionAllowed status n = true ↔ (status, n) ∈ transitionTable := by
  cases status <;> simp [transitionAllowed, validTransitions, transitionTable]

theorem ofName_of_allowed {status : ConsultationStatus} {n : String}
    (h : transitionAllowed status n = true) :
    ∃ st, ConsultationStatus.ofName n = some st ∧ st.name = n := by
  cases status <;> simp [transitionAllowed, validTransitions] at h
  · rcases h with h | h | h <;> subst h
    · exact ⟨.IN_PROGRESS, by decide, rfl⟩
    · exact ⟨.CANCELLED, by decide, rfl⟩
    · exact ⟨.NO_SHOW, by decide, rfl⟩
  · rcases h with h | h <;> subst h
    · exact ⟨.COMPLETED, by decide, rfl⟩
    · exact ⟨.CANCELLED, by decide, rfl⟩

/-- A status update by the doctor of the consultation: the table decides, then
the single write. -/
theorem updateStatus_eq (db : Faults) (now : Time) (cid uid : Id) (n : String)
    (notes : Option String) (s : Store) (c : Consultation)
    (hc : s.findConsultation cid = some c) (hdoc : c.doctorId = uid) :
    updateStatus db now cid uid n notes s =
      if transitionAllowed c.status n = true then
        match ConsultationStatus.ofName n with
        | none => (.error validationFailure, s)
        | some status =>
          if db 0 = true then (.error storeFailure, s)
          else
            (.ok { c with
                   status := status
                   notes := if truthy notes then notes else c.notes
                   startedAt := if n = "IN_PROGRESS" then some now else c.startedAt
                   endedAt := if n = "COMPLETED" then some now else c.endedAt },
             { s with
               consultations := s.consultations.map
                 (fun x => if x.id = cid then
                   { x with
                     status := status
                     notes := if truthy notes then notes else x.notes
                     startedAt := if n = "IN_PROGRESS" then some now else x.startedAt
                     endedAt := if n = "COMPLETED" then some now else x.endedAt }
                   else x) })
      else
        (.error (ConflictError
          ("Cannot transition from " ++ c.status.name ++ " to " ++ n)), s) := by
  subst hdoc
  unfold updateStatus
  simp only [hc, ne_eq, not_true_eq_false, if_false]
  by_cases ha : transitionAllowed c.status n = true
  · simp only [ha, Bool.not_true, Bool.false_eq_true, if_false, if_true]
    cases hn : ConsultationStatus.ofName n with
    | none => rfl
    | some st =>
      simp only [consultationUpdate, hc]
  · simp [ha]

/-- A status update that throws leaves the store as it was. -/
theorem updateStatus_error_store (db : Faults) (now : Time) (cid uid : Id) (n : String)
    (notes : Option String) (s : Store)
    (h : isOk (updateStatus db now cid uid n notes s).1 = false) :
    (updateStatus db now cid uid n notes s).2 = s := by
  cases hc : s.findConsultation cid with
  | none => simp [updateStatus, hc]
  | some c =>
    by_cases hdoc : c.doctorId = uid
    · rw [updateStatus_eq db now cid uid n notes s c hc hdoc] at h ⊢
      split
      · rename_i ha
        rw [if_pos ha] at h
        split
        · rfl
        · rename_i st hst
          simp only [hst] at h
          split
          · rfl
          · rename_i hf
            rw [if_neg hf] at h
            simp [isOk] at h
      · rfl
    · simp [updateStatus, hc, hdoc]

/-- C8. For an existing consultation: when the caller is its doctor and no write
fails, `updateStatus` returns exactly when the pair of the current and the
requested status is in the transition table; every other pair is refused with a
Conflict whose message names the two statuses; a caller who is not the doctor is
refused with Forbidden whatever was requested; and a call that throws leaves the
store as it was. -/
theorem updateStatus_transitions (db : Faults) (now : Time) (cid uid : Id)
    (newStatus : String) (notes : Option String) (s : Store) (c : Consultation)
    (hc : s.findConsultation cid = some c) :
    (c.doctorId = uid →
      (isOk (updateStatus noFaults now cid uid newStatus notes s).1 = true ↔
        (c.status, newStatus) ∈ transitionTable)) ∧
    (c.doctorId = uid → (c.status, newStatus) ∉ transitionTable →
      updateStatus db now cid uid newStatus notes s =
        (.error (ConflictError
          ("Cannot transition from " ++ c.status.name ++ " to " ++ newStatus)), s)) ∧
    (c.doctorId ≠ uid →
      updateStatus db now cid uid newStatus notes s =
        (.error (ForbiddenError "Only the assigned doctor can update consultation status"),
          s)) ∧
    (isOk (updateStatus db now cid uid newStatus notes s).1 = false →
      (updateStatus db now cid uid newStatus notes s).2 = s) := by
  refine ⟨?_, ?_, ?_, updateStatus_error_store db now cid uid newStatus notes s⟩
  · intro hdoc
    rw [updateStatus_eq noFaults now cid uid newStatus notes s c hc hdoc,
      ← transitionAllowed_iff]
    by_cases ha : transitionAllowed c.status newStatus = true
    · obtain ⟨st, hst, -⟩ := ofName_of_allowed ha
      simp [ha, hst, noFaults, isOk]
    · simp [ha, isOk]
  · intro hdoc hnot
    rw [updateStatus_eq db now cid uid newStatus notes s c hc hdoc]
    rw [if_neg (fun h => hnot ((transitionAllowed_iff _ _).1 h))]
  · intro hdoc
    simp [updateStatus, hc, hdoc]

/-- The doctor of the sample consultation may start it but may not complete it
at once; anyone else is refused. -/
theorem updateStatus_transitions_witness :
    isOk (updateStatus noFaults 0 1 70 "IN_PROGRESS" none bookedSample).1 = true ∧
    updateStatus noFaults 0 1 70 "COMPLETED" none bookedSample =
      (.error (ConflictError "Cannot transition from CONFIRMED to COMPLETED"), bookedSample) ∧
    updateStatus noFaults 0 1 5 "IN_PROGRESS" none bookedSample =
      (.error (ForbiddenError "Only the assigned doctor can update consultation status"),
        bookedSample) :=
  ⟨((updateStatus_transitions noFaults 0 1 70 "IN_PROGRESS" none bookedSample
      { id := 1, patientId := 5, doctorId := 70, slotId := 0, reason := "fever",
        status := .CONFIRMED, paymentStatus := .PENDING, notes := none,
        startedAt := none, endedAt := none } rfl).1 rfl).2 (by decide),
   (updateStatus_transitions noFaults 0 1 70 "COMPLETED" none bookedSample
      { id := 1, patientId := 5, doctorId := 70, slotId := 0, reason := "fever",
        status := .CONFIRMED, paymentStatus := .PENDING, notes := none,
        startedAt := none, endedAt := none } rfl).2.1 rfl (by decide),
   (updateStatus_transitions noFaults 0 1 5 "IN_PROGRESS" none bookedSample
      { id := 1, patientId := 5, doctorId := 70, slotId := 0, reason := "fever",
        status := .CONFIRMED, paymentStatus := .PENDING, notes := none,
        startedAt := none, endedAt := none } rfl).2.2.1 (by decide)⟩

/-! ## Terminal statuses -/

/-- Looking a key up after rows were changed by a function that keeps the key. -/
theorem find?_map_key (l : List Consultation) (g : Consultation → Consultation)
    (hid : ∀ x, (g x).id = x.id) (i : Id) :
    (l.map g).find? (fun x => x.id == i) = (l.find? (fun x => x.id == i)).map g := by
  induction l with
  | nil => rfl
  | cons a l ih =>
    by_cases ha : a.id = i
    · simp [List.find?_cons, hid, ha]
    · simp [List.find?_cons, hid, ha, ih]

theorem findConsultation_map (s : Store) (g : Consultation → Consultation)
    (slots : List AvailabilitySlot) (payments : List Payment)
    (hid : ∀ x, (g x).id = x.id) (i : Id) :
    Store.findConsultation
      { s with consultations := s.consultations.map g, slots := slots, payments := payments } i
      = (s.findConsultation i).map g :=
  find?_map_key s.consultations g hid i

theorem terminal_not_live {status : ConsultationStatus} (ht : status.terminal = true)
    (hl : status = .CONFIRMED ∨ status = .IN_PROGRESS) : False := by
  rcases hl with h | h <;> rw [h] at ht <;> cases ht

theorem terminal_effect {now : Time} {s s' : Store} (e : Effect now s s') (i : Id)
    (c : Consultation) (hc : s.findConsultation i = some c) (ht : c.status.terminal = true) :
    ∃ c', s'.findConsultation i = some c' ∧ c'.status = c.status := by
  have hci := (findConsultation_some hc).2
  cases e with
  | unchanged => exact ⟨c, hc, rfl⟩
  | slotCreated row hid => exact ⟨c, hc, rfl⟩
  | slotUpdated slotId slot f hfind hfree hid => exact ⟨c, hc, rfl⟩
  | slotDeleted slotId slot hfind hfree => exact ⟨c, hc, rfl⟩
  | booked p d slot fee hfind havail =>
    refine ⟨c, ?_, rfl⟩
    unfold Store.findConsultation at hc ⊢
    simp only [List.find?_append, hc]
    rfl
  | statusUpdated cid c0 n st notes hfind hallowed hname =>
    have hne : c.id ≠ cid := by
      intro h
      rw [← hci, h, hfind] at hc
      cases hc
      exact terminal_not_live ht (transitionAllowed_live hallowed)
    refine ⟨c, ?_, rfl⟩
    have := findConsultation_map s
      (fun x => if x.id = cid then
          { x with
            status := st
            notes := if truthy notes then notes else x.notes
            startedAt := if n = "IN_PROGRESS" then some now else x.startedAt
            endedAt := if n = "COMPLETED" then some now else x.endedAt }
          else x) s.slots s.payments (by intro x; dsimp only; split <;> rfl) i
    rw [hc] at this
    simpa [hne] using this
  | cancelled cid c0 slot hfind hlive hslot =>
    have hne : c.id ≠ cid := by
      intro h
      rw [← hci, h, hfind] at hc
      cases hc
      exact terminal_not_live ht hlive
    refine ⟨c, ?_, rfl⟩
    have := findConsultation_map s
      (fun x => if x.id = cid then { x with status := .CANCELLED } else x)
      (s.slots.map (fun y => if y.id = c0.slotId then { y with status := .AVAILABLE } else y))
      s.payments (by intro x; dsimp only; split <;> rfl) i
    rw [hc] at this
    simpa [hne] using this
  | settled g payments hg =>
    have := findConsultation_map s g s.slots payments
      (by intro x; obtain ⟨ps, h⟩ := hg x; rw [h]) i
    rw [hc] at this
    refine ⟨g c, by simpa using this, ?_⟩
    obtain ⟨ps, h⟩ := hg c
    rw [h]

/-- C9. COMPLETED, CANCELLED and NO_SHOW are terminal: whatever the call
(createSlot, updateSlot, deleteSlot, bookConsultation, updateStatus with any
target, cancelConsultation, handleWebhook), by whatever caller, at whatever time
and with whatever write faults, a consultation that has one of the three
statuses before the call is still in the store after it, with the same status. -/
theorem terminal_status_final (cfg : Config) (env : Env) (op : Op) (s : Store) (i : Id)
    (c : Consultation) (hc : s.findConsultation i = some c)
    (ht : c.status = .COMPLETED ∨ c.status = .CANCELLED ∨ c.status = .NO_SHOW) :
    ∃ c', (op.exec cfg env s).findConsultation i = some c' ∧ c'.status = c.status :=
  terminal_effect (exec_effect cfg env op s) i c hc
    (by rcases ht with h | h | h <;> rw [h] <;> rfl)

/-! ## Time stamps -/

theorem stampedBy_mono {t t' : Time} {s : Store} (h : StampedBy t s) (ht : t ≤ t') :
    StampedBy t' s := by
  intro c hc
  obtain ⟨h1, h2, h3⟩ := h c hc
  exact ⟨h1, h2, fun a ha => le_trans (h3 a ha) ht⟩

/-- The stamps survive a change of the consultations that keeps status and
stamps of every row. -/
theorem stampedBy_map {t : Time} (s : Store)
    (g : Consultation → Consultation) (slots : List AvailabilitySlot)
    (payments : List Payment)
    (hg : ∀ x ∈ s.consultations,
      ((g x).status = .IN_PROGRESS → ∃ a, (g x).startedAt = some a) ∧
      ((g x).status = .COMPLETED →
        ∃ a b, (g x).startedAt = some a ∧ (g x).endedAt = some b ∧ a ≤ b) ∧
      (∀ a, (g x).startedAt = some a → a ≤ t)) :
    StampedBy t { s with consultations := s.consultations.map g, slots := slots,
                         payments := payments } := by
  intro c hc
  obtain ⟨x, hx, rfl⟩ := List.mem_map.1 hc
  exact hg x hx

theorem stampedBy_effect {t now : Time} {s s' : Store} (k : KeysFresh s)
    (h : StampedBy t s) (ht : t ≤ now) (e : Effect now s s') : StampedBy now s' := by
  have h' := stampedBy_mono h ht
  cases e with
  | unchanged => exact h'
  | slotCreated row hid => exact h'
  | slotUpdated slotId slot f hfind hfree hid => exact h'
  | slotDeleted slotId slot hfind hfree => exact h'
  | booked p d slot fee hfind havail =>
    intro c hc
    rcases List.mem_append.1 hc with hc | hc
    · exact h' c hc
    · simp only [List.mem_singleton] at hc
      subst hc
      refine ⟨?_, ?_, ?_⟩
      · intro hst; cases hst
      · intro hst; cases hst
      · intro a ha; cases ha
  | statusUpdated cid c n st notes hfind hallowed hname =>
    obtain ⟨hmem, hcid⟩ := findConsultation_some hfind
    refine stampedBy_map s _ s.slots s.payments ?_ |> fun h => by simpa using h
    intro x hx
    by_cases hxi : x.id = cid
    · have hxc : x = c := k.eq_of_id hx hmem (hxi.trans hcid.symm)
      subst hxc
      obtain ⟨h1, h2, h3⟩ := h' x hx
      simp only [hxi, if_true]
      cases hs : x.status <;> rw [hs] at hallowed <;>
        simp [transitionAllowed, validTransitions] at hallowed
      · rcases hallowed with hn | hn | hn <;> subst hn <;>
          simp [ConsultationStatus.ofName] at hname <;> subst hname <;> simp
        · intro a ha; exact h3 a ha
        · intro a ha; exact h3 a ha
      · obtain ⟨a, ha⟩ := h1 hs
        rcases hallowed with hn | hn <;> subst hn <;>
          simp [ConsultationStatus.ofName] at hname <;> subst hname <;> simp [ha]
        · exact h3 a ha
        · exact h3 a ha
    · simp only [hxi, if_false]
      exact h' x hx
  | cancelled cid c slot hfind hlive hslot =>
    refine stampedBy_map s _ _ s.payments ?_
    intro x hx
    obtain ⟨h1, h2, h3⟩ := h' x hx
    by_cases hxi : x.id = cid
    · beta_reduce
      rw [if_pos hxi]
      exact ⟨fun hst => (by cases hst), fun hst => (by cases hst), h3⟩
    · beta_reduce
      rw [if_neg hxi]
      exact ⟨h1, h2, h3⟩
  | settled g payments hg =>
    refine stampedBy_map s g s.slots payments ?_ |> fun h => by simpa using h
    intro x hx
    obtain ⟨ps, hps⟩ := hg x
    rw [hps]
    exact h' x hx

theorem run_stamped (cfg : Config) (calls : List (Env × Op)) (s : Store) (t : Time)
    (k : KeysFresh s) (h : StampedBy t s) (hlow : ∀ e ∈ calls, t ≤ e.1.now)
    (hclock : clockMonotone calls) : ∃ t', StampedBy t' (run cfg calls s) := by
  induction calls generalizing s t with
  | nil => exact ⟨t, h⟩
  | cons call rest ih =>
    obtain ⟨env, op⟩ := call
    have e := exec_effect cfg env op s
    have hnow : t ≤ env.now := hlow (env, op) (by simp)
    unfold clockMonotone at hclock
    simp only [List.map_cons, List.pairwise_cons, List.mem_map, forall_exists_index,
      and_imp, forall_apply_eq_imp_iff₂] at hclock
    exact ih _ env.now (keysFresh_effect k e) (stampedBy_effect k h hnow e)
      (fun e' he' => hclock.1 e' he') hclock.2

theorem stampedBy_empty (doctors : List Doctor) (t : Time) :
    StampedBy t (Store.empty doctors) := by
  intro c hc
  simp [Store.empty] at hc

theorem stamped_of_stampedBy {t : Time} {s : Store} (h : StampedBy t s) : Stamped s :=
  fun c hc => ⟨(h c hc).1, (h c hc).2.1⟩

/-- What a status update that returns has written. -/
theorem updateStatus_ok (db : Faults) (now : Time) (cid uid : Id) (n : String)
    (notes : Option String) (s s' : Store) (r : Consultation)
    (h : updateStatus db now cid uid n notes s = (.ok r, s')) :
    ∃ c, s.findConsultation cid = some c ∧ transitionAllowed c.status n = true ∧
      r.status.name = n ∧
      r.startedAt = (if n = "IN_PROGRESS" then some now else c.startedAt) ∧
      r.endedAt = (if n = "COMPLETED" then some now else c.endedAt) ∧
      s'.findConsultation cid = some r := by
  cases hc : s.findConsultation cid with
  | none => simp [updateStatus, hc] at h
  | some c =>
    by_cases hdoc : c.doctorId = uid
    · rw [updateStatus_eq db now cid uid n notes s c hc hdoc] at h
      by_cases ha : transitionAllowed c.status n = true
      · obtain ⟨st, hst, hname⟩ := ofName_of_allowed ha
        rw [if_pos ha] at h
        simp only [hst] at h
        by_cases hf : db 0 = true
        · rw [if_pos hf] at h; cases h
        · rw [if_neg hf] at h
          simp only [Prod.mk.injEq, Except.ok.injEq] at h
          obtain ⟨hr, hs'⟩ := h
          refine ⟨c, rfl, ha, ?_, ?_, ?_, ?_⟩
          · rw [← hr]; exact hname
          · rw [← hr]
          · rw [← hr]
          · rw [← hs']
            have := findConsultation_map s
              (fun x => if x.id = cid then
                { x with
                  status := st
                  notes := if truthy notes then notes else x.notes
                  startedAt := if n = "IN_PROGRESS" then some now else x.startedAt
                  endedAt := if n = "COMPLETED" then some now else x.endedAt }
                else x) s.slots s.payments (by intro x; dsimp only; split <;> rfl) cid
            rw [hc] at this
            have hid := (findConsultation_some hc).2
            rw [← hr]
            simpa [hid] using this
      · rw [if_neg ha] at h; cases h
    · simp [updateStatus, hc, hdoc] at h

/-- C10. A status update to IN_PROGRESS that returns has stored the current
time as `startedAt`, one to COMPLETED has stored it as `endedAt`.  Hence in
every store reached from the empty one by calls whose clock readings never go
back, a COMPLETED consultation has both stamps with `startedAt ≤ endedAt` and an
IN_PROGRESS consultation has `startedAt`.  And a CONFIRMED consultation is never
taken to COMPLETED in one step: the call throws, with the Conflict naming the
two statuses when the caller is the doctor, and the store is left as it was. -/
theorem updateStatus_stamps (cfg : Config) (doctors : List Doctor)
    (calls : List (Env × Op)) (hclock : clockMonotone calls) :
    Stamped (run cfg calls (Store.empty doctors)) ∧
    (∀ db now cid uid notes s s' r,
      updateStatus db now cid uid "IN_PROGRESS" notes s = (.ok r, s') →
      r.status = .IN_PROGRESS ∧ r.startedAt = some now ∧ s'.findConsultation cid = some r) ∧
    (∀ db now cid uid notes s s' r,
      updateStatus db now cid uid "COMPLETED" notes s = (.ok r, s') →
      r.status = .COMPLETED ∧ r.endedAt = some now ∧ s'.findConsultation cid = some r) ∧
    (∀ db now cid uid notes s c,
      s.findConsultation cid = some c → c.status = .CONFIRMED →
      isOk (updateStatus db now cid uid "COMPLETED" notes s).1 = false ∧
      (updateStatus db now cid uid "COMPLETED" notes s).2 = s ∧
      (c.doctorId = uid →
        (updateStatus db now cid uid "COMPLETED" notes s).1 =
          .error (ConflictError "Cannot transition from CONFIRMED to COMPLETED"))) := by
  refine ⟨?_, ?_, ?_, ?_⟩
  · cases calls with
    | nil => exact stamped_of_stampedBy (stampedBy_empty doctors 0)
    | cons call rest =>
      have hlow : ∀ e ∈ call :: rest, call.1.now ≤ e.1.now := by
        intro e he
        rcases List.mem_cons.1 he with he | he
        · rw [he]
        · have := hclock
          unfold clockMonotone at this
          simp only [List.map_cons, List.pairwise_cons, List.mem_map, forall_exists_index,
            and_imp, forall_apply_eq_imp_iff₂] at this
          exact this.1 e he
      obtain ⟨t', h⟩ := run_stamped cfg (call :: rest) (Store.empty doctors) call.1.now
        (keysFresh_empty doctors) (stampedBy_empty doctors _) hlow hclock
      exact stamped_of_stampedBy h
  · intro db now cid uid notes s s' r h
    obtain ⟨c, -, -, hn, hs, -, hf⟩ := updateStatus_ok db now cid uid _ notes s s' r h
    refine ⟨?_, by simpa using hs, hf⟩
    cases hst : r.status <;> rw [hst] at hn <;> simp [ConsultationStatus.name] at hn
  · intro db now cid uid notes s s' r h
    obtain ⟨c, -, -, hn, -, he, hf⟩ := updateStatus_ok db now cid uid _ notes s s' r h
    refine ⟨?_, by simpa using he, hf⟩
    cases hst : r.status <;> rw [hst] at hn <;> simp [ConsultationStatus.name] at hn
  · intro db now cid uid notes s c hc hst
    have hna : ¬ transitionAllowed c.status "COMPLETED" = true := by
      rw [hst]; decide
    by_cases hdoc : c.doctorId = uid
    · have := updateStatus_eq db now cid uid "COMPLETED" notes s c hc hdoc
      rw [if_neg hna, hst] at this
      rw [this]
      exact ⟨rfl, rfl, fun _ => rfl⟩
    · have : updateStatus db now cid uid "COMPLETED" notes s =
          (.error (ForbiddenError "Only the assigned doctor can update consultation status"),
            s) := by
        simp [updateStatus, hc, hdoc]
      rw [this]
      exact ⟨rfl, rfl, fun h => absurd h hdoc⟩

/-! ## Sample runs -/

/-- Three requests in a row for the free sample slot: the first returns, the
other two are turned down. -/
theorem slot_held_by_one_witness :
    (bookAll [(noFaults, 5, sampleBooking), (noFaults, 6, sampleBooking),
        (noFaults, 8, sampleBooking)] sampleStore).1 =
      (bookConsultation noFaults 5 sampleBooking sampleStore).1 ::
        [.error (ConflictError "Slot is not available"),
         .error (ConflictError "Slot is not available")] :=
  ((slot_held_by_one defaultConfig [] []).2.2 sampleStore 5 sampleBooking sampleSlot
    sampleDoctor [(noFaults, 6, sampleBooking), (noFaults, 8, sampleBooking)]
    rfl rfl rfl rfl rfl (by decide)).1

/-- Patient 5 cancels the booked sample consultation at hour 7, three hours
before the slot starts: the call returns the consultation as CANCELLED, and in
the store that is left the consultation is CANCELLED, the slot is AVAILABLE,
and the payment and the doctor are as before.  With a fault in the slot update
(write 1) the call throws and the booked sample store is what is left. -/
theorem cancelConsultation_frame_witness :
    cancelConsultation defaultConfig noFaults (7 * hourMs) 1 5 .PATIENT bookedSample =
      (.ok { sampleConsultation with status := .CANCELLED },
        { doctors := [sampleDoctor]
          slots := [sampleSlot]
          consultations := [{ sampleConsultation with status := .CANCELLED }]
          payments := bookedSample.payments
          nextId := 3 }) ∧
    isOk (cancelConsultation defaultConfig (fun k => k == 1) 0 1 5 .PATIENT bookedSample).1
        = false ∧
    (cancelConsultation defaultConfig (fun k => k == 1) 0 1 5 .PATIENT bookedSample).2
        = bookedSample :=
  ⟨(cancelConsultation_frame defaultConfig noFaults (7 * hourMs) 1 5 .PATIENT bookedSample).1
      sampleConsultation { sampleSlot with status := .BOOKED } rfl (Or.inl rfl) (Or.inl rfl) rfl
      (fun h => absurd ((getHoursDifference_lt (7 * hourMs) (10 * hourMs) 2).1 h) (by decide))
      rfl rfl,
   (cancelConsultation_frame defaultConfig (fun k => k == 1) 0 1 5 .PATIENT bookedSample).2.2.1
      (Or.inr rfl),
   (cancelConsultation_frame defaultConfig (fun k => k == 1) 0 1 5 .PATIENT bookedSample).2.2.2
      ((cancelConsultation_frame defaultConfig (fun k => k == 1) 0 1 5 .PATIENT
        bookedSample).2.2.1 (Or.inr rfl))⟩

/-- The doctor asks to start a consultation that is COMPLETED: it stays
COMPLETED. -/
theorem terminal_status_final_witness :
    ∃ c', ((Op.updateStatus 1 70 "IN_PROGRESS" none).exec defaultConfig ⟨12 * hourMs, noFaults⟩
        completedSample).findConsultation 1 = some c' ∧ c'.status = .COMPLETED :=
  terminal_status_final defaultConfig ⟨12 * hourMs, noFaults⟩
    (.updateStatus 1 70 "IN_PROGRESS" none) completedSample 1
    { sampleConsultation with
      status := .COMPLETED, startedAt := some (10 * hourMs), endedAt := some (11 * hourMs) }
    rfl (Or.inl rfl)

/-- The sample series of calls has a clock that never goes back, and the store
it ends in, with its one COMPLETED consultation, carries the stamps. -/
theorem updateStatus_stamps_witness :
    clockMonotone sampleCalls ∧
    Stamped (run defaultConfig sampleCalls (Store.empty [sampleDoctor])) ∧
    (run defaultConfig sampleCalls (Store.empty [sampleDoctor])).consultations.map
      (fun c => (c.status, c.startedAt, c.endedAt)) =
      [(.COMPLETED, some (10 * hourMs), some (11 * hourMs))] :=
  ⟨by decide, (updateStatus_stamps defaultConfig [sampleDoctor] sampleCalls (by decide)).1,
   by decide⟩

/-! ## Creating slots -/

/-- On proper intervals the three clauses of the query say what the two
inequalities of `doTimeRangesOverlap` say. -/
theorem overlapQuery_eq (doctorId : Id) (start stop : Time) (x : AvailabilitySlot)
    (hx : x.startTime < x.endTime) (hnew : start < stop) :
    overlapQuery doctorId start stop x =
      (x.doctorId == doctorId && doTimeRangesOverlap x.startTime x.endTime start stop) := by
  unfold overlapQuery doTimeRangesOverlap
  by_cases hd : x.doctorId = doctorId
  · simp only [hd, beq_self_eq_true, Bool.true_and]
    rw [Bool.eq_iff_iff]
    simp only [Bool.or_eq_true, Bool.and_eq_true, decide_eq_true_eq, ge_iff_le, gt_iff_lt]
    constructor
    · rintro ((⟨h1, h2⟩ | ⟨h1, h2⟩) | ⟨h1, h2⟩)
      · exact ⟨lt_of_le_of_lt h1 hnew, h2⟩
      · exact ⟨h1, lt_of_lt_of_le hnew h2⟩
      · exact ⟨lt_of_lt_of_le hx h2, lt_of_le_of_lt h1 hx⟩
    · rintro ⟨h1, h2⟩
      by_cases hs : x.startTime ≤ start
      · exact Or.inl (Or.inl ⟨hs, h2⟩)
      · by_cases he : x.endTime ≤ stop
        · exact Or.inr ⟨le_of_lt (not_le.1 hs), he⟩
        · exact Or.inl (Or.inr ⟨h1, le_of_lt (not_le.1 he)⟩)
  · have : (x.doctorId == doctorId) = false := by simpa using hd
    simp [this]

/-- The outcome of `createSlot` for a registered doctor, guard by guard. -/
theorem createSlot_eq (db : Faults) (now : Time) (u : Id) (data : SlotData) (s : Store)
    (doctor : Doctor) (hdoc : s.findDoctorByUserId u = some doctor) :
    createSlot db now u data s =
      if data.startTime < now then
        (.error (ConflictError "Cannot create slot in the past"), s)
      else if data.endTime ≤ data.startTime then
        (.error (ConflictError "End time must be after start time"), s)
      else if (s.slots.find? (overlapQuery doctor.id data.startTime data.endTime)).isSome then
        (.error (ConflictError "Slot overlaps with existing availability"), s)
      else if db 0 = true then (.error storeFailure, s)
      else
        (.ok { id := s.nextId, doctorId := doctor.id, startTime := data.startTime,
               endTime := data.endTime, maxPatients := data.maxPatients.getD 1,
               status := .AVAILABLE },
         { s with
           slots := s.slots ++
             [{ id := s.nextId, doctorId := doctor.id, startTime := data.startTime,
                endTime := data.endTime, maxPatients := data.maxPatients.getD 1,
                status := .AVAILABLE }]
           nextId := s.nextId + 1 }) := by
  unfold createSlot
  simp only [hdoc, isInPast, decide_eq_true_eq, ge_iff_le]
  split
  · rfl
  · split
    · rfl
    · cases hf : s.slots.find? (overlapQuery doctor.id data.startTime data.endTime) with
      | some x => simp
      | none =>
        simp only [Option.isSome_none, Bool.false_eq_true, if_false, slotCreate]

/-- C11. For a registered doctor whose slots all start before they end, and
with no write fault, `createSlot` returns exactly when the start is not before
the clock, the start is before the end, and no slot of the doctor overlaps the
new interval under the two inequalities of `doTimeRangesOverlap`: on those
stores the three-clause query selects the same rows as the two inequalities.
When it returns, the store has gained the one slot, AVAILABLE and with the
given times; when it throws, the store is as it was. -/
theorem createSlot_refines (db : Faults) (now : Time) (u : Id) (data : SlotData) (s : Store)
    (doctor : Doctor) (hdoc : s.findDoctorByUserId u = some doctor)
    (hwf : ∀ x ∈ s.slots, x.doctorId = doctor.id → x.startTime < x.endTime) :
    (isOk (createSlot noFaults now u data s).1 = true ↔
      now ≤ data.startTime ∧ data.startTime < data.endTime ∧
      ∀ x ∈ s.slots, x.doctorId = doctor.id →
        doTimeRangesOverlap x.startTime x.endTime data.startTime data.endTime = false) ∧
    (data.startTime < data.endTime → ∀ x ∈ s.slots,
      overlapQuery doctor.id data.startTime data.endTime x =
        (x.doctorId == doctor.id &&
          doTimeRangesOverlap x.startTime x.endTime data.startTime data.endTime)) ∧
    (isOk (createSlot noFaults now u data s).1 = true →
      createSlot noFaults now u data s =
        (.ok { id := s.nextId, doctorId := doctor.id, startTime := data.startTime,
               endTime := data.endTime, maxPatients := data.maxPatients.getD 1,
               status := .AVAILABLE },
         { doctors := s.doctors
           slots := s.slots ++
             [{ id := s.nextId, doctorId := doctor.id, startTime := data.startTime,
                endTime := data.endTime, maxPatients := data.maxPatients.getD 1,
                status := .AVAILABLE }]
           consultations := s.consultations
           payments := s.payments
           nextId := s.nextId + 1 })) ∧
    (isOk (createSlot db now u data s).1 = false → (createSlot db now u data s).2 = s) := by
  have hq : data.startTime < data.endTime → ∀ x ∈ s.slots,
      overlapQuery doctor.id data.startTime data.endTime x =
        (x.doctorId == doctor.id &&
          doTimeRangesOverlap x.startTime x.endTime data.startTime data.endTime) := by
    intro hnew x hx
    by_cases hd : x.doctorId = doctor.id
    · exact overlapQuery_eq doctor.id data.startTime data.endTime x (hwf x hx hd) hnew
    · have : (x.doctorId == doctor.id) = false := by simpa using hd
      simp [overlapQuery, this]
  refine ⟨?_, hq, ?_, ?_⟩
  · rw [createSlot_eq noFaults now u data s doctor hdoc]
    by_cases h1 : data.startTime < now
    · simp only [h1, if_true, isOk]
      constructor
      · intro h; cases h
      · rintro ⟨h, -⟩; exact absurd h1 (not_lt.2 h)
    · by_cases h2 : data.endTime ≤ data.startTime
      · simp only [h1, h2, if_true, if_false, isOk]
        constructor
        · intro h; cases h
        · rintro ⟨-, h, -⟩; exact absurd h (not_lt.2 h2)
      · have hnew : data.startTime < data.endTime := not_le.1 h2
        by_cases h3 : (s.slots.find? (overlapQuery doctor.id data.startTime data.endTime)).isSome
            = true
        · simp only [h1, h2, h3, if_true, if_false, isOk]
          constructor
          · intro h; cases h
          · rintro ⟨-, -, h⟩
            rw [List.find?_isSome] at h3
            obtain ⟨x, hx, hxq⟩ := h3
            rw [hq hnew x hx] at hxq
            simp only [Bool.and_eq_true, beq_iff_eq] at hxq
            rw [h x hx hxq.1] at hxq
            exact absurd hxq.2 (by decide)
        · simp only [h1, h2, h3, if_false, noFaults, Bool.false_eq_true, isOk, true_iff]
          refine ⟨not_lt.1 h1, hnew, ?_⟩
          intro x hx hd
          cases ho : doTimeRangesOverlap x.startTime x.endTime data.startTime data.endTime
          · rfl
          · exfalso
            apply h3
            rw [List.find?_isSome]
            exact ⟨x, hx, by rw [hq hnew x hx, ho]; simp [hd]⟩
  · intro hok
    rw [createSlot_eq noFaults now u data s doctor hdoc] at hok ⊢
    split at hok
    · cases hok
    · split at hok
      · cases hok
      · split at hok
        · cases hok
        · rename_i h1 h2 h3
          rw [if_neg h1, if_neg h2, if_neg h3]
          rfl
  · intro hfail
    rw [createSlot_eq db now u data s doctor hdoc] at hfail ⊢
    split
    · rfl
    · split
      · rfl
      · split
        · rfl
        · split
          · rfl
          · rename_i h1 h2 h3 h4
            rw [if_neg h1, if_neg h2, if_neg h3, if_neg h4] at hfail
            cases hfail

/-- The registered sample doctor adds 11:30 to 12:30 to the slot 10:30 to
11:30: the two only touch, and the call returns. -/
theorem createSlot_refines_witness :
    isOk (createSlot noFaults (9 * hourMs) 70 ⟨23 * halfHourMs, 25 * halfHourMs, none⟩
      halfPastStore).1 = true :=
  (createSlot_refines noFaults (9 * hourMs) 70 ⟨23 * halfHourMs, 25 * halfHourMs, none⟩
    halfPastStore sampleDoctor rfl (by decide)).1.2 ⟨by decide, by decide, by decide⟩

/-- C12 (as stated, refuted). With the slot 10:30 to 11:30 as the only slot of
the doctor, `createSlot` for 11:00 to 12:00 does not return: it throws the
overlap Conflict, the two intervals sharing 11:00 to 11:30. -/
theorem createSlot_eleven_refused :
    createSlot noFaults (9 * hourMs) 70 ⟨11 * hourMs, 12 * hourMs, none⟩ halfPastStore =
      (.error (ConflictError "Slot overlaps with existing availability"), halfPastStore) := by
  rfl

/-- C12 (amended). With the slot 10:30 to 11:30 as the only slot of the doctor
and the clock not past 10:00, `createSlot` throws the overlap Conflict both for
10:00 to 11:00 and for 11:00 to 12:00, and returns for 11:30 to 12:30, which
only touches the slot at its end. -/
theorem createSlot_half_past (db : Faults) (now : Time) (maxPatients : Option Nat)
    (hnow : now ≤ 10 * hourMs) :
    createSlot db now 70 ⟨10 * hourMs, 11 * hourMs, maxPatients⟩ halfPastStore =
      (.error (ConflictError "Slot overlaps with existing availability"), halfPastStore) ∧
    createSlot db now 70 ⟨11 * hourMs, 12 * hourMs, maxPatients⟩ halfPastStore =
      (.error (ConflictError "Slot overlaps with existing availability"), halfPastStore) ∧
    isOk (createSlot noFaults now 70 ⟨23 * halfHourMs, 25 * halfHourMs, maxPatients⟩
      halfPastStore).1 = true := by
  have h10 : ¬ (10 * hourMs < now) := not_lt.2 hnow
  have h11 : ¬ (11 * hourMs < now) := not_lt.2 (le_trans hnow (by decide))
  have h1130 : ¬ (23 * halfHourMs < now) := not_lt.2 (le_trans hnow (by decide))
  refine ⟨?_, ?_, ?_⟩
  · rw [createSlot_eq db now 70 _ halfPastStore sampleDoctor rfl]
    simp only [h10, if_false]
    rfl
  · rw [createSlot_eq db now 70 _ halfPastStore sampleDoctor rfl]
    simp only [h11, if_false]
    rfl
  · rw [createSlot_eq noFaults now 70 _ halfPastStore sampleDoctor rfl]
    simp only [h1130, if_false]
    rfl

/-- At nine the three calls of the amended C12 come out as stated. -/
theorem createSlot_half_past_witness :
    createSlot noFaults (9 * hourMs) 70 ⟨10 * hourMs, 11 * hourMs, none⟩ halfPastStore =
      (.error (ConflictError "Slot overlaps with existing availability"), halfPastStore) ∧
    isOk (createSlot noFaults (9 * hourMs) 70 ⟨23 * halfHourMs, 25 * halfHourMs, none⟩
      halfPastStore).1 = true :=
  ⟨(createSlot_half_past noFaults (9 * hourMs) none (by decide)).1,
   (createSlot_half_past noFaults (9 * hourMs) none (by decide)).2.2⟩

/-- C13 (evaluation). `updateSlot` writes the times it is given with none of
the tests of `createSlot`.  After the sample doctor has opened 10:00 to 11:00
and 11:00 to 12:00 and moved the start of the second slot to 10:30, two slots
of the doctor overlap; after the doctor has moved the end of a slot 10:00 to
11:00 to 9:00, a slot ends before it starts. -/
theorem updateSlot_breaks_intervals :
    ¬ NoOverlap (run defaultConfig overlapCalls (Store.empty [sampleDoctor])) ∧
    ¬ ProperIntervals (run defaultConfig invertCalls (Store.empty [sampleDoctor])) := by
  decide

/-! ## Changing and deleting slots -/

/-- Looking a key up in a table whose rows were changed by a function that
keeps the key. -/
theorem find?_map_of_key {α : Type} (key : α → Id) (l : List α) (g : α → α)
    (hid : ∀ x, key (g x) = key x) (i : Id) :
    (l.map g).find? (fun x => key x == i) = (l.find? (fun x => key x == i)).map g := by
  induction l with
  | nil => rfl
  | cons a l ih =>
    by_cases ha : key a = i
    · simp [List.find?_cons, hid, ha]
    · simp [List.find?_cons, hid, ha, ih]

/-- Looking a key up after the rows under another key were removed. -/
theorem find?_filter_ne {α : Type} (key : α → Id) (l : List α) (i j : Id) (hij : i ≠ j) :
    (l.filter (fun x => key x != j)).find? (fun x => key x == i)
      = l.find? (fun x => key x == i) := by
  induction l with
  | nil => rfl
  | cons a l ih =>
    by_cases ha : key a = i
    · have haj : (fun x => key x != j) a = true := by
        show (key a != j) = true
        rw [ha]; simpa using hij
      have hai : (fun x => key x == i) a = true := by
        show (key a == i) = true
        simpa using ha
      rw [@List.filter_cons_of_pos _ (fun x => key x != j) a l haj,
        @List.find?_cons_of_pos _ (fun x => key x == i) a _ hai,
        @List.find?_cons_of_pos _ (fun x => key x == i) a _ hai]
    · have hai : ¬ (fun x => key x == i) a = true := by
        show ¬ (key a == i) = true
        simpa using ha
      rw [@List.find?_cons_of_neg _ (fun x => key x == i) a _ hai]
      by_cases haj : key a = j
      · have hf : ¬ (fun x => key x != j) a = true := by
          show ¬ (key a != j) = true
          simp [haj]
        rw [@List.filter_cons_of_neg _ (fun x => key x != j) a l hf]
        exact ih
      · have hf : (fun x => key x != j) a = true := by
          show (key a != j) = true
          simpa using haj
        rw [@List.filter_cons_of_pos _ (fun x => key x != j) a l hf,
          @List.find?_cons_of_neg _ (fun x => key x == i) a _ hai]
        exact ih

/-- Looking a key up after its rows were removed. -/
theorem find?_filter_self {α : Type} (key : α → Id) (l : List α) (i : Id) :
    (l.filter (fun x => key x != i)).find? (fun x => key x == i) = none := by
  rw [List.find?_eq_none]
  intro x hx
  have := (List.mem_filter.1 hx).2
  simpa using this

/-- What `updateSlot` does: it throws and leaves the store, or it has found
the slot free and owned by the caller and rewrites the rows under the key. -/
theorem updateSlot_cases (db : Faults) (u i : Id) (d : SlotUpdate) (s : Store) :
    (∃ e, updateSlot db u i d s = (.error e, s)) ∨
    (∃ slot doctor, s.findSlot i = some slot ∧ s.findDoctor slot.doctorId = some doctor ∧
      doctor.userId = u ∧ slot.status ≠ .BOOKED ∧
      (updateSlot db u i d s).2 =
        { s with slots := s.slots.map (fun y => if y.id = i then
            { y with
              startTime := d.startTime.getD y.startTime
              endTime := d.endTime.getD y.endTime
              status := d.status.getD y.status
              maxPatients := d.maxPatients.getD y.maxPatients } else y) }) := by
  cases hs : s.findSlot i with
  | none => exact Or.inl ⟨NotFoundError "Slot not found", by simp [updateSlot, hs]⟩
  | some slot =>
    cases hd : s.findDoctor slot.doctorId with
    | none =>
      exact Or.inl ⟨⟨.TypeError, "Cannot read properties of null"⟩, by simp [updateSlot, hs, hd]⟩
    | some doctor =>
      by_cases hu : doctor.userId = u
      · by_cases hb : slot.status = .BOOKED
        · left
          exact ⟨ConflictError "Cannot update a booked slot", by simp [updateSlot, hs, hd, hu, hb]⟩
        · cases h0 : db 0
          · right
            refine ⟨slot, doctor, rfl, hd, hu, hb, ?_⟩
            simp [updateSlot, hs, hd, hu, hb, slotUpdate, h0]
          · left
            exact ⟨storeFailure, by simp [updateSlot, hs, hd, hu, hb, slotUpdate, h0]⟩
      · left
        exact ⟨ForbiddenError "Not authorized to update this slot",
          by simp [updateSlot, hs, hd, hu]⟩

/-- What `deleteSlot` does: it throws and leaves the store, or it has found
the slot free and owned by the caller and removes the rows under the key. -/
theorem deleteSlot_cases (db : Faults) (u i : Id) (s : Store) :
    (∃ e, deleteSlot db u i s = (.error e, s)) ∨
    (∃ slot doctor, s.findSlot i = some slot ∧ s.findDoctor slot.doctorId = some doctor ∧
      doctor.userId = u ∧ slot.status ≠ .BOOKED ∧
      (deleteSlot db u i s).2 = { s with slots := s.slots.filter (fun y => y.id != i) }) := by
  cases hs : s.findSlot i with
  | none => exact Or.inl ⟨NotFoundError "Slot not found", by simp [deleteSlot, hs]⟩
  | some slot =>
    cases hd : s.findDoctor slot.doctorId with
    | none =>
      exact Or.inl ⟨⟨.TypeError, "Cannot read properties of null"⟩, by simp [deleteSlot, hs, hd]⟩
    | some doctor =>
      by_cases hu : doctor.userId = u
      · by_cases hb : slot.status = .BOOKED
        · left
          exact ⟨ConflictError "Cannot delete a booked slot", by simp [deleteSlot, hs, hd, hu, hb]⟩
        · cases h0 : db 0
          · right
            refine ⟨slot, doctor, rfl, hd, hu, hb, ?_⟩
            simp [deleteSlot, hs, hd, hu, hb, slotDelete, h0]
          · left
            exact ⟨storeFailure, by simp [deleteSlot, hs, hd, hu, hb, slotDelete, h0]⟩
      · left
        exact ⟨ForbiddenError "Not authorized to delete this slot",
          by simp [deleteSlot, hs, hd, hu]⟩

/-- `createSlot` keeps the rows it finds and adds at most one AVAILABLE row. -/
theorem createSlot_slots (db : Faults) (now : Time) (u : Id) (d : SlotData) (s : Store) :
    (createSlot db now u d s).2 = s ∨
    ∃ row, row.status = .AVAILABLE ∧
      (createSlot db now u d s).2 = { s with slots := s.slots ++ [row], nextId := s.nextId + 1 } := by
  cases hdoc : s.findDoctorByUserId u with
  | none => left; simp [createSlot, hdoc]
  | some doctor =>
    rw [createSlot_eq db now u d s doctor hdoc]
    split
    · exact Or.inl rfl
    · split
      · exact Or.inl rfl
      · split
        · exact Or.inl rfl
        · split
          · exact Or.inl rfl
          · exact Or.inr ⟨_, rfl, rfl⟩

theorem updateStatus_slots (db : Faults) (now : Time) (c u : Id) (n : String)
    (notes : Option String) (s : Store) : (updateStatus db now c u n notes s).2.slots = s.slots := by
  unfold updateStatus
  split
  · rfl
  · split
    · rfl
    · split
      · rfl
      · split
        · rfl
        · unfold consultationUpdate
          split
          · rfl
          · split <;> rfl

theorem handleWebhook_slots (db : Faults) (d : WebhookData) (s : Store) :
    (handleWebhook db d s).2.slots = s.slots := by
  unfold handleWebhook
  split
  · rfl
  · rename_i payment _
    unfold transaction
    cases hb : handleWebhookTx db payment d.status s with
    | mk r s' =>
      cases r with
      | error e => rfl
      | ok p =>
        obtain ⟨g, payments, -, rfl⟩ := handleWebhookTx_ok db payment d.status s s' p hb
        rfl

/-- A row that `updateSlot` or `deleteSlot` on any key leaves in place: a
booked row, or a row under another key. -/
theorem updateSlot_keeps (db : Faults) (u j : Id) (d : SlotUpdate) (s : Store) (i : Id)
    (x : AvailabilitySlot) (hx : s.findSlot i = some x)
    (h : x.status = .BOOKED ∨ i ≠ j) :
    (updateSlot db u j d s).2.findSlot i = some x := by
  rcases updateSlot_cases db u j d s with ⟨e, he⟩ | ⟨slot, doctor, hs, -, -, hfree, hstore⟩
  · rw [he]; exact hx
  · have hij : i ≠ j := by
      rcases h with h | h
      · intro hij
        rw [hij, hs] at hx
        cases hx
        exact hfree h
      · exact h
    rw [hstore]
    unfold Store.findSlot at hx ⊢
    have := find?_map_of_key AvailabilitySlot.id s.slots
      (fun y => if y.id = j then
        { y with
          startTime := d.startTime.getD y.startTime
          endTime := d.endTime.getD y.endTime
          status := d.status.getD y.status
          maxPatients := d.maxPatients.getD y.maxPatients } else y)
      (by intro y; dsimp only; split <;> rfl) i
    rw [hx] at this
    have hxi : x.id = i := by simpa using List.find?_some hx
    have hxj : ¬ x.id = j := by rw [hxi]; exact hij
    simpa [hxj] using this

theorem deleteSlot_keeps (db : Faults) (u j : Id) (s : Store) (i : Id)
    (x : AvailabilitySlot) (hx : s.findSlot i = some x)
    (h : x.status = .BOOKED ∨ i ≠ j) :
    (deleteSlot db u j s).2.findSlot i = some x := by
  rcases deleteSlot_cases db u j s with ⟨e, he⟩ | ⟨slot, doctor, hs, -, -, hfree, hstore⟩
  · rw [he]; exact hx
  · have hij : i ≠ j := by
      rcases h with h | h
      · intro hij
        rw [hij, hs] at hx
        cases hx
        exact hfree h
      · exact h
    rw [hstore]
    unfold Store.findSlot at hx ⊢
    rw [← hx]
    exact find?_filter_ne AvailabilitySlot.id s.slots i j hij

theorem createSlot_keeps (db : Faults) (now : Time) (u : Id) (d : SlotData) (s : Store)
    (i : Id) (x : AvailabilitySlot) (hx : s.findSlot i = some x) :
    (createSlot db now u d s).2.findSlot i = some x := by
  rcases createSlot_slots db now u d s with h | ⟨row, -, h⟩
  · rw [h]; exact hx
  · rw [h]
    unfold Store.findSlot at hx ⊢
    simp only [List.find?_append, hx]
    rfl

/-- C14 (as stated, refuted). The sample slot is AVAILABLE; after the sample
doctor has called `updateSlot` with status BOOKED in the body it is BOOKED,
with no booking made. -/
theorem updateSlot_books :
    sampleStore.findSlot 0 = some sampleSlot ∧ sampleSlot.status = .AVAILABLE ∧
    ((Op.updateSlot 70 0 ⟨none, none, some .BOOKED, none⟩).exec defaultConfig
      ⟨1 * hourMs, noFaults⟩ sampleStore).findSlot 0
        = some { sampleSlot with status := .BOOKED } := by
  decide

/-- C14 (amended). For every call other than a booking and a cancellation
(createSlot, updateSlot, deleteSlot, updateStatus, handleWebhook): a slot that
is BOOKED before the call is the same row, still BOOKED, after it; and a slot
that is AVAILABLE before the call is BOOKED after it only when the call is an
`updateSlot` on that slot whose body carries the status BOOKED. -/
theorem slot_status_moves (cfg : Config) (env : Env) (op : Op) (s : Store) (i : Id)
    (x : AvailabilitySlot) (hop : op.booksOrCancels = false) (hx : s.findSlot i = some x) :
    (x.status = .BOOKED → (op.exec cfg env s).findSlot i = some x) ∧
    (x.status = .AVAILABLE → ∀ x', (op.exec cfg env s).findSlot i = some x' →
      x'.status = .BOOKED → ∃ u d, op = .updateSlot u i d ∧ d.status = some .BOOKED) := by
  cases op with
  | bookConsultation p d => cases hop
  | cancelConsultation c u r => cases hop
  | createSlot u d =>
    have hk := createSlot_keeps env.db env.now u d s i x hx
    refine ⟨fun _ => hk, ?_⟩
    intro ha x' hx' hb
    have : (Op.createSlot u d).exec cfg env s = (createSlot env.db env.now u d s).2 := rfl
    rw [this, hk] at hx'
    cases hx'
    rw [ha] at hb; cases hb
  | deleteSlot u j =>
    have hexec : (Op.deleteSlot u j).exec cfg env s = (deleteSlot env.db u j s).2 := rfl
    refine ⟨fun hb => deleteSlot_keeps env.db u j s i x hx (Or.inl hb), ?_⟩
    intro ha x' hx' hb
    rw [hexec] at hx'
    by_cases hij : i = j
    · rcases deleteSlot_cases env.db u j s with ⟨e, he⟩ | ⟨slot, doctor, -, -, -, -, hstore⟩
      · rw [he, hx] at hx'
        cases hx'
        rw [ha] at hb; cases hb
      · rw [hstore, ← hij] at hx'
        unfold Store.findSlot at hx'
        rw [find?_filter_self AvailabilitySlot.id s.slots i] at hx'
        cases hx'
    · rw [deleteSlot_keeps env.db u j s i x hx (Or.inr hij)] at hx'
      cases hx'
      rw [ha] at hb; cases hb
  | updateSlot u j d =>
    have hexec : (Op.updateSlot u j d).exec cfg env s = (updateSlot env.db u j d s).2 := rfl
    refine ⟨fun hb => updateSlot_keeps env.db u j d s i x hx (Or.inl hb), ?_⟩
    intro ha x' hx' hb
    rw [hexec] at hx'
    by_cases hij : i = j
    · subst hij
      rcases updateSlot_cases env.db u i d s with ⟨e, he⟩ | ⟨slot, doctor, -, -, -, -, hstore⟩
      · rw [he, hx] at hx'
        cases hx'
        rw [ha] at hb; cases hb
      · refine ⟨u, d, rfl, ?_⟩
        rw [hstore] at hx'
        unfold Store.findSlot at hx hx'
        have := find?_map_of_key AvailabilitySlot.id s.slots
          (fun y => if y.id = i then
            { y with
              startTime := d.startTime.getD y.startTime
              endTime := d.endTime.getD y.endTime
              status := d.status.getD y.status
              maxPatients := d.maxPatients.getD y.maxPatients } else y)
          (by intro y; dsimp only; split <;> rfl) i
        rw [hx] at this
        have hxi : x.id = i := by simpa using List.find?_some hx
        rw [this] at hx'
        simp only [Option.map_some', hxi, if_true, Option.some.injEq] at hx'
        rw [← hx'] at hb
        simp only at hb
        cases hd : d.status with
        | none => rw [hd, Option.getD_none, ha] at hb; cases hb
        | some st => rw [hd, Option.getD_some] at hb; rw [hb]
    · rw [updateSlot_keeps env.db u j d s i x hx (Or.inr hij)] at hx'
      cases hx'
      rw [ha] at hb; cases hb
  | updateStatus c u n notes =>
    have hk : ((Op.updateStatus c u n notes).exec cfg env s).findSlot i = some x := by
      show (updateStatus env.db env.now c u n notes s).2.findSlot i = some x
      unfold Store.findSlot
      rw [updateStatus_slots]
      exact hx
    refine ⟨fun _ => hk, ?_⟩
    intro ha x' hx' hb
    rw [hk] at hx'
    cases hx'
    rw [ha] at hb; cases hb
  | handleWebhook d =>
    have hk : ((Op.handleWebhook d).exec cfg env s).findSlot i = some x := by
      show (handleWebhook env.db d s).2.findSlot i = some x
      unfold Store.findSlot
      rw [handleWebhook_slots]
      exact hx
    refine ⟨fun _ => hk, ?_⟩
    intro ha x' hx' hb
    rw [hk] at hx'
    cases hx'
    rw [ha] at hb; cases hb

/-- The owner asks to delete the booked sample slot: it stays, the same row. -/
theorem slot_status_moves_witness :
    ((Op.deleteSlot 70 0).exec defaultConfig ⟨1 * hourMs, noFaults⟩ bookedSample).findSlot 0
      = some { sampleSlot with status := .BOOKED } :=
  (slot_status_moves defaultConfig ⟨1 * hourMs, noFaults⟩ (.deleteSlot 70 0) bookedSample 0
    { sampleSlot with status := .BOOKED } rfl rfl).1 rfl

/-- C15. For a slot in the store, with its doctor row: `updateSlot` and
`deleteSlot` throw Forbidden when the caller is not the user of that doctor,
and otherwise throw the slot-booked Conflict when the slot is BOOKED, the test
of the caller coming first; the store is then as it was.  So no call of the two
methods, on any key and by any caller, changes or removes a BOOKED slot: the
row found under its key after the call is the row found before. -/
theorem slot_guards (db : Faults) (u i : Id) (data : SlotUpdate) (s : Store)
    (slot : AvailabilitySlot) (doctor : Doctor) (hslot : s.findSlot i = some slot)
    (hdoc : s.findDoctor slot.doctorId = some doctor) :
    (doctor.userId ≠ u →
      updateSlot db u i data s =
        (.error (ForbiddenError "Not authorized to update this slot"), s) ∧
      deleteSlot db u i s =
        (.error (ForbiddenError "Not authorized to delete this slot"), s)) ∧
    (doctor.userId = u → slot.status = .BOOKED →
      updateSlot db u i data s = (.error (ConflictError "Cannot update a booked slot"), s) ∧
      deleteSlot db u i s = (.error (ConflictError "Cannot delete a booked slot"), s)) ∧
    (slot.status = .BOOKED → ∀ (db' : Faults) (u' j : Id) (data' : SlotUpdate),
      (updateSlot db' u' j data' s).2.findSlot i = some slot ∧
      (deleteSlot db' u' j s).2.findSlot i = some slot) := by
  refine ⟨?_, ?_, ?_⟩
  · intro hu
    exact ⟨by simp [updateSlot, hslot, hdoc, hu], by simp [deleteSlot, hslot, hdoc, hu]⟩
  · intro hu hb
    exact ⟨by simp [updateSlot, hslot, hdoc, hu, hb], by simp [deleteSlot, hslot, hdoc, hu, hb]⟩
  · intro hb db' u' j data'
    exact ⟨updateSlot_keeps db' u' j data' s i slot hslot (Or.inl hb),
      deleteSlot_keeps db' u' j s i slot hslot (Or.inl hb)⟩

/-- On the booked sample store a stranger is refused with Forbidden and the
owner with the Conflict. -/
theorem slot_guards_witness :
    updateSlot noFaults 99 0 ⟨none, none, some .AVAILABLE, none⟩ bookedSample =
      (.error (ForbiddenError "Not authorized to update this slot"), bookedSample) ∧
    deleteSlot noFaults 70 0 bookedSample =
      (.error (ConflictError "Cannot delete a booked slot"), bookedSample) :=
  ⟨((slot_guards noFaults 99 0 ⟨none, none, some .AVAILABLE, none⟩ bookedSample
      { sampleSlot with status := .BOOKED } sampleDoctor rfl rfl).1 (by decide)).1,
   ((slot_guards noFaults 70 0 ⟨none, none, none, none⟩ bookedSample
      { sampleSlot with status := .BOOKED } sampleDoctor rfl rfl).2.1 rfl rfl).2⟩

/-! ## Listing the available slots -/

/-- What the query of `getAvailableSlots` does guarantee: every row returned is
a row of the store, belongs to the doctor, is AVAILABLE, starts no earlier than
`startDate` when the query has one and no earlier than the clock when it has
none, and the rows come in the order of their start. -/
theorem getAvailableSlots_spec (now : Time) (doctorId : Id) (query : SlotQuery) (s : Store) :
    (∀ x ∈ getAvailableSlots now doctorId query s,
      x ∈ s.slots ∧ x.doctorId = doctorId ∧ x.status = .AVAILABLE ∧
      query.startDate.getD now ≤ x.startTime) ∧
    (getAvailableSlots now doctorId query s).Sorted startsBefore := by
  refine ⟨?_, List.sorted_insertionSort startsBefore _⟩
  intro x hx
  unfold getAvailableSlots at hx
  rw [List.mem_insertionSort, List.mem_filter] at hx
  obtain ⟨hmem, hadm⟩ := hx
  unfold SlotWhere.admits at hadm
  simp only [Bool.and_eq_true, beq_iff_eq, decide_eq_true_eq] at hadm
  obtain ⟨⟨⟨hd, hst⟩, hge⟩, -⟩ := hadm
  refine ⟨hmem, ?_, ?_, ?_⟩
  · rw [hd]; unfold slotWhere; cases query.startDate <;> cases query.endDate <;> rfl
  · rw [hst]; unfold slotWhere; cases query.startDate <;> cases query.endDate <;> rfl
  · refine le_trans (le_of_eq ?_) hge
    unfold slotWhere; cases query.startDate <;> cases query.endDate <;> rfl

/-- C16 (evaluation). At hour 13 the sample slot, which started at hour 10, is
three hours old.  Asked with a `startDate` of hour 0, `getAvailableSlots`
returns it: the `startTime` key of the query object is written a second time
and the bound at the clock is gone.  Asked without `startDate` it returns
nothing. -/
theorem getAvailableSlots_past :
    getAvailableSlots (13 * hourMs) 7 ⟨some 0, none⟩ sampleStore = [sampleSlot] ∧
    sampleSlot.startTime < 13 * hourMs ∧
    getAvailableSlots (13 * hourMs) 7 ⟨none, none⟩ sampleStore = [] := by
  decide

/-! ## The idempotency guard -/

/-- The guard on a write request that carries a key, by what the key table
holds. -/
theorem idempotencyMiddleware_eq (zone : TimeZone) (ttl : Int)
    (sha256 : String → String) (db : Faults)
    (now : Time) (next : Handler) (req : Request) (a : App) (key : String)
    (hkey : req.idempotencyKey = some key) (hne : key ≠ "")
    (hm : req.method = "POST" ∨ req.method = "PUT" ∨ req.method = "PATCH") :
    idempotencyMiddleware zone ttl sha256 db now next req a =
      match a.keys.find? (fun k => k.key == key) with
      | some existingKey =>
        if now > existingKey.expiresAt then
          match idempotencyKeyDelete (db 0) key a with
          | (.error e, a1) => (.error e, a1)
          | (.ok _, a1) => passThrough next a1
        else
          (.ok { statusCode := if existingKey.statusCode = 0 then 200 else existingKey.statusCode
                 body := existingKey.responseBody }, a)
      | none =>
        if 200 ≤ (next a.store).1.statusCode ∧ (next a.store).1.statusCode < 300 then
          (.ok (next a.store).1,
            (idempotencyKeyCreate (db 0)
              { key := key, userId := req.user, method := req.method, path := req.path,
                requestHash := hashRequest sha256 req.method req.path req.body,
                responseBody := (next a.store).1.body,
                statusCode := (next a.store).1.statusCode,
                expiresAt := addHours zone now ttl } { a with store := (next a.store).2 }).2)
        else (.ok (next a.store).1, { a with store := (next a.store).2 }) := by
  have hmeth : (["POST", "PUT", "PATCH"].contains req.method) = true := by
    rcases hm with h | h | h <;> rw [h] <;> decide
  unfold idempotencyMiddleware
  simp only [hkey, hne, if_false, hmeth, Bool.not_true, Bool.false_eq_true]
  try rfl

/-- C17. A POST, PUT or PATCH request carries a key under which the table holds
a record that has not expired (and whose status code is a status code, not 0):
the guard answers with the stored status code and body, whatever the handler
behind it, and leaves the key table and the store as they were.  Hence, when a
first request under a fresh key was answered 2xx and its record written, a
second request with the same key made before the expiry gets the same status
code and body, and the store is the one the single run of the first handler
left. -/
theorem idempotency_replay (zone : TimeZone) (ttl : Int)
    (sha256 : String → String) (db : Faults)
    (req : Request) (key : String)
    (hkey : req.idempotencyKey = some key) (hne : key ≠ "")
    (hm : req.method = "POST" ∨ req.method = "PUT" ∨ req.method = "PATCH") :
    (∀ (now : Time) (next : Handler) (a : App) (existing : IdempotencyKey),
      a.keys.find? (fun k => k.key == key) = some existing → now ≤ existing.expiresAt →
      existing.statusCode ≠ 0 →
      idempotencyMiddleware zone ttl sha256 db now next req a =
        (.ok { statusCode := existing.statusCode, body := existing.responseBody }, a)) ∧
    (∀ (now1 now2 : Time) (next1 next2 : Handler) (a : App),
      a.keys.find? (fun k => k.key == key) = none →
      200 ≤ (next1 a.store).1.statusCode → (next1 a.store).1.statusCode < 300 →
      now2 ≤ addHours zone now1 ttl →
      (idempotencyMiddleware zone ttl sha256 noFaults now1 next1 req a).1 = .ok (next1 a.store).1 ∧
      idempotencyMiddleware zone ttl sha256 db now2 next2 req
          (idempotencyMiddleware zone ttl sha256 noFaults now1 next1 req a).2 =
        (.ok (next1 a.store).1, (idempotencyMiddleware zone ttl sha256 noFaults now1 next1 req a).2) ∧
      (idempotencyMiddleware zone ttl sha256 noFaults now1 next1 req a).2.store
        = (next1 a.store).2) := by
  have hreplay : ∀ (now : Time) (next : Handler) (a : App) (existing : IdempotencyKey),
      a.keys.find? (fun k => k.key == key) = some existing → now ≤ existing.expiresAt →
      existing.statusCode ≠ 0 →
      idempotencyMiddleware zone ttl sha256 db now next req a =
        (.ok { statusCode := existing.statusCode, body := existing.responseBody }, a) := by
    intro now next a existing hfound hfresh hcode
    rw [idempotencyMiddleware_eq zone ttl sha256 db now next req a key hkey hne hm, hfound]
    simp only [gt_iff_lt, not_lt.2 hfresh, if_false, hcode]
  refine ⟨hreplay, ?_⟩
  intro now1 now2 next1 next2 a habsent h200 h300 hnow
  have hnone : ∀ k ∈ a.keys, ¬ (k.key == key) = true := by
    intro k hk
    exact (List.find?_eq_none.1 habsent) k hk
  have hany : (a.keys.any (fun k => k.key == key)) = false := by
    rw [Bool.eq_false_iff]
    intro h
    obtain ⟨k, hk, hkk⟩ := List.any_eq_true.1 h
    exact hnone k hk hkk
  have hfirst : idempotencyMiddleware zone ttl sha256 noFaults now1 next1 req a =
      (.ok (next1 a.store).1,
        { store := (next1 a.store).2
          keys := a.keys ++
            [{ key := key, userId := req.user, method := req.method, path := req.path,
               requestHash := hashRequest sha256 req.method req.path req.body,
               responseBody := (next1 a.store).1.body,
               statusCode := (next1 a.store).1.statusCode,
               expiresAt := addHours zone now1 ttl }] }) := by
    rw [idempotencyMiddleware_eq zone ttl sha256 noFaults now1 next1 req a key hkey hne hm, habsent]
    simp only [h200, h300, and_self, if_true, idempotencyKeyCreate, noFaults,
      Bool.false_eq_true, if_false, hany]
  rw [hfirst]
  refine ⟨rfl, ?_, rfl⟩
  have hfound : (a.keys ++
      [({ key := key, userId := req.user, method := req.method, path := req.path,
          requestHash := hashRequest sha256 req.method req.path req.body,
          responseBody := (next1 a.store).1.body,
          statusCode := (next1 a.store).1.statusCode,
          expiresAt := addHours zone now1 ttl } : IdempotencyKey)]).find?
        (fun k => k.key == key) =
      some { key := key, userId := req.user, method := req.method, path := req.path,
             requestHash := hashRequest sha256 req.method req.path req.body,
             responseBody := (next1 a.store).1.body,
             statusCode := (next1 a.store).1.statusCode,
             expiresAt := addHours zone now1 ttl } := by
    rw [List.find?_append, habsent]
    simp
  have hcode : (next1 a.store).1.statusCode ≠ 0 := by
    intro h0; rw [h0] at h200; exact absurd h200 (by decide)
  exact hreplay now2 next2
    { store := (next1 a.store).2
      keys := a.keys ++
        [{ key := key, userId := req.user, method := req.method, path := req.path,
           requestHash := hashRequest sha256 req.method req.path req.body,
           responseBody := (next1 a.store).1.body,
           statusCode := (next1 a.store).1.statusCode,
           expiresAt := addHours zone now1 ttl }] }
    { key := key, userId := req.user, method := req.method, path := req.path,
      requestHash := hashRequest sha256 req.method req.path req.body,
      responseBody := (next1 a.store).1.body,
      statusCode := (next1 a.store).1.statusCode,
      expiresAt := addHours zone now1 ttl } hfound hnow hcode

/-- The stored answer 201 "old" under k1 has not expired at hour 1: a POST with
k1 gets it back and nothing runs. -/
theorem idempotency_replay_witness :
    idempotencyMiddleware utc 24 id noFaults (1 * hourMs) countingHandler sampleRequest staleApp =
      (.ok { statusCode := 201, body := "old" }, staleApp) :=
  (idempotency_replay utc 24 id noFaults sampleRequest "k1" rfl (by decide) (Or.inl rfl)).1
    (1 * hourMs) countingHandler staleApp
    { key := "k1", userId := some 5, method := "POST", path := "/consultations",
      requestHash := "h", responseBody := "old", statusCode := 201, expiresAt := 1 * hourMs }
    rfl (by decide) (by decide)

/-- C18 (evaluation). The record under k1 expired at hour 1.  A POST with k1 at
hour 2 is answered 201 by the handler, the record is deleted, and no record is
written: the guard returns through `next()` before it has wrapped `res.json`.
The same request at hour 3 therefore runs the handler a second time.  Had k1
been absent at hour 2, the request at hour 3 would have been replayed and the
handler would have run once. -/
theorem idempotency_expired_unsaved :
    (idempotencyMiddleware utc 24 id noFaults (2 * hourMs) countingHandler sampleRequest
      staleApp).1 = .ok { statusCode := 201, body := "created" } ∧
    (idempotencyMiddleware utc 24 id noFaults (2 * hourMs) countingHandler sampleRequest
      staleApp).2.keys = [] ∧
    (idempotencyMiddleware utc 24 id noFaults (3 * hourMs) countingHandler sampleRequest
      (idempotencyMiddleware utc 24 id noFaults (2 * hourMs) countingHandler sampleRequest
        staleApp).2).2.store.nextId = sampleStore.nextId + 2 ∧
    (idempotencyMiddleware utc 24 id noFaults (3 * hourMs) countingHandler sampleRequest
      (idempotencyMiddleware utc 24 id noFaults (2 * hourMs) countingHandler sampleRequest
        freshApp).2).2.store.nextId = sampleStore.nextId + 1 := by
  refine ⟨rfl, by decide, by decide, by decide⟩

/-- C19 (as stated, refuted). The process runs in a zone that moves its clocks
forward by one hour at 01:00 UTC on 29 March 2026, and the configured time is
24 hours.  A request under a fresh key at 12:00 UTC on 28 March is answered
201; the record is written with an expiry 23 hours after the request, not 24:
`addHours` moves the local time on by 24 hours. -/
theorem idempotency_persist_short_day :
    (idempotencyMiddleware springZone 24 id noFaults (springStart - 13 * hourMs) countingHandler
      sampleRequest freshApp).2.keys.map (fun k => (k.key, k.statusCode, k.expiresAt)) =
      [("k1", 201, springStart - 13 * hourMs + 23 * hourMs)] ∧
    springStart - 13 * hourMs + 23 * hourMs ≠ springStart - 13 * hourMs + 24 * hourMs := by
  refine ⟨by decide, by decide⟩

/-- C19 (amended). A POST, PUT or PATCH request carries a key under which the
table holds no record, and the handler answers with status `s` and body `b`.
The caller gets `(s, b)` and the store the handler left, whatever becomes of
the write of the record.  With no write fault the record is written exactly
when `200 ≤ s < 300`, and it holds the key, the user, method and path, the
digest of the JSON text of method, path and body, the body `b`, the status `s`
and as expiry the local time of the request moved on by the configured hours
and read back as an instant.  That expiry is the time of the request plus the
configured hours whenever the offset of the zone at the local expiry is the
offset at the request.  A write that fails leaves the key table as it was. -/
theorem idempotency_persist (zone : TimeZone) (ttl : Int)
    (sha256 : String → String) (db : Faults) (now : Time)
    (next : Handler) (req : Request) (a : App) (key : String)
    (hkey : req.idempotencyKey = some key) (hne : key ≠ "")
    (hm : req.method = "POST" ∨ req.method = "PUT" ∨ req.method = "PATCH")
    (habsent : a.keys.find? (fun k => k.key == key) = none) :
    (idempotencyMiddleware zone ttl sha256 db now next req a).1 = .ok (next a.store).1 ∧
    (idempotencyMiddleware zone ttl sha256 db now next req a).2.store = (next a.store).2 ∧
    ((idempotencyMiddleware zone ttl sha256 noFaults now next req a).2.keys =
        a.keys ++
          [{ key := key, userId := req.user, method := req.method, path := req.path,
             requestHash :=
               sha256 ("\x7b\"method\":" ++ jsonString req.method ++ ",\"path\":"
                 ++ jsonString req.path ++ ",\"body\":" ++ req.body ++ "\x7d"),
             responseBody := (next a.store).1.body,
             statusCode := (next a.store).1.statusCode,
             expiresAt := now + zone.offsetAt now + ttl * 3600000
               - zone.offsetOfLocal (now + zone.offsetAt now + ttl * 3600000) }] ↔
      200 ≤ (next a.store).1.statusCode ∧ (next a.store).1.statusCode < 300) ∧
    (zone.offsetOfLocal (now + zone.offsetAt now + ttl * 3600000) = zone.offsetAt now →
      200 ≤ (next a.store).1.statusCode → (next a.store).1.statusCode < 300 →
      (idempotencyMiddleware zone ttl sha256 noFaults now next req a).2.keys.map
          (fun k => k.expiresAt) = a.keys.map (fun k => k.expiresAt) ++ [now + ttl * 3600000]) ∧
    (¬ (200 ≤ (next a.store).1.statusCode ∧ (next a.store).1.statusCode < 300) →
      (idempotencyMiddleware zone ttl sha256 db now next req a).2.keys = a.keys) ∧
    (db 0 = true → (idempotencyMiddleware zone ttl sha256 db now next req a).2.keys = a.keys) := by
  have hany : (a.keys.any (fun k => k.key == key)) = false := by
    rw [Bool.eq_false_iff]
    intro h
    obtain ⟨k, hk, hkk⟩ := List.any_eq_true.1 h
    exact (List.find?_eq_none.1 habsent) k hk hkk
  have heq := fun (db' : Faults) =>
    idempotencyMiddleware_eq zone ttl sha256 db' now next req a key hkey hne hm
  simp only [habsent] at heq
  by_cases h2 : 200 ≤ (next a.store).1.statusCode ∧ (next a.store).1.statusCode < 300
  · simp only [h2, and_self, if_true] at heq
    refine ⟨by rw [heq], ?_, ?_, ?_, fun h => absurd h2 h, ?_⟩
    · rw [heq]
      unfold idempotencyKeyCreate
      split
      · rfl
      · split <;> rfl
    · rw [heq]
      simp only [idempotencyKeyCreate, noFaults, Bool.false_eq_true, if_false, hany, addHours,
        hashRequest, true_and, iff_true]
      exact ⟨fun _ => h2, fun _ => trivial⟩
    · intro hz _ _
      rw [heq]
      simp only [idempotencyKeyCreate, noFaults, Bool.false_eq_true, if_false, hany, addHours,
        hz, List.map_append, List.map_cons, List.map_nil]
      congr 2
      ring
    · intro hf
      rw [heq]
      simp only [idempotencyKeyCreate, hf, if_true]
  · simp only [h2, if_false] at heq
    refine ⟨by rw [heq], by rw [heq], ?_, ?_, fun _ => by rw [heq], fun _ => by rw [heq]⟩
    · rw [heq]
      simp only [h2, iff_false]
      intro h
      have := congrArg List.length h
      simp at this
    · intro _ h200 h300
      exact absurd ⟨h200, h300⟩ h2

/-- A fresh key k1 at hour 2 in the zone of UTC with the counting handler: the
caller gets 201, and the record is written with the digest of the JSON text of
the request (the digest function is the identity here) and with expiry at
hour 26. -/
theorem idempotency_persist_witness :
    (idempotencyMiddleware utc 24 id noFaults (2 * hourMs) countingHandler sampleRequest
      freshApp).1 = .ok { statusCode := 201, body := "created" } ∧
    (idempotencyMiddleware utc 24 id noFaults (2 * hourMs) countingHandler sampleRequest
      freshApp).2.keys =
      [{ key := "k1", userId := some 5, method := "POST", path := "/consultations",
         requestHash :=
           "\x7b\"method\":\"POST\",\"path\":\"/consultations\",\"body\":\x7b\x7d\x7d",
         responseBody := "created", statusCode := 201, expiresAt := 26 * hourMs }] ∧
    (idempotencyMiddleware utc 24 id noFaults (2 * hourMs) countingHandler sampleRequest
      freshApp).2.keys.map (fun k => k.expiresAt) = [2 * hourMs + 24 * 3600000] :=
  ⟨(idempotency_persist utc 24 id noFaults (2 * hourMs) countingHandler sampleRequest freshApp
      "k1" rfl (by decide) (Or.inl rfl) rfl).1,
   (idempotency_persist utc 24 id noFaults (2 * hourMs) countingHandler sampleRequest freshApp
      "k1" rfl (by decide) (Or.inl rfl) rfl).2.2.1.2 (by decide),
   (idempotency_persist utc 24 id noFaults (2 * hourMs) countingHandler sampleRequest freshApp
      "k1" rfl (by decide) (Or.inl rfl) rfl).2.2.2.1 rfl (by decide) (by decide)⟩

/-! ## The payment webhook -/

/-- The status that a webhook writes to a payment: the value of the enum that
its text names, and nothing when the text is missing. -/
theorem handleWebhookTx_payments (db : Faults) (payment : Payment) (status : Option String)
    (s s' : Store) (r : Payment) (h : handleWebhookTx db payment status s = (.ok r, s')) :
    (status = none ∧ s'.payments = s.payments.map (fun x => if x.id = payment.id then x else x)) ∨
    (∃ v st, status = some v ∧ PaymentStatus.ofName v = some st ∧
      s'.payments =
        s.payments.map (fun x => if x.id = payment.id then { x with status := st } else x)) := by
  unfold handleWebhookTx at h
  simp only at h
  split at h
  · cases h
  · rename_i up s1 hw
    have hs' : s'.payments = s1.payments := by
      split at h
      · split at h
        · cases h
        · rename_i hc
          have := consultationUpdate_ok _ _ _ _ _ _ hc
          cases h
          rw [this]
      · split at h
        · split at h
          · cases h
          · rename_i hc
            have := consultationUpdate_ok _ _ _ _ _ _ hc
            cases h
            rw [this]
        · cases h; rfl
    rw [hs']
    cases status with
    | none =>
      left
      simp only at hw
      exact ⟨rfl, by rw [paymentUpdate_ok _ _ _ _ _ _ hw]⟩
    | some v =>
      right
      simp only at hw
      cases hn : PaymentStatus.ofName v with
      | none => rw [hn] at hw; cases hw
      | some st =>
        rw [hn] at hw
        exact ⟨v, st, rfl, hn, by rw [paymentUpdate_ok _ _ _ _ _ _ hw]⟩

/-- C20 (as stated, refuted). The payment with reference TXN_1 is SUCCESS; a
webhook that names TXN_1 with the status FAILED returns and the payment is
FAILED. -/
theorem handleWebhook_overwrites_terminal :
    paidSample.payments.map (fun p => (p.transactionReference, p.status))
      = [(some "TXN_1", .SUCCESS)] ∧
    (handleWebhook noFaults ⟨.text "TXN_1", some "FAILED"⟩ paidSample).2.payments.map
      (fun p => (p.transactionReference, p.status)) = [(some "TXN_1", .FAILED)] := by
  decide

/-- C20 (amended). `handleWebhook` has no test of the current status.  When the
call finds a payment for the reference, carries a status of the enum and
returns, the payment found under that key afterwards has the status the webhook
carried, whatever it had before, SUCCESS and FAILED included; when the call
carries no status the payments are as before; and when the call throws the
store is as it was.  So a payment in SUCCESS or FAILED keeps its status under a
later webhook only when the webhook repeats that status, carries none, or
throws. -/
theorem handleWebhook_sets_status (db : Faults) (data : WebhookData) (s : Store) (p : Payment)
    (hp : s.payments.find? (referenceMatches data.transactionReference) = some p) :
    (∀ v st, data.status = some v → PaymentStatus.ofName v = some st →
      isOk (handleWebhook db data s).1 = true →
      ∃ q, s.payments.find? (fun x => x.id == p.id) = some q ∧
        (handleWebhook db data s).2.payments.find? (fun x => x.id == p.id)
          = some { q with status := st }) ∧
    (data.status = none → (handleWebhook db data s).2.payments = s.payments) ∧
    (isOk (handleWebhook db data s).1 = false → (handleWebhook db data s).2 = s) := by
  have heq : handleWebhook db data s = transaction (handleWebhookTx db p data.status) s := by
    unfold handleWebhook
    rw [hp]
  rw [heq]
  unfold transaction
  cases hb : handleWebhookTx db p data.status s with
  | mk r s' =>
    cases r with
    | error e =>
      refine ⟨?_, fun _ => rfl, fun _ => rfl⟩
      intro v st _ _ hok
      simp [isOk] at hok
    | ok r =>
      have hpay := handleWebhookTx_payments db p data.status s s' r hb
      refine ⟨?_, ?_, ?_⟩
      · intro v st hv hst _
        rcases hpay with ⟨hnone, -⟩ | ⟨v', st', hv', hst', hmap⟩
        · rw [hv] at hnone; cases hnone
        · rw [hv] at hv'
          cases hv'
          rw [hst] at hst'
          cases hst'
          have hpid : (p.id == p.id) = true := by simp
          have hex : ∃ q, s.payments.find? (fun x => x.id == p.id) = some q := by
            cases hf : s.payments.find? (fun x => x.id == p.id) with
            | some q => exact ⟨q, rfl⟩
            | none =>
              exact absurd hpid
                ((List.find?_eq_none.1 hf) p (List.mem_of_find?_eq_some hp))
          obtain ⟨q, hq⟩ := hex
          refine ⟨q, hq, ?_⟩
          show s'.payments.find? (fun x => x.id == p.id) = _
          rw [hmap]
          have := find?_map_of_key Payment.id s.payments
            (fun x => if x.id = p.id then { x with status := st } else x)
            (by intro y; dsimp only; split <;> rfl) p.id
          rw [this, hq]
          have hqid : q.id = p.id := by simpa using List.find?_some hq
          simp [hqid]
      · intro hnone
        rcases hpay with ⟨-, hmap⟩ | ⟨v', st', hv', -, -⟩
        · show s'.payments = s.payments
          rw [hmap]
          simp
        · rw [hnone] at hv'; cases hv'
      · intro hok
        simp [isOk] at hok

/-- A webhook that names TXN_1 with the status INITIATED takes the settled
sample payment back to INITIATED. -/
theorem handleWebhook_sets_status_witness :
    ∃ q, paidSample.payments.find? (fun x => x.id == 2) = some q ∧
      (handleWebhook noFaults ⟨.text "TXN_1", some "INITIATED"⟩ paidSample).2.payments.find?
        (fun x => x.id == 2) = some { q with status := .INITIATED } :=
  (handleWebhook_sets_status noFaults ⟨.text "TXN_1", some "INITIATED"⟩ paidSample
    { id := 2, consultationId := 1, amount := 500, currency := "INR", status := .SUCCESS,
      provider := some "STUB_PROVIDER", transactionReference := some "TXN_1" } rfl).1
    "INITIATED" .INITIATED rfl rfl rfl

/-! ## Payment status and consultation payment status -/

/-- C21 (evaluation). In the settled sample store the payment is SUCCESS and
its consultation is PAID, so the two agree.  A webhook that names TXN_1 with
the status INITIATED returns; it writes INITIATED to the payment, and neither
branch of the test on the status fires, so the consultation stays PAID.  The
two no longer agree. -/
theorem handleWebhook_breaks_agreement :
    PaymentsAgree paidSample ∧
    isOk (handleWebhook noFaults ⟨.text "TXN_1", some "INITIATED"⟩ paidSample).1 = true ∧
    (handleWebhook noFaults ⟨.text "TXN_1", some "INITIATED"⟩ paidSample).2.payments.map
      (fun p => (p.consultationId, p.status)) = [(1, .INITIATED)] ∧
    (handleWebhook noFaults ⟨.text "TXN_1", some "INITIATED"⟩ paidSample).2.consultations.map
      (fun c => (c.id, c.paymentStatus)) = [(1, .PAID)] ∧
    ¬ PaymentsAgree (handleWebhook noFaults ⟨.text "TXN_1", some "INITIATED"⟩ paidSample).2 := by
  refine ⟨by decide, by decide, by decide, by decide, by decide⟩

/-- The store that a webhook with a status of SUCCESS or FAILED leaves when its
transaction returns. -/
theorem handleWebhookTx_settled (db : Faults) (payment : Payment) (v : String)
    (st : PaymentStatus) (ps : ConsultationPaymentStatus)
    (hv : (v = "SUCCESS" ∧ st = .SUCCESS ∧ ps = .PAID) ∨
      (v = "FAILED" ∧ st = .FAILED ∧ ps = .FAILED))
    (s s' : Store) (r : Payment) (h : handleWebhookTx db payment (some v) s = (.ok r, s')) :
    s' = { s with
      payments := s.payments.map (fun x => if x.id = payment.id then { x with status := st } else x)
      consultations := s.consultations.map
        (fun c => if c.id = payment.consultationId then { c with paymentStatus := ps } else c) } := by
  rcases hv with ⟨rfl, rfl, rfl⟩ | ⟨rfl, rfl, rfl⟩
  · unfold handleWebhookTx at h
    simp only [PaymentStatus.ofName] at h
    simp only [show ("SUCCESS" = "INITIATED") = False by decide, if_false, if_true] at h
    split at h
    · cases h
    · rename_i up s1 hw
      have hs1 := paymentUpdate_ok _ _ _ _ _ _ hw
      split at h
      · cases h
      · rename_i hc
        have hs2 := consultationUpdate_ok _ _ _ _ _ _ hc
        cases h
        rw [hs2, hs1]
  · unfold handleWebhookTx at h
    simp only [PaymentStatus.ofName] at h
    simp only [show ("FAILED" = "INITIATED") = False by decide,
      show ("FAILED" = "SUCCESS") = False by decide,
      show (some "FAILED" = some "SUCCESS") = False by decide, if_false, if_true] at h
    split at h
    · cases h
    · rename_i up s1 hw
      have hs1 := paymentUpdate_ok _ _ _ _ _ _ hw
      split at h
      · cases h
      · rename_i hc
        have hs2 := consultationUpdate_ok _ _ _ _ _ _ hc
        cases h
        rw [hs2, hs1]

/-- A webhook with the status SUCCESS or FAILED keeps payments and consultations
in step, in a store whose payments have distinct keys and distinct
consultations: the two branches of `handleWebhook` write both rows in one
transaction. -/
theorem handleWebhook_settled_agree (db : Faults) (data : WebhookData) (s : Store)
    (hst : data.status = some "SUCCESS" ∨ data.status = some "FAILED")
    (hagree : PaymentsAgree s)
    (hids : (s.payments.map Payment.id).Nodup)
    (hcons : (s.payments.map Payment.consultationId).Nodup) :
    PaymentsAgree (handleWebhook db data s).2 := by
  unfold handleWebhook
  cases hf : s.payments.find? (referenceMatches data.transactionReference) with
  | none => exact hagree
  | some payment =>
    simp only
    unfold transaction
    cases hb : handleWebhookTx db payment data.status s with
    | mk res s' =>
      cases res with
      | error e => exact hagree
      | ok r =>
        simp only
        have hmem : payment ∈ s.payments := List.mem_of_find?_eq_some hf
        obtain ⟨v, st, ps, hdv, hv, hsp⟩ : ∃ v st ps, data.status = some v ∧
            ((v = "SUCCESS" ∧ st = PaymentStatus.SUCCESS ∧ ps = ConsultationPaymentStatus.PAID) ∨
             (v = "FAILED" ∧ st = PaymentStatus.FAILED ∧ ps = ConsultationPaymentStatus.FAILED)) ∧
            statusesAgree st ps = true := by
          rcases hst with h | h
          · exact ⟨"SUCCESS", .SUCCESS, .PAID, h, Or.inl ⟨rfl, rfl, rfl⟩, rfl⟩
          · exact ⟨"FAILED", .FAILED, .FAILED, h, Or.inr ⟨rfl, rfl, rfl⟩, rfl⟩
        rw [hdv] at hb
        have hs' := handleWebhookTx_settled db payment v st ps hv s s' r hb
        subst hs'
        intro q' hq' c' hc' hid
        simp only [List.mem_map] at hq' hc'
        obtain ⟨q, hq, rfl⟩ := hq'
        obtain ⟨c, hc, rfl⟩ := hc'
        by_cases hqp : q.id = payment.id
        · have hqeq : q = payment :=
            List.inj_on_of_nodup_map hids hq hmem hqp
          subst hqeq
          simp only [if_true] at hid ⊢
          by_cases hcp : c.id = q.consultationId
          · simp only [hcp, if_true]
            exact hsp
          · simp only [hcp, if_false] at hid
        · simp only [hqp, if_false] at hid ⊢
          by_cases hcp : c.id = payment.consultationId
          · simp only [hcp, if_true] at hid
            have : q = payment := List.inj_on_of_nodup_map hcons hq hmem hid.symm
            exact absurd (by rw [this]) hqp
          · simp only [hcp, if_false] at hid ⊢
            exact hagree q hq c hc hid

/-! ## Prescriptions -/

/-- The write of a prescription, by its fault. -/
theorem prescriptionCreate_eq (fails : Bool) (row : Id → Prescription) (k : Clinic) :
    prescriptionCreate fails row k =
      if fails = true then (.error storeFailure, k)
      else (.ok (row k.store.nextId),
        { store := { k.store with nextId := k.store.nextId + 1 }
          prescriptions := k.prescriptions ++ [row k.store.nextId] }) := rfl

/-- A call of `createPrescription` either throws and leaves the tables, or has
passed the three guards, found the doctor row of the caller and written the
row. -/
theorem createPrescription_cases (db : Faults) (doctorId : Id) (data : PrescriptionData)
    (k : Clinic) :
    (∃ e, createPrescription db doctorId data k = (.error e, k)) ∨
    (∃ c doctor, k.store.findConsultation data.consultationId = some c ∧
      c.doctorId = doctorId ∧ c.status = .COMPLETED ∧
      k.store.findDoctorByUserId doctorId = some doctor ∧ db 0 = false ∧
      createPrescription db doctorId data k =
        (.ok { id := k.store.nextId, consultationId := data.consultationId,
               doctorId := doctor.id, patientId := data.patientId,
               medications := data.medications, advice := data.advice },
         { store := { k.store with nextId := k.store.nextId + 1 }
           prescriptions := k.prescriptions ++
             [{ id := k.store.nextId, consultationId := data.consultationId,
                doctorId := doctor.id, patientId := data.patientId,
                medications := data.medications, advice := data.advice }] })) := by
  cases hc : k.store.findConsultation data.consultationId with
  | none =>
    left
    exact ⟨NotFoundError "Consultation not found", by simp [createPrescription, hc]⟩
  | some c =>
    by_cases hd : c.doctorId = doctorId
    · by_cases hs : c.status = .COMPLETED
      · cases hdoc : k.store.findDoctorByUserId doctorId with
        | none =>
          left
          exact ⟨⟨.TypeError, "Cannot read properties of null"⟩,
            by simp [createPrescription, hc, hd, hs, hdoc]⟩
        | some doctor =>
          cases hf : db 0 with
          | true =>
            left
            exact ⟨storeFailure,
              by simp [createPrescription, hc, hd, hs, hdoc, prescriptionCreate_eq, hf]⟩
          | false =>
            right
            exact ⟨c, doctor, rfl, hd, hs, rfl, rfl,
              by simp [createPrescription, hc, hd, hs, hdoc, prescriptionCreate_eq, hf]⟩
      · left
        exact ⟨ForbiddenError "Can only create prescription for completed consultations",
          by simp [createPrescription, hc, hd, hs]⟩
    · left
      exact ⟨ForbiddenError "Not authorized to create prescription for this consultation",
        by simp [createPrescription, hc, hd]⟩

/-- C22. `createPrescription` returns only if the consultation of the body
exists, its `doctorId` is the caller and its status is COMPLETED.  It throws
NotFound when the consultation is absent; otherwise Forbidden when the caller is
not the doctor of the consultation; otherwise Forbidden when the status is not
COMPLETED.  Every call that throws leaves the prescription table and the store
as they were.  When the three conditions hold, the caller has a doctor row and
the write does not fail, the call returns and the table has one row more. -/
theorem createPrescription_guards (db : Faults) (doctorId : Id) (data : PrescriptionData)
    (k : Clinic) :
    (isOk (createPrescription db doctorId data k).1 = true →
      ∃ c, k.store.findConsultation data.consultationId = some c ∧
        c.doctorId = doctorId ∧ c.status = .COMPLETED) ∧
    (k.store.findConsultation data.consultationId = none →
      createPrescription db doctorId data k =
        (.error (NotFoundError "Consultation not found"), k)) ∧
    (∀ c, k.store.findConsultation data.consultationId = some c → c.doctorId ≠ doctorId →
      createPrescription db doctorId data k =
        (.error (ForbiddenError "Not authorized to create prescription for this consultation"),
          k)) ∧
    (∀ c, k.store.findConsultation data.consultationId = some c → c.doctorId = doctorId →
      c.status ≠ .COMPLETED →
      createPrescription db doctorId data k =
        (.error (ForbiddenError "Can only create prescription for completed consultations"),
          k)) ∧
    (isOk (createPrescription db doctorId data k).1 = false →
      (createPrescription db doctorId data k).2 = k) ∧
    (∀ c doctor, k.store.findConsultation data.consultationId = some c →
      c.doctorId = doctorId → c.status = .COMPLETED →
      k.store.findDoctorByUserId doctorId = some doctor → db 0 = false →
      isOk (createPrescription db doctorId data k).1 = true ∧
      (createPrescription db doctorId data k).2.prescriptions.length =
        k.prescriptions.length + 1) := by
  refine ⟨?_, ?_, ?_, ?_, ?_, ?_⟩
  · intro hok
    rcases createPrescription_cases db doctorId data k with ⟨e, he⟩ | ⟨c, _, hc, hd, hs, -⟩
    · rw [he] at hok; simp [isOk] at hok
    · exact ⟨c, hc, hd, hs⟩
  · intro hc
    simp [createPrescription, hc]
  · intro c hc hd
    simp [createPrescription, hc, hd]
  · intro c hc hd hs
    simp [createPrescription, hc, hd, hs]
  · intro hfail
    rcases createPrescription_cases db doctorId data k with
      ⟨e, he⟩ | ⟨_, _, -, -, -, -, -, hok⟩
    · rw [he]
    · rw [hok] at hfail; simp [isOk] at hfail
  · intro c doctor hc hd hs hdoc hf
    rcases createPrescription_cases db doctorId data k with
      ⟨e, he⟩ | ⟨_, _, -, -, -, -, -, hok⟩
    · exfalso
      simp [createPrescription, hc, hd, hs, hdoc, prescriptionCreate_eq, hf] at he
    · rw [hok]
      simp [isOk]

/-- The sample consultation is COMPLETED and its doctor is user 70: user 71 is
refused, and nothing is written. -/
theorem createPrescription_guards_witness :
    createPrescription noFaults 71 samplePrescription completedClinic =
      (.error (ForbiddenError "Not authorized to create prescription for this consultation"),
        completedClinic) :=
  (createPrescription_guards noFaults 71 samplePrescription completedClinic).2.2.1
    { sampleConsultation with
      status := .COMPLETED, startedAt := some (10 * hourMs), endedAt := some (11 * hourMs) }
    rfl (by decide)

/-! ## The guards of a cancellation -/

/-- C23. `cancelConsultation` throws NotFound when the consultation is absent;
otherwise Forbidden when the caller is neither its patient nor its doctor,
whatever the role of the caller, ADMIN included; otherwise Conflict when the
status is CANCELLED, COMPLETED or NO_SHOW.  None of the three outcomes depends
on the clock, on the configured window or on the slot: the tests come before
the test of the window.  Every call that throws leaves the store as it was. -/
theorem cancelConsultation_guards (cfg : Config) (db : Faults) (now : Time) (cid uid : Id)
    (role : Role) (s : Store) :
    (s.findConsultation cid = none →
      cancelConsultation cfg db now cid uid role s =
        (.error (NotFoundError "Consultation not found"), s)) ∧
    (∀ c, s.findConsultation cid = some c → c.patientId ≠ uid → c.doctorId ≠ uid →
      cancelConsultation cfg db now cid uid role s =
        (.error (ForbiddenError "Not authorized to cancel this consultation"), s)) ∧
    (∀ c, s.findConsultation cid = some c → (c.patientId = uid ∨ c.doctorId = uid) →
      (c.status = .CANCELLED ∨ c.status = .COMPLETED ∨ c.status = .NO_SHOW) →
      cancelConsultation cfg db now cid uid role s =
        (.error (ConflictError "Cannot cancel consultation in current status"), s)) ∧
    (isOk (cancelConsultation cfg db now cid uid role s).1 = false →
      (cancelConsultation cfg db now cid uid role s).2 = s) := by
  refine ⟨?_, ?_, ?_, ?_⟩
  · intro hc
    simp [cancelConsultation, hc]
  · intro c hc hp hd
    simp only [cancelConsultation, hc]
    rw [if_pos ⟨hp, hd⟩]
  · intro c hc hparty hst
    have h1 : ¬(c.patientId ≠ uid ∧ c.doctorId ≠ uid) := by
      rcases hparty with h | h <;> simp [h]
    simp only [cancelConsultation, hc]
    rw [if_neg h1, if_pos hst]
  · intro hfail
    rcases cancelConsultation_cases cfg db now cid uid role s with
      ⟨e, he⟩ | ⟨_, _, -, -, -, -, -, -, -, hok⟩
    · rw [he]
    · rw [hok] at hfail; simp [isOk] at hfail

/-- An ADMIN who is neither the patient nor the doctor of the sample
consultation is refused, and the store is as before. -/
theorem cancelConsultation_guards_witness :
    cancelConsultation defaultConfig noFaults 0 1 99 .ADMIN bookedSample =
      (.error (ForbiddenError "Not authorized to cancel this consultation"), bookedSample) :=
  (cancelConsultation_guards defaultConfig noFaults 0 1 99 .ADMIN bookedSample).2.1
    sampleConsultation rfl (by decide) (by decide)

/-! ## Pagination -/

/-- A number below `2 ^ k` has at most `k` binary digits. -/
theorem bitLengthAux_le (fuel : Nat) : ∀ (n k : Nat), n < 2 ^ k → bitLengthAux fuel n ≤ k := by
  induction fuel with
  | zero => intro n k _; exact Nat.zero_le _
  | succ f ih =>
    intro n k h
    unfold bitLengthAux
    by_cases hn : n = 0
    · rw [if_pos hn]; exact Nat.zero_le _
    · rw [if_neg hn]
      cases k with
      | zero => simp at h; exact absurd h hn
      | succ k =>
        have : n / 2 < 2 ^ k := by
          rw [Nat.div_lt_iff_lt_mul (by decide)]
          rw [Nat.pow_succ] at h
          exact h
        exact Nat.succ_le_succ (ih (n / 2) k this)

/-- A positive number is at least the power of two of its binary digits less
one. -/
theorem bitLengthAux_pow_le (fuel : Nat) :
    ∀ n : Nat, 0 < n → 2 ^ (bitLengthAux fuel n - 1) ≤ n := by
  induction fuel with
  | zero => intro n hn; simpa [bitLengthAux] using hn
  | succ f ih =>
    intro n hn
    unfold bitLengthAux
    rw [if_neg (Nat.ne_of_gt hn)]
    simp only [Nat.add_sub_cancel]
    by_cases h2 : n / 2 = 0
    · have h0 : bitLengthAux f (n / 2) = 0 := by
        rw [h2]; cases f <;> simp [bitLengthAux]
      rw [h0]; simpa using hn
    · have hpos : 0 < n / 2 := Nat.pos_of_ne_zero h2
      have := ih (n / 2) hpos
      cases hb : bitLengthAux f (n / 2) with
      | zero => simpa using hn
      | succ b =>
        rw [hb] at this
        simp only [Nat.add_sub_cancel] at this
        rw [Nat.pow_succ]
        have hdiv : n / 2 * 2 ≤ n := Nat.div_mul_le_self n 2
        exact le_trans (Nat.mul_le_mul_right 2 this) hdiv

/-- Below 2^53 every natural number is a double. -/
theorem roundNat_small {n : Nat} (h : n < 2 ^ 53) : roundNat n = n := by
  unfold roundNat
  rw [if_pos h]

/-- Rounding leaves a number of 2^53 or more at 2^52 or more. -/
theorem roundNat_large {n : Nat} (h : 2 ^ 53 ≤ n) : 2 ^ 52 ≤ roundNat n := by
  have hpos : 0 < n := lt_of_lt_of_le (by decide) h
  have hb : 2 ^ (bitLength n - 1) ≤ n := bitLengthAux_pow_le n n hpos
  have hq : 2 ^ 52 ≤ n / 2 ^ (bitLength n - 53) := by
    rw [Nat.le_div_iff_mul_le (Nat.pos_pow_of_pos _ (by decide)), ← Nat.pow_add]
    by_cases hlen : 53 ≤ bitLength n
    · have : 52 + (bitLength n - 53) = bitLength n - 1 := by omega
      rw [this]; exact hb
    · have : 52 + (bitLength n - 53) = 52 := by omega
      rw [this]
      exact le_trans (by decide) h
  have hone : 1 ≤ 2 ^ (bitLength n - 53) := Nat.one_le_two_pow
  unfold roundNat
  rw [if_neg (not_lt.2 h)]
  split
  · calc 2 ^ 52 ≤ n / 2 ^ (bitLength n - 53) := hq
      _ ≤ n / 2 ^ (bitLength n - 53) + 1 := Nat.le_succ _
      _ ≤ (n / 2 ^ (bitLength n - 53) + 1) * 2 ^ (bitLength n - 53) :=
        Nat.le_mul_of_pos_right _ hone
  · calc 2 ^ 52 ≤ n / 2 ^ (bitLength n - 53) := hq
      _ ≤ n / 2 ^ (bitLength n - 53) * 2 ^ (bitLength n - 53) :=
        Nat.le_mul_of_pos_right _ hone

/-- The `Number` for an integer below 2^53 in size is that integer. -/
theorem JsNumber.ofInt_exact {z : Int} (h : z.natAbs < 2 ^ 53) : JsNumber.ofInt z = .int z := by
  unfold JsNumber.ofInt
  rw [roundNat_small h]
  have hlen : bitLength z.natAbs ≤ 1024 :=
    le_trans (bitLengthAux_le _ _ 53 h) (by decide)
  rw [if_pos hlen]
  congr 1
  split <;> omega

/-- The `Number` for an integer that is not negative is not negative. -/
theorem JsNumber.ofInt_nonneg {z : Int} (h : 0 ≤ z) :
    JsNumber.ofInt z = .inf false ∨ ∃ r : Int, 0 ≤ r ∧ JsNumber.ofInt z = .int r := by
  have hz : ¬ z < 0 := not_lt.2 h
  unfold JsNumber.ofInt
  split
  · right
    exact ⟨(roundNat z.natAbs : Int), Int.natCast_nonneg _, rfl⟩
  · left
    simp [hz]

/-- The `Number` for an integer of 2^53 or more is 2^52 or more. -/
theorem JsNumber.ofInt_large {z : Int} (h : 2 ^ 53 ≤ z) :
    JsNumber.ofInt z = .inf false ∨ ∃ r : Int, 2 ^ 52 ≤ r ∧ JsNumber.ofInt z = .int r := by
  have hz : ¬ z < 0 := not_lt.2 (le_trans (by decide) h)
  have hn : 2 ^ 53 ≤ z.natAbs := by omega
  unfold JsNumber.ofInt
  split
  · right
    refine ⟨(roundNat z.natAbs : Int), ?_, rfl⟩
    exact_mod_cast roundNat_large hn
  · left
    simp [hz]

/-- The `Number` for an integer of -2^53 or less is -2^52 or less. -/
theorem JsNumber.ofInt_small {z : Int} (h : z ≤ -(2 ^ 53)) :
    JsNumber.ofInt z = .inf true ∨ ∃ r : Int, r ≤ -(2 ^ 52) ∧ JsNumber.ofInt z = .int r := by
  have hz : z < 0 := lt_of_le_of_lt h (by decide)
  have hn : 2 ^ 53 ≤ z.natAbs := by omega
  unfold JsNumber.ofInt
  split
  · right
    refine ⟨-(roundNat z.natAbs : Int), ?_, rfl⟩
    have : ((2 ^ 52 : Nat) : Int) ≤ (roundNat z.natAbs : Int) := by
      exact_mod_cast roundNat_large hn
    have h52 : ((2 ^ 52 : Nat) : Int) = 2 ^ 52 := by norm_num
    omega
  · left
    simp [hz]

/-- The limit for a numeral that is not zero: the numeral clamped into 1 to
100, whatever its size. -/
theorem limit_of_numeral (z : Int) (hz : z ≠ 0) :
    JsNumber.min (.int 100) (JsNumber.max (.int 1) (orDefault (JsNumber.ofInt z) (.int 20)))
      = .int (min 100 (max 1 z)) := by
  by_cases hbig : 2 ^ 53 ≤ z
  · have hval : min 100 (max 1 z) = 100 := by
      have : (100 : Int) ≤ z := le_trans (by decide) hbig
      omega
    rw [hval]
    rcases JsNumber.ofInt_large hbig with h | ⟨r, hr, h⟩
    · rw [h]; rfl
    · rw [h]
      have hr0 : r ≠ 0 := by
        intro h0; rw [h0] at hr; exact absurd hr (by decide)
      have hr100 : (100 : Int) ≤ r := le_trans (by decide) hr
      simp [orDefault, JsNumber.truthy, hr0, JsNumber.max, JsNumber.min]
      omega
  · by_cases hsmall : z ≤ -(2 ^ 53)
    · have hval : min 100 (max 1 z) = 1 := by
        have : z ≤ 0 := le_trans hsmall (by decide)
        omega
      rw [hval]
      rcases JsNumber.ofInt_small hsmall with h | ⟨r, hr, h⟩
      · rw [h]; rfl
      · rw [h]
        have hr0 : r ≠ 0 := by
          intro h0; rw [h0] at hr; exact absurd hr (by decide)
        have hr1 : r ≤ 1 := le_trans hr (by decide)
        simp [orDefault, JsNumber.truthy, hr0, JsNumber.max, JsNumber.min]
        omega
    · have hex : JsNumber.ofInt z = .int z := JsNumber.ofInt_exact (by omega)
      rw [hex]
      simp [orDefault, JsNumber.truthy, hz, JsNumber.max, JsNumber.min]

/-- The page is at least 1 whatever was parsed. -/
theorem page_ge_one (a : JsNumber) :
    JsNumber.le (.int 1) (JsNumber.max (.int 1) (orDefault a (.int 1))) = true := by
  cases a with
  | nan => rfl
  | int z =>
    by_cases hz : z = 0
    · subst hz; rfl
    · simp [orDefault, JsNumber.truthy, hz, JsNumber.max, JsNumber.le]
  | inf s => cases s <;> rfl

/-- The page is an integer of at least 1 or the positive infinity. -/
theorem page_cases (a : JsNumber) :
    JsNumber.max (.int 1) (orDefault a (.int 1)) = .inf false ∨
    ∃ p : Int, 1 ≤ p ∧ JsNumber.max (.int 1) (orDefault a (.int 1)) = .int p := by
  cases a with
  | nan => right; exact ⟨1, le_refl _, rfl⟩
  | int z =>
    right
    by_cases hz : z = 0
    · subst hz; exact ⟨1, le_refl _, rfl⟩
    · exact ⟨max 1 z, le_max_left _ _,
        by simp [orDefault, JsNumber.truthy, hz, JsNumber.max]⟩
  | inf s =>
    cases s
    · left; rfl
    · right; exact ⟨1, le_refl _, rfl⟩

/-- The limit is an integer from 1 to 100 whatever was parsed. -/
theorem limit_cases (a : JsNumber) :
    ∃ l : Int, 1 ≤ l ∧ l ≤ 100 ∧
      JsNumber.min (.int 100) (JsNumber.max (.int 1) (orDefault a (.int 20))) = .int l := by
  cases a with
  | nan => exact ⟨20, by decide, by decide, rfl⟩
  | int z =>
    by_cases hz : z = 0
    · subst hz; exact ⟨20, by decide, by decide, rfl⟩
    · refine ⟨min 100 (max 1 z), ?_, min_le_left _ _,
        by simp [orDefault, JsNumber.truthy, hz, JsNumber.max, JsNumber.min]⟩
      exact le_min (by decide) (le_max_left _ _)
  | inf s =>
    cases s
    · exact ⟨100, by decide, by decide, rfl⟩
    · exact ⟨1, by decide, by decide, rfl⟩

/-- The product `(page - 1) * limit` of `Number`s is the exact product when
that is below 2^53. -/
theorem skip_exact (p l : Int) (hp : 1 ≤ p) (hl : 1 ≤ l) (h : (p - 1) * l < 2 ^ 53) :
    ((JsNumber.int p).sub (.int 1)).mul (.int l) = .int ((p - 1) * l) := by
  have h0 : 0 ≤ p - 1 := by omega
  have hle : p - 1 ≤ (p - 1) * l := le_mul_of_one_le_right h0 hl
  have hprod : 0 ≤ (p - 1) * l := mul_nonneg h0 (by omega)
  have h1 : JsNumber.ofInt (p - 1) = .int (p - 1) := JsNumber.ofInt_exact (by omega)
  have h2 : JsNumber.ofInt ((p - 1) * l) = .int ((p - 1) * l) :=
    JsNumber.ofInt_exact (by omega)
  show JsNumber.mul (JsNumber.ofInt (p - 1)) (.int l) = _
  rw [h1]
  exact h2

/-- The product `(page - 1) * limit` of `Number`s is not negative. -/
theorem skip_nonneg (page : JsNumber) (l : Int) (hl : 1 ≤ l)
    (hpage : page = .inf false ∨ ∃ p : Int, 1 ≤ p ∧ page = .int p) :
    JsNumber.le (.int 0) ((page.sub (.int 1)).mul (.int l)) = true := by
  have hl0 : l ≠ 0 := by omega
  have hlneg : ¬ l < 0 := by omega
  rcases hpage with h | ⟨p, hp, h⟩
  · rw [h]
    simp [JsNumber.sub, JsNumber.mul, hl0, hlneg, JsNumber.le]
  · rw [h]
    show JsNumber.le (.int 0) (JsNumber.mul (JsNumber.ofInt (p - 1)) (.int l)) = true
    rcases JsNumber.ofInt_nonneg (show 0 ≤ p - 1 by omega) with h1 | ⟨r, hr, h1⟩
    · rw [h1]
      simp [JsNumber.mul, hl0, hlneg, JsNumber.le]
    · rw [h1]
      show JsNumber.le (.int 0) (JsNumber.ofInt (r * l)) = true
      rcases JsNumber.ofInt_nonneg (mul_nonneg hr (show 0 ≤ l by omega)) with h2 | ⟨q, hq, h2⟩
      · rw [h2]; rfl
      · rw [h2]
        simpa [JsNumber.le] using hq

/-- C24 (as stated, refuted). The query `page=9007199254740993&limit=100`: the
numeral of the page is 2^53 + 1, which no `Number` holds, and `parseInt` gives
the nearest one, 2^53.  The page returned is 9007199254740992, not the parsed
numeral, and the skip returned is 900719925474099072, not
`(page - 1) * limit = 900719925474099100`. -/
theorem parsePaginationParams_rounds :
    parseNumeral (some "9007199254740993") = some 9007199254740993 ∧
    parsePaginationParams ⟨some "9007199254740993", some "100"⟩ =
      ⟨.int 9007199254740992, .int 100, .int 900719925474099072⟩ ∧
    (900719925474099072 : Int) ≠ (9007199254740992 - 1) * 100 := by
  refine ⟨by decide, by decide, by decide⟩

/-- C24 (amended). For every query `parsePaginationParams` returns a page of at
least 1, a limit that is an integer from 1 to 100, and as skip the product
`(page - 1) * limit` of `Number`s, which is not negative and is the exact
product whenever that is below 2^53.  The page is 1 when `query.page` is
missing, does not parse or parses to 0, and otherwise the `Number` parsed
raised to at least 1, which is the numeral itself when that is below 2^53 in
size.  The limit is 20 when `query.limit` is missing, does not parse or parses
to 0, and otherwise the numeral clamped into 1 to 100, whatever its size.  The
three calls of the unit test give (2, 10, 10), (1, 20, 0) and the limit 100. -/
theorem parsePaginationParams_bounds (query : PageQuery) :
    JsNumber.le (.int 1) (parsePaginationParams query).page = true ∧
    (∃ l : Int, (parsePaginationParams query).limit = .int l ∧ 1 ≤ l ∧ l ≤ 100) ∧
    JsNumber.le (.int 0) (parsePaginationParams query).skip = true ∧
    (parsePaginationParams query).skip =
      ((parsePaginationParams query).page.sub (.int 1)).mul (parsePaginationParams query).limit ∧
    (∀ p l : Int, (parsePaginationParams query).page = .int p →
      (parsePaginationParams query).limit = .int l → (p - 1) * l < 2 ^ 53 →
      (parsePaginationParams query).skip = .int ((p - 1) * l)) ∧
    (query.page = none ∨ parseNumeral query.page = none ∨ parseNumeral query.page = some 0 →
      (parsePaginationParams query).page = .int 1) ∧
    (∀ z, parseNumeral query.page = some z → z ≠ 0 →
      (parsePaginationParams query).page = JsNumber.max (.int 1) (JsNumber.ofInt z)) ∧
    (∀ z, parseNumeral query.page = some z → z ≠ 0 → z.natAbs < 2 ^ 53 →
      (parsePaginationParams query).page = .int (max 1 z)) ∧
    (query.limit = none ∨ parseNumeral query.limit = none ∨ parseNumeral query.limit = some 0 →
      (parsePaginationParams query).limit = .int 20) ∧
    (∀ z, parseNumeral query.limit = some z → z ≠ 0 →
      (parsePaginationParams query).limit = .int (min 100 (max 1 z))) ∧
    parsePaginationParams ⟨some "2", some "10"⟩ = ⟨.int 2, .int 10, .int 10⟩ ∧
    parsePaginationParams ⟨none, none⟩ = ⟨.int 1, .int 20, .int 0⟩ ∧
    (parsePaginationParams ⟨none, some "200"⟩).limit = .int 100 := by
  have hpage : (parsePaginationParams query).page =
      JsNumber.max (.int 1) (orDefault (parseInt query.page) (.int 1)) := rfl
  have hlimit : (parsePaginationParams query).limit =
      JsNumber.min (.int 100) (JsNumber.max (.int 1) (orDefault (parseInt query.limit) (.int 20)))
      := rfl
  have hskip : (parsePaginationParams query).skip =
      ((parsePaginationParams query).page.sub (.int 1)).mul (parsePaginationParams query).limit
      := rfl
  obtain ⟨l, hl1, hl100, hl⟩ := limit_cases (parseInt query.limit)
  have hpc := page_cases (parseInt query.page)
  have hnone : ∀ v : Option String, (v = none ∨ parseNumeral v = none ∨ parseNumeral v = some 0) →
      parseInt v = .nan ∨ parseInt v = .int 0 := by
    intro v h
    rcases h with h | h | h
    · left; rw [h]; rfl
    · left; simp [parseInt, h]
    · right
      simp only [parseInt, h]
      exact JsNumber.ofInt_exact (by decide)
  have hzero : ∀ (a b : JsNumber), a = .nan ∨ a = .int 0 → orDefault a b = b := by
    intro a b h
    rcases h with h | h <;> rw [h] <;> rfl
  have hsome : ∀ (v : Option String) (z : Int), parseNumeral v = some z →
      parseInt v = JsNumber.ofInt z := by
    intro v z h
    simp [parseInt, h]
  refine ⟨?_, ⟨l, by rw [hlimit, hl], hl1, hl100⟩, ?_, hskip, ?_, ?_, ?_, ?_, ?_, ?_,
    by decide, by decide, by decide⟩
  · rw [hpage]; exact page_ge_one _
  · rw [hskip, hlimit, hl]
    exact skip_nonneg _ l hl1 (by rw [hpage]; exact hpc)
  · intro p l' hp hl' hprod
    rw [hskip, hp, hl']
    have hp1 : 1 ≤ p := by
      have := page_ge_one (parseInt query.page)
      rw [← hpage, hp] at this
      simpa [JsNumber.le] using this
    have hl1' : 1 ≤ l' := by
      rw [hlimit, hl] at hl'
      cases hl'
      exact hl1
    exact skip_exact p l' hp1 hl1' hprod
  · intro h
    rw [hpage, hzero _ _ (hnone _ h)]
    rfl
  · intro z hz hz0
    rw [hpage, hsome _ z hz]
    have htr : (JsNumber.ofInt z).truthy = true := by
      by_cases hbig : 2 ^ 53 ≤ z
      · rcases JsNumber.ofInt_large hbig with h | ⟨r, hr, h⟩
        · rw [h]; rfl
        · rw [h]
          have : r ≠ 0 := by intro h0; rw [h0] at hr; exact absurd hr (by decide)
          simp [JsNumber.truthy, this]
      · by_cases hsmall : z ≤ -(2 ^ 53)
        · rcases JsNumber.ofInt_small hsmall with h | ⟨r, hr, h⟩
          · rw [h]; rfl
          · rw [h]
            have : r ≠ 0 := by intro h0; rw [h0] at hr; exact absurd hr (by decide)
            simp [JsNumber.truthy, this]
        · rw [JsNumber.ofInt_exact (by omega)]
          simp [JsNumber.truthy, hz0]
    simp [orDefault, htr]
  · intro z hz hz0 hsize
    rw [hpage, hsome _ z hz, JsNumber.ofInt_exact hsize]
    simp [orDefault, JsNumber.truthy, hz0, JsNumber.max]
  · intro h
    rw [hlimit, hzero _ _ (hnone _ h)]
    rfl
  · intro z hz hz0
    rw [hlimit, hsome _ z hz]
    exact limit_of_numeral z hz0

/-- The query `page=2&limit=10`: the page is 2, the limit 10, and the product
`(2 - 1) * 10` is below 2^53, so the skip is that product. -/
theorem parsePaginationParams_bounds_witness :
    (parsePaginationParams ⟨some "2", some "10"⟩).skip = .int ((2 - 1) * 10) :=
  (parsePaginationParams_bounds ⟨some "2", some "10"⟩).2.2.2.2.1 2 10 (by decide) (by decide)
    (by decide)

/-- C25. For all integers `page` and `total` and every `limit` of at least 1,
`createPaginationMeta` returns as `totalPages` the quotient `total / limit`
rounded up, which is the least number of pages of `limit` rows that hold
`total` rows; `hasNext` is true exactly when `page * limit < total` and
`hasPrev` exactly when `page > 1`; `page`, `limit` and `total` come back as
they were given.  `paginatedResponse` returns the data as given together with
that metadata. -/
theorem createPaginationMeta_spec (page limit total : Int) (hl : 1 ≤ limit) :
    (createPaginationMeta page limit total).totalPages = ⌈(total : ℚ) / (limit : ℚ)⌉ ∧
    total ≤ (createPaginationMeta page limit total).totalPages * limit ∧
    ((createPaginationMeta page limit total).totalPages - 1) * limit < total ∧
    ((createPaginationMeta page limit total).hasNext = true ↔ page * limit < total) ∧
    ((createPaginationMeta page limit total).hasPrev = true ↔ page > 1) ∧
    (createPaginationMeta page limit total).page = page ∧
    (createPaginationMeta page limit total).limit = limit ∧
    (createPaginationMeta page limit total).total = total ∧
    (∀ (α : Type) (data : List α),
      (paginatedResponse data page limit total).data = data ∧
      (paginatedResponse data page limit total).pagination =
        createPaginationMeta page limit total) := by
  have hlq : (0 : ℚ) < (limit : ℚ) := by exact_mod_cast (by linarith : (0 : Int) < limit)
  have key : ∀ n : Int, n < ⌈(total : ℚ) / (limit : ℚ)⌉ ↔ n * limit < total := by
    intro n
    rw [Int.lt_ceil, lt_div_iff₀ hlq]
    exact_mod_cast Iff.rfl
  refine ⟨rfl, ?_, ?_, ?_, ?_, rfl, rfl, rfl, fun _ _ => ⟨rfl, rfl⟩⟩
  · show total ≤ ⌈(total : ℚ) / (limit : ℚ)⌉ * limit
    have := (key ⌈(total : ℚ) / (limit : ℚ)⌉).not.1 (lt_irrefl _)
    linarith
  · show (⌈(total : ℚ) / (limit : ℚ)⌉ - 1) * limit < total
    exact (key _).1 (by linarith)
  · show decide (page < ⌈(total : ℚ) / (limit : ℚ)⌉) = true ↔ _
    rw [decide_eq_true_iff]
    exact key page
  · show decide (page > 1) = true ↔ _
    rw [decide_eq_true_iff]

/-- The two calls of the unit test: 45 rows in pages of 10 make 5 pages; page 2
has a next and a previous page, page 5 has no next page. -/
theorem createPaginationMeta_samples :
    createPaginationMeta 2 10 45 = ⟨2, 10, 45, 5, true, true⟩ ∧
    createPaginationMeta 5 10 45 = ⟨5, 10, 45, 5, false, true⟩ := by
  have h : ⌈(45 : ℚ) / 10⌉ = 5 := by
    rw [Int.ceil_eq_iff]
    norm_num
  constructor
  · simp [createPaginationMeta, h]
  · simp [createPaginationMeta, h]

/-- The two calls of the unit test, read off the rule: 45 rows in pages of 10
make 5 pages; page 2 has a next and a previous page, page 5 has no next page. -/
theorem createPaginationMeta_spec_witness :
    (1 : Int) ≤ 10 ∧ (createPaginationMeta 2 10 45).totalPages = 5 ∧
    (createPaginationMeta 2 10 45).hasNext = true ∧
    (createPaginationMeta 2 10 45).hasPrev = true ∧
    (createPaginationMeta 5 10 45).hasNext = false := by
  have h2 := createPaginationMeta_spec 2 10 45 (by decide)
  have h5 := createPaginationMeta_spec 5 10 45 (by decide)
  refine ⟨by decide, ?_, h2.2.2.2.1.2 (by decide), h2.2.2.2.2.1.2 (by decide), ?_⟩
  · have ha := h2.2.1
    have hb := h2.2.2.1
    omega
  · cases h : (createPaginationMeta 5 10 45).hasNext
    · rfl
    · exact absurd (h5.2.2.2.1.1 h) (by decide)

/-! ## The job queue -/

/-- The delay grows with the number of failures. -/
theorem retryDelay_mono {j k : Nat} (h : j ≤ k) : retryDelay j ≤ retryDelay k := by
  unfold retryDelay
  exact min_le_min (Nat.mul_le_mul_left _ (Nat.pow_le_pow_right (by decide) h)) (le_refl _)

/-- The delay is at most half a minute. -/
theorem retryDelay_le (k : Nat) : retryDelay k ≤ 30000 := min_le_right _ _

/-- The delay after the first failures: 2, 4, 8 and 16 seconds, then 30. -/
theorem retryDelay_samples :
    [1, 2, 3, 4, 5, 6].map retryDelay = [2000, 4000, 8000, 16000, 30000, 30000] := by
  decide

/-- A job with one try that throws is run once and given up. -/
theorem addJob_single_try (n : Nat) :
    Loop.settle alwaysThrows (n + 1) (addJob alwaysThrows 0 1 Loop.idle) =
      { queue := { jobs := [], processing := false }, immediates := 0, timers := [],
        clock := 0, runs := [0], log := [.failed 1, .gaveUp] } := by
  cases n <;> rfl

/-- C26 (evaluation). A job is added with `retries = r`, with `r` at least 2,
to a queue in which nothing else is or will be queued, and its function throws
on every run.  The first run fails; a timer is set that will put the job back
after 2000 ms, and `processJobs` is called again at once.  That call finds the
queue empty and sets `processing` to false.  When the timer fires it pushes the
job and calls nothing: after any number of further turns of the event loop the
job has run once, lies in the queue with `attempts = 1`, no callback is held
back, and the line of the log that tells of the last failure was never
written. -/
theorem addJob_retry_never_runs (r : Nat) (hr : 2 ≤ r) (n : Nat) :
    Loop.settle alwaysThrows (n + 2) (addJob alwaysThrows 0 r Loop.idle) =
      { queue := { jobs := [{ jobFn := 0, retries := r, attempts := 1 }], processing := false },
        immediates := 0, timers := [], clock := 2000, runs := [0],
        log := [.failed 1, .retrying 2000] } ∧
    Loop.turn alwaysThrows
      (Loop.settle alwaysThrows (n + 2) (addJob alwaysThrows 0 r Loop.idle)) = none := by
  have hlt : 0 + 1 < r := hr
  have h0 : addJob alwaysThrows 0 r Loop.idle =
      { queue := { jobs := [], processing := true }, immediates := 1,
        timers := [(2000, { jobFn := 0, retries := r, attempts := 1 })], clock := 0,
        runs := [0], log := [.failed 1, .retrying 2000] } := by
    simp [addJob, processJobs, Loop.idle, alwaysThrows, hlt, retryDelay]
  have h2 : Loop.settle alwaysThrows (n + 2) (addJob alwaysThrows 0 r Loop.idle) =
      { queue := { jobs := [{ jobFn := 0, retries := r, attempts := 1 }], processing := false },
        immediates := 0, timers := [], clock := 2000, runs := [0],
        log := [.failed 1, .retrying 2000] } := by
    rw [h0]
    cases n <;> rfl
  rw [h2]
  exact ⟨rfl, rfl⟩

/-- With the default of three tries the job runs once, not three times. -/
theorem addJob_retry_never_runs_witness :
    (Loop.settle alwaysThrows 10 (addJob alwaysThrows 0 3 Loop.idle)).runs = [0] :=
  congrArg Loop.runs (addJob_retry_never_runs 3 (by decide) 8).1

/-! ## The stored one-time code -/

/-- C27 (evaluation). The secret stored for the code 123456 with the expiry
10:15:30.000 of 5 November 2026 is read back as the code 123456 and the date of
the text `2026-11-05T10`: the expiry holds two colons of its own, and the second
piece of the split ends at the first of them.  The secret with the expiry
10:45:00.000 is read back as the same pair.  So whatever date the engine makes
of that text, at 10:30:00 the two secrets are expired alike, while the first
expiry has passed and the second has not. -/
theorem parseMfaSecret_cuts_expiry (dateOf : String → Option Time) :
    mfaSecret "123456" quarterPast = "123456:2026-11-05T10:15:30.000Z" ∧
    parseMfaSecret dateOf (mfaSecret "123456" quarterPast)
      = ("123456", dateOf "2026-11-05T10") ∧
    parseMfaSecret dateOf (mfaSecret "123456" quarterTo)
      = ("123456", dateOf "2026-11-05T10") ∧
    (∀ now otp, checkMfaCode dateOf now (mfaSecret "123456" quarterPast) otp =
      checkMfaCode dateOf now (mfaSecret "123456" quarterTo) otp) ∧
    ¬ ((checkMfaCode dateOf 1793874600000 (mfaSecret "123456" quarterPast) "123456"
          = .error ⟨"MFA code expired"⟩ ↔ (1793874600000 : Time) > quarterPast) ∧
       (checkMfaCode dateOf 1793874600000 (mfaSecret "123456" quarterTo) "123456"
          = .error ⟨"MFA code expired"⟩ ↔ (1793874600000 : Time) > quarterTo)) := by
  have h1 : mfaSecret "123456" quarterPast = "123456:2026-11-05T10:15:30.000Z" := by decide
  have h2 : mfaSecret "123456" quarterTo = "123456:2026-11-05T10:45:00.000Z" := by decide
  have p1 : parseMfaSecret dateOf "123456:2026-11-05T10:15:30.000Z"
      = ("123456", dateOf "2026-11-05T10") := rfl
  have p2 : parseMfaSecret dateOf "123456:2026-11-05T10:45:00.000Z"
      = ("123456", dateOf "2026-11-05T10") := rfl
  have hsame : ∀ now otp, checkMfaCode dateOf now (mfaSecret "123456" quarterPast) otp =
      checkMfaCode dateOf now (mfaSecret "123456" quarterTo) otp := by
    intro now otp
    unfold checkMfaCode
    rw [h1, h2, p1, p2]
  refine ⟨h1, by rw [h1, p1], by rw [h2, p2], hsame, ?_⟩
  rintro ⟨ha, hb⟩
  rw [hsame] at ha
  have hpast : (1793874600000 : Time) > quarterPast := by decide
  have hto : ¬ (1793874600000 : Time) > quarterTo := by decide
  exact hto (hb.1 (ha.2 hpast))

/-! ## The guard and the sender of a request -/

/-- C28 (as stated, refuted). User 5 sends a POST to /consultations under the
key k1; it is answered 201 and the record is written with that user and the
hash of that request.  Within the hour user 6 sends a PUT to another path with
another body under k1: the guard answers with the status code and body stored
for user 5, and the handler of the second request does not run.  The digest
function is the identity here, so the two hashes differ as the requests do. -/
theorem idempotency_replays_to_stranger :
    (idempotencyMiddleware utc 24 id noFaults 0 countingHandler sampleRequest freshApp).2.keys.map
      (fun k => (k.key, k.userId, k.method, k.path)) =
        [("k1", some 5, "POST", "/consultations")] ∧
    strangerRequest.user ≠ sampleRequest.user ∧
    hashRequest id strangerRequest.method strangerRequest.path strangerRequest.body ≠
      hashRequest id sampleRequest.method sampleRequest.path sampleRequest.body ∧
    idempotencyMiddleware utc 24 id noFaults (1 * hourMs) otherHandler strangerRequest
      (idempotencyMiddleware utc 24 id noFaults 0 countingHandler sampleRequest freshApp).2 =
        (.ok { statusCode := 201, body := "created" },
          (idempotencyMiddleware utc 24 id noFaults 0 countingHandler sampleRequest freshApp).2) := by
  refine ⟨by decide, by decide, by decide, rfl⟩

/-- C28 (amended). A POST, PUT or PATCH request carries a key under which the
table holds a record that has not expired.  The guard answers with the stored
body and the stored status code and leaves the key table and the store as they
were, whoever sends the request and whatever its method, path and body: the
stored `userId` and `requestHash` are not read.  So two such requests under
one key get the same answer, also when one of them comes from another user or
has another hash than the record. -/
theorem idempotency_replay_any_sender (zone : TimeZone) (ttl : Int)
    (sha256 : String → String) (db : Faults)
    (now : Time) (a : App) (key : String) (existing : IdempotencyKey)
    (hne : key ≠ "") (hfound : a.keys.find? (fun k => k.key == key) = some existing)
    (hnow : now ≤ existing.expiresAt) (next : Handler) (req : Request)
    (hkey : req.idempotencyKey = some key)
    (hm : req.method = "POST" ∨ req.method = "PUT" ∨ req.method = "PATCH") :
    idempotencyMiddleware zone ttl sha256 db now next req a =
      (.ok { statusCode := if existing.statusCode = 0 then 200 else existing.statusCode
             body := existing.responseBody }, a) ∧
    (∀ (next1 : Handler) (req1 : Request), req1.idempotencyKey = some key →
      (req1.method = "POST" ∨ req1.method = "PUT" ∨ req1.method = "PATCH") →
      (req1.user ≠ existing.userId ∨
        hashRequest sha256 req1.method req1.path req1.body ≠ existing.requestHash) →
      idempotencyMiddleware zone ttl sha256 db now next1 req1 a =
        idempotencyMiddleware zone ttl sha256 db now next req a) := by
  have hreplay : ∀ (next1 : Handler) (req1 : Request), req1.idempotencyKey = some key →
      (req1.method = "POST" ∨ req1.method = "PUT" ∨ req1.method = "PATCH") →
      idempotencyMiddleware zone ttl sha256 db now next1 req1 a =
        (.ok { statusCode := if existing.statusCode = 0 then 200 else existing.statusCode
               body := existing.responseBody }, a) := by
    intro next1 req1 hk1 hm1
    rw [idempotencyMiddleware_eq zone ttl sha256 db now next1 req1 a key hk1 hne hm1, hfound]
    simp only
    rw [if_neg (not_lt.2 hnow)]
  refine ⟨hreplay next req hkey hm, ?_⟩
  intro next1 req1 hk1 hm1 _
  rw [hreplay next1 req1 hk1 hm1, hreplay next req hkey hm]

/-- The record under k1 was stored for user 5 and has not expired at hour 0:
the PUT of user 6 under k1 gets its status code and body. -/
theorem idempotency_replay_any_sender_witness :
    idempotencyMiddleware utc 24 id noFaults 0 otherHandler strangerRequest staleApp =
      (.ok { statusCode := 201, body := "old" }, staleApp) :=
  (idempotency_replay_any_sender utc 24 id noFaults 0 staleApp "k1"
    { key := "k1", userId := some 5, method := "POST", path := "/consultations",
      requestHash := "h", responseBody := "old", statusCode := 201, expiresAt := 1 * hourMs }
    (by decide) rfl (by decide) otherHandler strangerRequest rfl (Or.inr (Or.inl rfl))).1

/-! ## Cancelled consultations and their slots -/

/-- C29 (evaluation). The sample doctor opens a slot, patient 5 books it, and
the doctor sets the consultation to CANCELLED with `updateStatus`, which the
table of transitions admits.  The call returns, the consultation is CANCELLED,
and the slot is still BOOKED with no other consultation on it: `updateStatus`
writes the consultation only.  The same calls with `cancelConsultation` leave
the slot AVAILABLE. -/
theorem updateStatus_cancel_keeps_slot :
    isOk (updateStatus noFaults (3 * hourMs) 1 70 "CANCELLED" none bookedSample).1 = true ∧
    (run defaultConfig statusCancelCalls (Store.empty [sampleDoctor])).consultations.map
      (fun c => (c.id, c.slotId, c.status)) = [(1, 0, .CANCELLED)] ∧
    (run defaultConfig statusCancelCalls (Store.empty [sampleDoctor])).slots.map
      (fun x => (x.id, x.status)) = [(0, .BOOKED)] ∧
    ¬ CancelledReleases (run defaultConfig statusCancelCalls (Store.empty [sampleDoctor])) ∧
    (run defaultConfig cancelCalls (Store.empty [sampleDoctor])).consultations.map
      (fun c => (c.id, c.slotId, c.status)) = [(1, 0, .CANCELLED)] ∧
    (run defaultConfig cancelCalls (Store.empty [sampleDoctor])).slots.map
      (fun x => (x.id, x.status)) = [(0, .AVAILABLE)] ∧
    CancelledReleases (run defaultConfig cancelCalls (Store.empty [sampleDoctor])) := by
  have hpre : run defaultConfig (cancelCalls.take 2) (Store.empty [sampleDoctor]) = bookedSample := by
    decide
  have hrun : run defaultConfig cancelCalls (Store.empty [sampleDoctor]) =
      (cancelConsultation defaultConfig noFaults (3 * hourMs) 1 70 .DOCTOR bookedSample).2 := by
    rw [← hpre]
    rfl
  have hwin : ¬ getHoursDifference (3 * hourMs) (10 * hourMs) < ((2 : Nat) : ℚ) :=
    fun h => absurd ((getHoursDifference_lt (3 * hourMs) (10 * hourMs) 2).1 h) (by decide)
  have hcancel2 : cancelConsultation defaultConfig noFaults (3 * hourMs) 1 70 .DOCTOR
      bookedSample =
        (.ok { sampleConsultation with status := .CANCELLED },
          { bookedSample with
            consultations := bookedSample.consultations.map
              (fun x => if x.id = 1 then { x with status := .CANCELLED } else x)
            slots := bookedSample.slots.map
              (fun y => if y.id = sampleConsultation.slotId then { y with status := .AVAILABLE }
                else y) }) :=
    (cancelConsultation_eq ⟨((2 : Nat) : ℚ)⟩ noFaults (3 * hourMs) bookedSample 1 70
      .DOCTOR sampleConsultation { sampleSlot with status := .BOOKED } rfl (Or.inr rfl)
      (Or.inl rfl) rfl).trans ((if_neg hwin).trans (if_neg (by decide)))
  rw [hrun, hcancel2]
  refine ⟨by decide, by decide, by decide, by decide, by decide, by decide, by decide⟩

/-! ## The patient of a prescription -/

/-- C30 (as stated, refuted). The sample consultation is COMPLETED and its
patient is user 5.  Its doctor sends a body that names user 6 as the patient:
the call returns and the prescription written has `patientId = 6`. -/
theorem createPrescription_other_patient :
    completedClinic.store.consultations.map (fun c => (c.id, c.patientId)) = [(1, 5)] ∧
    (createPrescription noFaults 70 strangerPrescription completedClinic).2.prescriptions.map
      (fun p => (p.consultationId, p.patientId)) = [(1, 6)] := by
  decide

/-- C30 (amended). Every prescription that `createPrescription` returns has the
`patientId` and the `consultationId` of the request body and is the one row
added to the table; the consultation it names exists, is COMPLETED and has the
caller as its doctor.  The `patientId` of that consultation is not read. -/
theorem createPrescription_patient_of_body (db : Faults) (doctorId : Id)
    (data : PrescriptionData) (k : Clinic) (p : Prescription)
    (h : (createPrescription db doctorId data k).1 = .ok p) :
    p.patientId = data.patientId ∧ p.consultationId = data.consultationId ∧
    (createPrescription db doctorId data k).2.prescriptions = k.prescriptions ++ [p] ∧
    (createPrescription db doctorId data k).2.store.consultations = k.store.consultations ∧
    ∃ c, k.store.findConsultation data.consultationId = some c ∧ c.doctorId = doctorId ∧
      c.status = .COMPLETED := by
  rcases createPrescription_cases db doctorId data k with
    ⟨e, he⟩ | ⟨c, doctor, hc, hd, hs, -, -, hok⟩
  · rw [he] at h; cases h
  · rw [hok] at h ⊢
    cases h
    exact ⟨rfl, rfl, rfl, rfl, c, hc, hd, hs⟩

/-- The body that names user 6 for the consultation of patient 5 is written
with `patientId = 6`. -/
theorem createPrescription_patient_of_body_witness :
    (⟨3, 1, 7, 6, "paracetamol", none⟩ : Prescription).patientId = strangerPrescription.patientId :=
  (createPrescription_patient_of_body noFaults 70 strangerPrescription completedClinic
    ⟨3, 1, 7, 6, "paracetamol", none⟩ rfl).1

end Amrutam
